import Mathlib

/-!
# Verification of the Ribir incremental tree-reconciliation core

Shallow embedding of the reconciliation engine of the Ribir UI toolkit:

* `src/core/src/widget/widget_tree.rs` — the widget-tree arena, the dirty
  sets (`changed_widgets`, `need_builds`), the `repair` rebuild scheduler,
  the keyed diff (`try_replace_widget_or_rebuild`,
  `repair_children_by_key`), `inflate` and `WidgetId::drop`.
* `src/core/src/dynamic_widget.rs` — the dynamic-subtree engine
  (`DynRender`): `regen_if_need` with its `DynDepth` / `WholeSubtree`
  generation shapes, `spread`, `take_spread_cnt` and `perform_layout`.

Machine integers do not matter here (all quantities are small counts and
arena indices), so indices are `Nat`.  Code that can panic (`expect`,
`assert!`, `assert_eq!`, `unwrap`) is modelled in `Option`, `none`
standing for a panic; `debug_assert!` checks are compiled out in release
builds and are therefore not modelled.  Loops whose bound is not
structural carry explicit fuel.

Both Rust files store their trees in an `indextree::Arena`
(first-child / sibling links).  The embedding models a node as its
parent pointer plus the ordered list of its children, which represents
exactly the same information; sibling navigation is defined from the
ordered child list.
-/

set_option autoImplicit false

namespace Ribir

/-- Lifecycle callbacks observable during reconciliation.  `keyMounted`,
`keyDisposed` and `recordBeforeValue` are the `AnyKey` (key capability)
callbacks; `widgetMounted` / `widgetDisposed` are the per-node
`on_mounted` / `on_disposed` widget callbacks fired by
`on_mounted_subtree` / `remove_subtree`. -/
inductive Event where
  | keyMounted (k : Nat)
  | keyDisposed (k : Nat)
  | recordBeforeValue (k : Nat)
  | widgetMounted (id : Nat)
  | widgetDisposed (id : Nat)
deriving DecidableEq, Repr

/-- One arena node: parent link, ordered children, payload.  Mirrors an
`indextree` node (parent/first-child/sibling pointers) in list form. -/
structure Node (α : Type) where
  parent : Option Nat := none
  children : List Nat := []
  data : α
deriving Repr

/-- An `indextree::Arena` shallow embedding: a partial map from ids to
nodes plus the next free id. -/
structure Arena (α : Type) where
  nodes : Nat → Option (Node α)
  fresh : Nat

namespace Arena

variable {α : Type}

/-- The empty arena. -/
def empty : Arena α := ⟨fun _ => none, 0⟩

/-- `Arena::get`. -/
def get? (t : Arena α) (i : Nat) : Option (Node α) := t.nodes i

/-- Overwrite the node stored at `i`. -/
def setNode (t : Arena α) (i : Nat) (n : Node α) : Arena α :=
  { t with nodes := fun j => if j = i then some n else t.nodes j }

/-- Delete the node stored at `i`. -/
def eraseNode (t : Arena α) (i : Nat) : Arena α :=
  { t with nodes := fun j => if j = i then none else t.nodes j }

/-- Apply `f` to the node at `i` (no-op when `i` is unallocated). -/
def modifyNode (t : Arena α) (i : Nat) (f : Node α → Node α) : Arena α :=
  match t.nodes i with
  | none => t
  | some n => t.setNode i (f n)

/-- `Arena::new_node`: allocate a fresh detached node. -/
def alloc (t : Arena α) (d : α) : Arena α × Nat :=
  ({ nodes := fun j => if j = t.fresh then some ⟨none, [], d⟩ else t.nodes j,
     fresh := t.fresh + 1 },
   t.fresh)

/-- Payload of the node at `i`. -/
def dataOf? (t : Arena α) (i : Nat) : Option α := (t.get? i).map Node.data

/-- `NodeId::parent`. -/
def parentOf (t : Arena α) (i : Nat) : Option Nat := (t.get? i).bind Node.parent

/-- Ordered children of the node at `i` (empty when unallocated). -/
def childrenOf (t : Arena α) (i : Nat) : List Nat :=
  ((t.get? i).map Node.children).getD []

/-- `NodeId::first_child`. -/
def firstChild (t : Arena α) (i : Nat) : Option Nat := (childrenOf t i).head?

/-- `NodeId::last_child`. -/
def lastChild (t : Arena α) (i : Nat) : Option Nat := (childrenOf t i).getLast?

/-- The element directly after `a` in a list, if any. -/
def listNextAfter : List Nat → Nat → Option Nat
  | [], _ => none
  | [_], _ => none
  | x :: y :: xs, a => if x = a then some y else listNextAfter (y :: xs) a

/-- `NodeId::next_sibling`: the entry after `i` in its parent's ordered
child list. -/
def nextSibling (t : Arena α) (i : Nat) : Option Nat :=
  match parentOf t i with
  | none => none
  | some p => listNextAfter (childrenOf t p) i

/-- The node's only child, when it has exactly one child. -/
def onlyChild (t : Arena α) (i : Nat) : Option Nat :=
  match childrenOf t i with
  | [c] => some c
  | _ => none

/-- `NodeId::detach`: unlink `i` from its parent's child list. -/
def detach (t : Arena α) (i : Nat) : Arena α :=
  match parentOf t i with
  | none => t
  | some p =>
    (t.modifyNode p fun n => { n with children := n.children.erase i }).modifyNode i
      fun n => { n with parent := none }

/-- `NodeId::append`: detach `c`, then append it as the last child of
`p`. -/
def append (t : Arena α) (p c : Nat) : Arena α :=
  let t := t.detach c
  (t.modifyNode p fun n => { n with children := n.children ++ [c] }).modifyNode c
    fun n => { n with parent := some p }

/-- Insert `n` just before the first occurrence of `a` in a list (at the
end when `a` is absent). -/
def listInsertBefore : List Nat → Nat → Nat → List Nat
  | [], _, n => [n]
  | x :: xs, a, n => if x = a then n :: x :: xs else x :: listInsertBefore xs a n

/-- Insert `n` just after the first occurrence of `a` in a list (at the
end when `a` is absent). -/
def listInsertAfter : List Nat → Nat → Nat → List Nat
  | [], _, n => [n]
  | x :: xs, a, n => if x = a then x :: n :: xs else x :: listInsertAfter xs a n

/-- `NodeId::insert_before`: make `n` the previous sibling of `a`
(no-op when `a` has no parent). -/
def insertBefore (t : Arena α) (a n : Nat) : Arena α :=
  match parentOf t a with
  | none => t
  | some p =>
    let t := t.detach n
    (t.modifyNode p fun nd => { nd with children := listInsertBefore nd.children a n }).modifyNode
      n fun nd => { nd with parent := some p }

/-- `NodeId::insert_after`: make `n` the next sibling of `a` (no-op when
`a` has no parent). -/
def insertAfter (t : Arena α) (a n : Nat) : Arena α :=
  match parentOf t a with
  | none => t
  | some p =>
    let t := t.detach n
    (t.modifyNode p fun nd => { nd with children := listInsertAfter nd.children a n }).modifyNode
      n fun nd => { nd with parent := some p }

/-- Fuel-bounded ancestor chain.  Like `indextree`'s `ancestors`, the
chain starts with the node itself. -/
def ancestorsFrom (t : Arena α) : Nat → Nat → List Nat
  | 0, _ => []
  | fuel + 1, i =>
    i :: (match parentOf t i with
          | none => []
          | some p => ancestorsFrom t fuel p)

/-- `NodeId::ancestors`: this node and its ancestors, bottom up.  In a
well-formed arena every parent chain has length at most `fresh`, so fuel
`fresh + 1` never truncates. -/
def ancestors (t : Arena α) (i : Nat) : List Nat := ancestorsFrom t (t.fresh + 1) i

/-- Fuel-bounded pre-order subtree listing. -/
def subtreeAux (t : Arena α) : Nat → Nat → List Nat
  | 0, _ => []
  | fuel + 1, i => i :: ((childrenOf t i).map (subtreeAux t fuel)).foldr (· ++ ·) []

/-- `NodeId::descendants`: the node and all its descendants, pre-order.
In a well-formed arena depth is at most `fresh`, so fuel `fresh + 1`
never truncates. -/
def subtree (t : Arena α) (i : Nat) : List Nat := subtreeAux t (t.fresh + 1) i

/-- Delete every node of `ids` from the storage. -/
def eraseAll (t : Arena α) (ids : List Nat) : Arena α :=
  ids.foldl eraseNode t

end Arena

/-!
## Model of `src/core/src/widget/widget_tree.rs`

This file is an early snapshot of the engine: the widget tree and the
render tree are two separate arenas, cross-linked by the
`widget_to_render` table, and nothing in this file invokes any lifecycle
callback (`mounted` / `disposed` / `record_before_value` do not occur in
it).  The model records fired events anyway, so that "no callback
fires" is a statement, not a gap: every operation below leaves the event
log unchanged because the source fires nothing.
-/

namespace WT

/-- `WidgetClassify`: the closed widget-kind variant. -/
inductive WKind where
  | combination
  | singleChild
  | multiChild
  | render
deriving DecidableEq, Repr

/-- `BoxWidget`, a widget description.  `key` is what `Widget::key`
answers (the `KeyDetect` capability); `payload` stands for the widget's
own data (what `create_render_object` materialises and `update` pushes
into the render object); `sid` is the preallocated node id a
`StatefulWidget` answers from `dynamic_cast_ref` in
`WidgetTree::new_node`; `childDescr` is the children a
SingleChild/MultiChild widget still holds (consumed by
`take_child` / `take_children`).  A Combination widget's child comes from
its build closure, modelled by the `buildFn` environment below. -/
inductive BW where
  | mk (kind : WKind) (key : Option Nat) (payload : Nat) (sid : Option Nat)
      (childDescr : List BW)

/-- Widget kind. -/
def BW.kind : BW → WKind
  | .mk k _ _ _ _ => k

/-- `Widget::key`. -/
def BW.key : BW → Option Nat
  | .mk _ k _ _ _ => k

/-- The widget's own data. -/
def BW.payload : BW → Nat
  | .mk _ _ p _ _ => p

/-- The preallocated `StatefulWidget` id, when the widget is one. -/
def BW.sid : BW → Option Nat
  | .mk _ _ _ s _ => s

/-- Children still held by the description. -/
def BW.childDescr : BW → List BW
  | .mk _ _ _ _ c => c

/-- The description after `take_child` / `take_children` moved the
children out. -/
def BW.clearChildren : BW → BW
  | .mk k key p s _ => .mk k key p s []

/-- `classify().is_render()`: SingleChild, MultiChild and Render widgets
are render-capable. -/
def BW.isRender (w : BW) : Bool := w.kind != .combination

/-- `classify().is_combination()`. -/
def BW.isCombination (w : BW) : Bool := w.kind == .combination

/-- `WidgetTree` (widget_tree.rs:10–22): the arena, the root, the two
dirty sets and the WidgetId→RenderId table.  `HashSet` iteration order
is unspecified; the sets are modelled as duplicate-free lists whose
order stands for one arbitrary iteration order.  `events` records fired
lifecycle callbacks — no operation of this file fires any. -/
structure WidgetTree where
  arena : Arena BW
  root : Option Nat := none
  changedWidgets : List Nat := []
  needBuilds : List Nat := []
  widgetToRender : Nat → Option Nat := fun _ => none
  events : List Event := []

/-- A render object in the render tree: the owning widget and the data
last pushed into it. -/
structure RObj where
  widget : Nat
  objData : Nat
deriving DecidableEq, Repr

/-- Modelled from the spec: `render_tree.rs` is not under `src/`.  §6
gives the render-tree interface (`create_render_object`, attach,
`remove(RenderId)`, `update(RenderId, widget_data)`) and §4.1 says both
trees use the same arena abstraction.  A render node holds one render
object. -/
structure RenderTree where
  arena : Arena RObj
  root : Option Nat := none

/-- HashSet insert: insert only when absent (iteration position of a new
element is arbitrary; the model appends). -/
def insertSet (l : List Nat) (x : Nat) : List Nat :=
  if l.contains x then l else l ++ [x]

/-- Modelled from the spec: `RenderId::prepend_object` (§6 attach) —
create a render node for `wid` and link it as first child of `prid`. -/
def prependObject (rt : RenderTree) (prid wid obj : Nat) : RenderTree × Nat :=
  let (a, rid) := rt.arena.alloc ⟨wid, obj⟩
  let a := (a.modifyNode prid fun n => { n with children := rid :: n.children }).modifyNode rid
    fun n => { n with parent := some prid }
  ({ rt with arena := a }, rid)

/-- Modelled from the spec: `RenderTree::set_root` (§6) — create a
render node and make it the root. -/
def rtSetRoot (rt : RenderTree) (wid obj : Nat) : RenderTree × Nat :=
  let (a, rid) := rt.arena.alloc ⟨wid, obj⟩
  ({ arena := a, root := some rid }, rid)

/-- Modelled from the spec: `RenderId::drop` (§6 `remove(RenderId)`,
§4.2 Drop) — remove the render-object subtree rooted at `rid`. -/
def renderDrop (rt : RenderTree) (rid : Nat) : RenderTree :=
  let ids := rt.arena.subtree rid
  let a := (rt.arena.detach rid).eraseAll ids
  { arena := a, root := if rt.root = some rid then none else rt.root }

/-- Modelled from the spec: `update(RenderId, widget_data)` (§6) — push
`obj` into the existing render object; a missing id is a panic
(`"render object must exists!"`). -/
def renderUpdate (rt : RenderTree) (rid obj : Nat) : Option RenderTree :=
  match rt.arena.dataOf? rid with
  | none => none
  | some r =>
    some { rt with arena := rt.arena.modifyNode rid fun n =>
      { n with data := { r with objData := obj } } }

/-- `WidgetTree::new_node` (widget_tree.rs:36–42): a stateful widget is a
preallocated node and its existing id is returned; any other widget gets
a fresh arena node. -/
def newNode (t : WidgetTree) (w : BW) : WidgetTree × Nat :=
  match w.sid with
  | some i => (t, i)
  | none =>
    let (a, id) := t.arena.alloc w
    ({ t with arena := a }, id)

/-- `WidgetId::append_widget` (widget_tree.rs:308–312). -/
def appendWidget (t : WidgetTree) (p : Nat) (w : BW) : WidgetTree × Nat :=
  let (t, c) := newNode t w
  ({ t with arena := t.arena.append p c }, c)

/-- Overwrite the widget stored at `id`. -/
def setData (t : WidgetTree) (id : Nat) (w : BW) : WidgetTree :=
  { t with arena := t.arena.modifyNode id fun n => { n with data := w } }

/-- Is the widget stored at `id` render-capable? -/
def isRenderAt (t : WidgetTree) (id : Nat) : Bool :=
  match t.arena.dataOf? id with
  | some w => w.isRender
  | none => false

/-- `WidgetId::take_children` (widget_tree.rs:372–386).  A Combination
widget's child is produced by its build closure against current external
state — modelled by `buildFn` applied to the widget's payload; a
SingleChild/MultiChild widget moves its stored children out; a Render
widget has none. -/
def takeChildren (buildFn : Nat → BW) (t : WidgetTree) (id : Nat) :
    WidgetTree × Option (List BW) :=
  match t.arena.dataOf? id with
  | none => (t, none)
  | some w =>
    match w.kind with
    | .combination => (t, some [buildFn w.payload])
    | .singleChild => (setData t id w.clearChildren, some w.childDescr)
    | .multiChild => (setData t id w.clearChildren, some w.childDescr)
    | .render => (t, none)

/-- One step of the `WidgetTree::inflate` stack loop
(widget_tree.rs:53–80): realize the widget's render object (registering
it under the nearest render ancestor — `set_root` when there is none),
then append and push the children. -/
def inflateLoop (buildFn : Nat → BW) :
    Nat → List (Nat × Option Nat) → WidgetTree → RenderTree →
    Option (WidgetTree × RenderTree)
  | fuel, work, t, rt =>
    match work, fuel with
    | [], _ => some (t, rt)
    | _ :: _, 0 => none
    | (wid, parentRid) :: stack, fuel + 1 =>
    let (t, children) := takeChildren buildFn t wid
    let render : Option Nat :=
      match t.arena.dataOf? wid with
      | some w => if w.isRender then some w.payload else none
      | none => none
    let (rt, t, rid) :=
      match render with
      | some obj =>
        match parentRid with
        | some prid =>
          let (rt, rid) := prependObject rt prid wid obj
          (rt, { t with widgetToRender := fun j => if j = wid then some rid
                                                   else t.widgetToRender j }, some rid)
        | none =>
          let (rt, rid) := rtSetRoot rt wid obj
          (rt, { t with widgetToRender := fun j => if j = wid then some rid
                                                   else t.widgetToRender j }, some rid)
      | none => (rt, t, parentRid)
    match children with
    | none => inflateLoop buildFn fuel stack t rt
    | some cs =>
      let (t, pushed) := cs.foldl
        (fun acc w =>
          let (t, cid) := appendWidget acc.1 wid w
          (t, (cid, rid) :: acc.2))
        (t, [])
      inflateLoop buildFn fuel (pushed ++ stack) t rt

/-- `WidgetTree::inflate` (widget_tree.rs:45–82): find the nearest
render-capable ancestor's render id (the ancestor chain starts at `wid`
itself), then run the stack loop. -/
def inflate (fuel : Nat) (buildFn : Nat → BW) (wid : Nat) (t : WidgetTree)
    (rt : RenderTree) : Option (WidgetTree × RenderTree) :=
  let parentRid :=
    ((t.arena.ancestors wid).find? fun a => isRenderAt t a).bind t.widgetToRender
  inflateLoop buildFn fuel [(wid, parentRid)] t rt

/-- `WidgetId::down_nearest_render_widget` (widget_tree.rs:360–370):
walk down through Combination nodes by `single_child`
(= `first_child` + a release-mode `expect`). -/
def downNearestRenderWidget (t : WidgetTree) : Nat → Nat → Option Nat
  | 0, _ => none
  | fuel + 1, id =>
    if (match t.arena.dataOf? id with
        | some w => w.isCombination
        | none => false) then
      match t.arena.firstChild id with
      | some c => downNearestRenderWidget t fuel c
      | none => none
    else some id

/-- `WidgetId::relative_to_render` (widget_tree.rs:303–306). -/
def relativeToRender (t : WidgetTree) (id : Nat) : Option Nat :=
  (downNearestRenderWidget t (t.arena.fresh + 1) id).bind t.widgetToRender

/-- `WidgetId::drop` (widget_tree.rs:318–348): purge every descendant
from both dirty sets and (for render widgets) from `widget_to_render`,
drop the relative render subtree, then *detach* the widget subtree.  The
source deliberately does not deallocate the arena nodes — its own
comment reads "Fixme: memory leak here, node just detach and not
remove." — and the model preserves that. -/
def dropSubtree (t : WidgetTree) (rt : RenderTree) (id : Nat) :
    Option (WidgetTree × RenderTree) := do
  let rid ← relativeToRender t id
  let ids := t.arena.subtree id
  let told := t
  let t := { t with
    widgetToRender := fun w =>
      if ids.contains w && isRenderAt told w then none else t.widgetToRender w,
    changedWidgets := t.changedWidgets.filter fun c => !(ids.contains c),
    needBuilds := t.needBuilds.filter fun c => !(ids.contains c) }
  let rt := renderDrop rt rid
  let t := { t with arena := t.arena.detach id,
                    root := if t.root = some id then none else t.root }
  pure (t, rt)

/-- `WidgetId::mark_changed` (widget_tree.rs:239–245). -/
def markChanged (t : WidgetTree) (id : Nat) : Option WidgetTree :=
  match t.arena.dataOf? id with
  | none => none
  | some w =>
    if w.isRender then some { t with changedWidgets := insertSet t.changedWidgets id }
    else some { t with needBuilds := insertSet t.needBuilds id }

/-- `WidgetTree::pop_need_build_widget` (widget_tree.rs:212–224): take
some element of `need_builds` (`iter().next()`), then search its
ancestor chain — which starts at the element itself — for a member of
`need_builds`; remove and return what was found. -/
def popNeedBuildWidget (t : WidgetTree) : WidgetTree × Option Nat :=
  let topmost :=
    t.needBuilds.head?.bind fun id =>
      (t.arena.ancestors id).find? fun a => t.needBuilds.contains a
  match topmost with
  | some tm => ({ t with needBuilds := t.needBuilds.erase tm }, some tm)
  | none => (t, none)

/-- `WidgetTree::try_replace_widget_or_rebuild` (widget_tree.rs:140–167):
same key ⇒ overwrite the node's widget in place (adding it to
`changed_widgets` when render-capable) and push it on the repair stack;
otherwise drop the old subtree and inflate a fresh one under the same
parent. -/
def tryReplace (fuel : Nat) (buildFn : Nat → BW) (node : Nat) (w : BW)
    (stack : List Nat) (t : WidgetTree) (rt : RenderTree) :
    Option (List Nat × WidgetTree × RenderTree) :=
  let sameKey :=
    match w.key with
    | some k =>
      match t.arena.dataOf? node with
      | some old => old.key == some k
      | none => false
    | none => false
  if sameKey then do
    let t := if w.isRender then { t with changedWidgets := insertSet t.changedWidgets node }
             else t
    let _ ← t.arena.dataOf? node
    let t := setData t node w
    pure (node :: stack, t, rt)
  else do
    let p ← t.arena.parentOf node
    let (t, rt) ← dropSubtree t rt node
    let (t, cid) := appendWidget t p w
    let (t, rt) ← inflate fuel buildFn cid t rt
    pure (stack, t, rt)

/-- Overwriting insert into the key→id match map (`HashMap::insert`:
a colliding key keeps the last-inserted id). -/
def mapInsert (m : List (Nat × Nat)) (k id : Nat) : List (Nat × Nat) :=
  (k, id) :: m.filter fun e => e.1 ≠ k

/-- Lookup in the key→id match map. -/
def mapLookup (m : List (Nat × Nat)) (k : Nat) : Option Nat :=
  (m.find? fun e => e.1 = k).map Prod.snd

/-- `HashMap::remove`. -/
def mapRemove (m : List (Nat × Nat)) (k : Nat) : List (Nat × Nat) :=
  m.filter fun e => e.1 ≠ k

/-- First loop of `repair_children_by_key` (widget_tree.rs:179–191):
walk the existing children; a keyed child is detached into the key→id
map, a keyless child is dropped immediately and unconditionally. -/
def collectKeyChildren (t : WidgetTree) (rt : RenderTree) :
    List Nat → List (Nat × Nat) →
    Option (List (Nat × Nat) × WidgetTree × RenderTree)
  | [], m => some (m, t, rt)
  | id :: rest, m =>
    match (t.arena.dataOf? id).bind BW.key with
    | some k =>
      collectKeyChildren { t with arena := t.arena.detach id } rt rest (mapInsert m k id)
    | none => do
      let (t, rt) ← dropSubtree t rt id
      collectKeyChildren t rt rest m

/-- Second loop of `repair_children_by_key` (widget_tree.rs:193–205):
for each new child in order, a key match re-appends and reuses the
detached node (recursing through `try_replace_widget_or_rebuild`), and
anything else is inflated fresh at the end of the child list. -/
def matchNewChildren (fuel : Nat) (buildFn : Nat → BW) (node : Nat) :
    List BW → List (Nat × Nat) → List Nat → WidgetTree → RenderTree →
    Option (List (Nat × Nat) × List Nat × WidgetTree × RenderTree)
  | [], m, stack, t, rt => some (m, stack, t, rt)
  | w :: ws, m, stack, t, rt =>
    match w.key.bind fun k => (mapLookup m k).map ((k, ·)) with
    | some (k, id) => do
      let m := mapRemove m k
      let t := { t with arena := t.arena.append node id }
      let (stack, t, rt) ← tryReplace fuel buildFn id w stack t rt
      matchNewChildren fuel buildFn node ws m stack t rt
    | none => do
      let (t, cid) := appendWidget t node w
      let (t, rt) ← inflate fuel buildFn cid t rt
      matchNewChildren fuel buildFn node ws m stack t rt

/-- Third step of `repair_children_by_key` (widget_tree.rs:207–209):
every existing keyed child not consumed by a new child is dropped. -/
def dropLeftovers (t : WidgetTree) (rt : RenderTree) :
    List (Nat × Nat) → Option (WidgetTree × RenderTree)
  | [] => some (t, rt)
  | (_, id) :: rest => do
    let (t, rt) ← dropSubtree t rt id
    dropLeftovers t rt rest

/-- `WidgetTree::repair_children_by_key` (widget_tree.rs:172–210). -/
def repairChildrenByKey (fuel : Nat) (buildFn : Nat → BW) (node : Nat)
    (newChildren : List BW) (stack : List Nat) (t : WidgetTree) (rt : RenderTree) :
    Option (List Nat × WidgetTree × RenderTree) := do
  let kids := t.arena.childrenOf node
  let (m, t, rt) ← collectKeyChildren t rt kids []
  let (m, stack, t, rt) ← matchNewChildren fuel buildFn node newChildren m stack t rt
  let (t, rt) ← dropLeftovers t rt m
  pure (stack, t, rt)

/-- The inner stack loop of `WidgetTree::repair` (widget_tree.rs:93–111). -/
def repairInner (fuel : Nat) (buildFn : Nat → BW) :
    Nat → List Nat → WidgetTree → RenderTree → Option (WidgetTree × RenderTree)
  | inner, work, t, rt =>
    match work, inner with
    | [], _ => some (t, rt)
    | _ :: _, 0 => none
    | nb :: stack, inner + 1 =>
    let (t, children) := takeChildren buildFn t nb
    match children with
    | none => repairInner fuel buildFn inner stack t rt
    | some cs =>
      if cs.length = 1 then do
        let oldChild ← t.arena.firstChild nb
        let w ← cs.getLast?
        let (stack, t, rt) ← tryReplace fuel buildFn oldChild w stack t rt
        repairInner fuel buildFn inner stack t rt
      else do
        let (stack, t, rt) ← repairChildrenByKey fuel buildFn nb cs stack t rt
        repairInner fuel buildFn inner stack t rt

/-- `WidgetTree::flush_to_render` (widget_tree.rs:118–136): push each
changed widget's data into its mapped render object, then clear the
set. -/
def flushLoop (t : WidgetTree) : List Nat → RenderTree → Option RenderTree
  | [], rt => some rt
  | wid :: rest, rt => do
    let w ← t.arena.dataOf? wid
    let rid ← t.widgetToRender wid
    if w.isRender then
      let rt ← renderUpdate rt rid w.payload
      flushLoop t rest rt
    else none

/-- `flush_to_render`, wrapper clearing `changed_widgets`. -/
def flushToRender (t : WidgetTree) (rt : RenderTree) : Option (WidgetTree × RenderTree) := do
  let rt ← flushLoop t t.changedWidgets rt
  pure ({ t with changedWidgets := [] }, rt)

/-- The outer drain loop of `WidgetTree::repair` (widget_tree.rs:86–115):
pop need-build widgets until the set is empty, then flush. -/
def repair (buildFn : Nat → BW) :
    Nat → WidgetTree → RenderTree → Option (WidgetTree × RenderTree)
  | 0, _, _ => none
  | fuel + 1, t, rt =>
    match popNeedBuildWidget t with
    | (t, none) => flushToRender t rt
    | (t, some nb) => do
      let (t, rt) ← repairInner fuel buildFn fuel [nb] t rt
      repair buildFn fuel t rt

/-!
### Concrete states used as inputs of witnesses and counterexamples
-/

/-- A childless Combination widget description. -/
def bwComb (p : Nat) : BW := .mk .combination none p none []

/-- A render-leaf widget description. -/
def bwLeaf (key : Option Nat) (p : Nat) : BW := .mk .render key p none []

/-- A widget tree of two nested Combination widgets: node 0 is the root,
node 1 its child; both are in `need_builds`, an iteration order that
yields the child first. -/
def twoCombTree : WidgetTree :=
  { arena :=
      { nodes := fun j =>
          if j = 0 then some ⟨none, [1], bwComb 0⟩
          else if j = 1 then some ⟨some 0, [], bwComb 1⟩
          else none,
        fresh := 2 },
    root := some 0,
    needBuilds := [1, 0] }

/-- A widget tree whose root (node 0) is a MultiChild render widget with
one render-leaf child (node 1, keyed `7`); both are mapped to render
objects, and the leaf sits in `changed_widgets`. -/
def leafPairTree : WidgetTree :=
  { arena :=
      { nodes := fun j =>
          if j = 0 then some ⟨none, [1], .mk .multiChild none 0 none []⟩
          else if j = 1 then some ⟨some 0, [], bwLeaf (some 7) 1⟩
          else none,
        fresh := 2 },
    root := some 0,
    changedWidgets := [1],
    widgetToRender := fun j => if j = 0 then some 0 else if j = 1 then some 1 else none }

/-- The render tree matching `leafPairTree`: render node 0 (owned by
widget 0) with child render node 1 (owned by widget 1). -/
def leafPairRender : RenderTree :=
  { arena :=
      { nodes := fun j =>
          if j = 0 then some ⟨none, [1], ⟨0, 0⟩⟩
          else if j = 1 then some ⟨some 0, [], ⟨1, 1⟩⟩
          else none,
        fresh := 2 },
    root := some 0 }

/-- `leafPairTree` with an empty `changed_widgets` set: both dirty sets
are empty. -/
def quietTree : WidgetTree := { leafPairTree with changedWidgets := [] }

/-- Existing children of `quietTree`'s root as (id, key, payload)
triples: the single keyed leaf node 1. -/
def c5Rem : List (Nat × Option Nat × Nat) := [(1, (some 7, 1))]

/-- New children for the keyed-diff witness: one child matching key 7
with a new payload, and one keyless fresh child. -/
def c5News : List (Option Nat × Nat) := [(some 7, 9), (none, 5)]

/-- A repair scenario for the keyed reuse path: the root Combination
widget (node 0) is dirty, and its single child (node 1) is a render
leaf keyed `7` that the rebuilt generation reproduces with a new
payload. -/
def c1Tree : WidgetTree :=
  { arena :=
      { nodes := fun j =>
          if j = 0 then some ⟨none, [1], bwComb 5⟩
          else if j = 1 then some ⟨some 0, [], bwLeaf (some 7) 1⟩
          else none,
        fresh := 2 },
    root := some 0,
    needBuilds := [0],
    widgetToRender := fun j => if j = 1 then some 0 else none }

/-- The render tree matching `c1Tree`: one render object owned by
widget 1. -/
def c1Render : RenderTree :=
  { arena := { nodes := fun j => if j = 0 then some ⟨none, [], ⟨1, 1⟩⟩ else none,
               fresh := 1 },
    root := some 0 }

/-- The build closure of `c1Tree`'s root: the new generation is a
render leaf with the same key `7` and a new payload. -/
def c1Build : Nat → BW := fun _ => bwLeaf (some 7) 9

/-!
### Specification side of the keyed diff (C5)

The following two definitions follow the *claim's wording* for
`repair_children_by_key` (spec §4.2, "multiple new children"), not the
source; they are compared against the source model in the theorems.
-/

/-- Outcome of one keyed diff as the spec describes it: the final child
list in new-children order, the (old id, new widget) reuse pairs, and
the old keyed entries never consumed. -/
structure DiffOutcome where
  ids : List Nat
  updates : List (Nat × BW)
  leftover : List (Nat × Nat)

/-- The keyed-diff procedure in the spec's words: for each new child in
order, a key present in the match map re-parents/reuses that old node
(consuming the entry); everything else — keyless new children included —
is inflated fresh, taking the next free arena id; entries never consumed
are left over. -/
def keyedDiffSpec (m : List (Nat × Nat)) (fresh : Nat) : List BW → DiffOutcome
  | [] => ⟨[], [], m⟩
  | w :: ws =>
    match w.key with
    | some k =>
      match mapLookup m k with
      | some id =>
        let o := keyedDiffSpec (mapRemove m k) fresh ws
        ⟨id :: o.ids, (id, w) :: o.updates, o.leftover⟩
      | none =>
        let o := keyedDiffSpec m (fresh + 1) ws
        ⟨fresh :: o.ids, o.updates, o.leftover⟩
    | none =>
      let o := keyedDiffSpec m (fresh + 1) ws
      ⟨fresh :: o.ids, o.updates, o.leftover⟩

/-- The key→id match map built over the existing children (keyed entries
in order, keyless children skipped, collisions overwritten — last
wins). -/
def mapFold (m : List (Nat × Nat)) : List (Nat × Option Nat × Nat) → List (Nat × Nat)
  | [] => m
  | (id, some k, _) :: r => mapFold (mapInsert m k id) r
  | (_, none, _) :: r => mapFold m r

end WT

/-!
## Model of `src/core/src/dynamic_widget.rs`

This file is a later snapshot of the engine: a single tree arena whose
nodes carry render objects and the key (`AnyKey`) lifecycle callbacks,
and the `DynRender` generator with its `DynWidgetGenInfo` generation
shapes.  The helpers it calls from `widget_id.rs` (`empty_node`,
`swap_id`, `remove_subtree`, `on_mounted`, `on_mounted_subtree`,
`single_child`, `Widget::into_subtree`) are repository code that is not
under `src/`; each of them is modelled from the specification and marked
as such below.
-/

namespace DynW

/-- A node render slot: either the `DynRender` generator object itself
or an ordinary render object (`Void` is `plain 0`). -/
inductive RSlot where
  | dynR
  | plain (tag : Nat)
deriving DecidableEq, Repr

/-- Per-node widget data: the optional `Key` reachable through the
`AnyKey` query (the generator node proxies the query to its parked
render object, so its slot holds the previous first widget of the run),
the key state value (`record_before_value` records the previous
holder), and the render slot. -/
structure DWidget where
  key : Option Nat := none
  value : Nat := 0
  render : RSlot := .plain 0
deriving DecidableEq, Repr

/-- The single tree arena of this snapshot. -/
abbrev DArena := Arena DWidget

/-- Description of one widget produced by `dyns_into_widget`: key,
value, render tag and declared children. -/
inductive WDescr where
  | mk (key : Option Nat) (value : Nat) (tag : Nat) (children : List WDescr)

/-- Key of a description. -/
def WDescr.key : WDescr → Option Nat
  | .mk k _ _ _ => k

/-- Value of a description. -/
def WDescr.value : WDescr → Nat
  | .mk _ v _ _ => v

/-- Render tag of a description. -/
def WDescr.tag : WDescr → Nat
  | .mk _ _ tg _ => tg

/-- Children of a description. -/
def WDescr.children : WDescr → List WDescr
  | .mk _ _ _ cs => cs

/-- Node data realized from a description. -/
def WDescr.toData (d : WDescr) : DWidget :=
  { key := d.key, value := d.value, render := .plain d.tag }

/-- Tree state plus the log of fired lifecycle callbacks. -/
structure DState where
  arena : DArena
  events : List Event := []

/-- Append a fired callback to the log. -/
def fire (s : DState) (e : Event) : DState :=
  { s with events := s.events ++ [e] }

/-- `inspect_key` (dynamic_widget.rs:354–362): `assert_get` the node —
the outer `none` is the panic on an unallocated id — then report its
key (`none` inside: the `AnyKey` query found nothing and the callback
is skipped). -/
def inspectKey? (a : DArena) (id : Nat) : Option (Option Nat) :=
  (a.dataOf? id).map DWidget.key

/-- Modelled from the spec: `empty_node` (widget_id.rs, not under
`src/`) allocates a detached placeholder `Void` widget (§7(b): an empty
fragment "is normalized to a single placeholder widget"). -/
def emptyNode (a : DArena) : DArena × Nat :=
  a.alloc { key := none, value := 0, render := .plain 0 }

mutual
/-- Modelled from the spec: `Widget::into_subtree` (repository code not
under `src/`) realizes one produced widget description as a fresh
detached subtree and returns its root id (§4.3: "old nodes are deleted
and new ones inflated fresh"). -/
def intoSubtree : DArena → WDescr → DArena × Nat
  | a, .mk k v tg cs =>
    let r := a.alloc { key := k, value := v, render := .plain tg }
    (intoKids r.1 r.2 cs, r.2)

/-- Realize a description list as children of `p` (helper of
`intoSubtree`). -/
def intoKids : DArena → Nat → List WDescr → DArena
  | a, _, [] => a
  | a, p, c :: cs =>
    let r := intoSubtree a c
    intoKids (r.1.append p r.2) p cs
end

/-- Realize every description of a fragment, left to right, collecting
the subtree roots (`regen_if_need`'s `filter_map(into_subtree)`
collect, dynamic_widget.rs:166–170). -/
def realizeAll : DArena → List WDescr → DArena × List Nat
  | a, [] => (a, [])
  | a, d :: ds =>
    let r := intoSubtree a d
    let q := realizeAll r.1 ds
    (q.1, r.2 :: q.2)

/-- Modelled from the spec: `WidgetId::remove_subtree` (repository code
not under `src/`) detaches the node and deallocates every node of its
subtree, firing the widget-level `disposed` callback once per subtree
node (§3: "remove_subtree(id) (detach + deallocate every descendant
...)"; §8: "every widget present only in the old generation fires
`disposed` exactly once"). -/
def removeSubtree (s : DState) (id : Nat) : DState :=
  let ids := s.arena.subtree id
  { arena := (s.arena.detach id).eraseAll ids,
    events := s.events ++ ids.map Event.widgetDisposed }

/-- Modelled from the spec: `WidgetId::on_mounted` (repository code not
under `src/`) fires the node widget-level `mounted` callback (§8:
"every widget present only in the new generation fires `mounted`
exactly once"). -/
def onMounted (s : DState) (id : Nat) : DState :=
  fire s (.widgetMounted id)

/-- Modelled from the spec: `WidgetId::on_mounted_subtree` (repository
code not under `src/`) fires the widget-level `mounted` callback once
per node of the subtree. -/
def onMountedSubtree (s : DState) (id : Nat) : DState :=
  { s with events := s.events ++ (s.arena.subtree id).map Event.widgetMounted }

/-- Transposition of two ids. -/
def swapNat (x y i : Nat) : Nat :=
  if i = x then y else if i = y then x else i

/-- Modelled from the spec: `WidgetId::swap_id` (repository code not
under `src/`) exchanges the two ids everywhere in the arena — node
storage, parent links and child lists — so each id takes over the other
tree position (the call site comment, dynamic_widget.rs:181: "swap the
new sign and old, so we can always keep the sign id not change"). -/
def swapId (a : DArena) (x y : Nat) : DArena :=
  { nodes := fun i =>
      (a.nodes (swapNat x y i)).map fun n =>
        { parent := n.parent.map (swapNat x y),
          children := n.children.map (swapNat x y),
          data := n.data },
    fresh := a.fresh }

/-- `DynWidgetGenInfo` (dynamic_widget.rs:10–19). -/
inductive DynWidgetGenInfo where
  | dynDepth (depth : Nat)
  | wholeSubtree (width : Nat) (directlySpread : Bool)
deriving DecidableEq, Repr

/-- Do two generation infos have the same kind? -/
def DynWidgetGenInfo.sameKind : DynWidgetGenInfo → DynWidgetGenInfo → Bool
  | .dynDepth _, .dynDepth _ => true
  | .wholeSubtree _ _, .wholeSubtree _ _ => true
  | _, _ => false

/-- `DynRender` (dynamic_widget.rs:52–57): the pending generation (the
`dyns` of the backing `DynWidget`, `none` when nothing to regenerate),
the parked render object, and the generation info. -/
structure DynRender where
  dyns : Option (List WDescr) := none
  selfRender : RSlot := .plain 0
  genInfo : Option DynWidgetGenInfo := none

/-- The two `mem::swap`s of `regen_if_need` (dynamic_widget.rs:176–179
and 291–295): exchange the parked render object with the one stored at
the sign node; `assert_get_mut` on an unallocated id is a panic. -/
def swapSelfRender (dr : DynRender) (a : DArena) (sign : Nat) :
    Option (DynRender × DArena) :=
  match a.dataOf? sign with
  | none => none
  | some d =>
    some ({ dr with selfRender := d.render },
      a.modifyNode sign fun n => { n with data := { n.data with render := dr.selfRender } })

/-- `single_down` (dynamic_widget.rs:364–371), reading `single_child`
per §4.3 as "walking down through single-child links": walk `lvl`
single-child steps; the outer `none` is the mid-walk `unwrap` panic. -/
def singleDown (a : DArena) : Option Nat → Nat → Option (Option Nat)
  | res, 0 => some res
  | res, lvl + 1 =>
    match res with
    | none => none
    | some id => singleDown a (a.onlyChild id) lvl

/-- `down_to_leaf` (dynamic_widget.rs:373–381): follow single-child
links down to the leaf, counting the steps; fuel `fresh + 1` never runs
out on a well-formed arena. -/
def downToLeaf (a : DArena) : Nat → Nat → Nat → Option (Nat × Nat)
  | 0, _, _ => none
  | fuel + 1, id, depth =>
    match a.onlyChild id with
    | none => some (id, depth)
    | some c => downToLeaf a fuel c (depth + 1)

/-- The mount walk of the `DynDepth` branch (dynamic_widget.rs:227–233),
translated literally: the source computes
`w.single_child(arena).unwrap()` but never assigns the result back to
`w`, so the cursor never advances and the walk ends only when the first
node already is the leaf (fuel exhaustion models the resulting
non-termination). -/
def mountChainLoop (a : DArena) : Nat → Nat → Nat → List Event → Option (List Event)
  | 0, _, _, _ => none
  | fuel + 1, w, newLeaf, evs =>
    let evs := evs ++ [Event.widgetMounted w]
    if w = newLeaf then some evs
    else
      match a.onlyChild w with
      | none => none
      | some _ => mountChainLoop a fuel w newLeaf evs

/-- Key lifecycle block of the `DynDepth` branch
(dynamic_widget.rs:212–225), run after the old subtree was removed:
with a keyed old root and a keyed new root the source re-inspects the
removed old id, which is an `assert_get` panic. -/
def ddKeyLifecycle (ok? : Option Nat) (sign oldSign : Nat) (s : DState) :
    Option DState :=
  match ok? with
  | none => some s
  | some okk => do
    let nk? ← inspectKey? s.arena sign
    match nk? with
    | none => some s
    | some nk =>
      if okk = nk then do
        let _ ← inspectKey? s.arena oldSign
        some (fire s (.recordBeforeValue nk))
      else do
        let _ ← inspectKey? s.arena oldSign
        some (fire (fire s (.keyDisposed okk)) (.keyMounted nk))

/-- The `DynDepth` branch of `regen_if_need` (dynamic_widget.rs:187–236):
assert the generation is a single widget, locate the static-child
boundary below the old root and the leaf below the new root, re-attach
the declared children (the child iterator is modelled as a snapshot of
the child list), splice the new root in after the old one, remove the
old subtree, fire the key lifecycle — note the source inspects the old
root again after its removal, which `assert_get`-panics whenever both
old and new roots hold keys — and mount the new chain. -/
def regenDynDepth (fuel : Nat) (sign oldSign depth : Nat) (ids : List Nat)
    (s : DState) : Option (DynWidgetGenInfo × DState) := do
  if ids.length = 1 then do
    let dcp? ← singleDown s.arena (some oldSign) (depth - 1)
    let lf ← downToLeaf s.arena (s.arena.fresh + 1) sign 0
    let a :=
      match dcp? with
      | some dcp => (s.arena.childrenOf dcp).foldl (fun acc c => acc.append lf.1 c) s.arena
      | none => s.arena
    let s := { s with arena := a }
    let ok? ← inspectKey? s.arena oldSign
    let s := { s with arena := s.arena.insertAfter oldSign sign }
    let s := removeSubtree s oldSign
    let s ← ddKeyLifecycle ok? sign oldSign s
    let evs ← mountChainLoop s.arena fuel sign lf.1 s.events
    some (.dynDepth (lf.2 + 1), { s with events := evs })
  else none

/-- Insertion loop of the `WholeSubtree` branch
(dynamic_widget.rs:239–243): the new widgets are walked in reverse and
each is inserted before the running cursor. -/
def insertRunBefore (a : DArena) (anchor : Nat) : List Nat → DArena
  | [] => a
  | n :: rest => insertRunBefore (a.insertBefore anchor n) n rest

/-- Key-map collection over the old run (dynamic_widget.rs:245–256):
walk `width` old siblings; a key holder is recorded in the key→node map
(`HashMap::insert`: a colliding key keeps the last-inserted id);
`remove.unwrap()` on a too-short run is a panic. -/
def collectOldKeys (a : DArena) : Nat → Option Nat → List (Nat × Nat) →
    Option (List (Nat × Nat))
  | 0, _, m => some m
  | cnt + 1, cur, m => do
    let o ← cur
    let k? ← inspectKey? a o
    let m :=
      match k? with
      | some k => WT.mapInsert m k o
      | none => m
    collectOldKeys a cnt (a.nextSibling o) m

/-- New-widget key pass of the `WholeSubtree` branch
(dynamic_widget.rs:258–270): a key match fires `record_before_value` on
the new widget and consumes the map entry; an unmatched keyed new
widget fires the key-level `mounted`. -/
def matchKeysPass (s : DState) (m : List (Nat × Nat)) :
    List Nat → Option (DState × List (Nat × Nat))
  | [] => some (s, m)
  | n :: rest => do
    let k? ← inspectKey? s.arena n
    match k? with
    | none => matchKeysPass s m rest
    | some k =>
      match WT.mapLookup m k with
      | some oldId => do
        let ok? ← inspectKey? s.arena oldId
        let s := if ok?.isSome then fire s (.recordBeforeValue k) else s
        matchKeysPass s (WT.mapRemove m k) rest
      | none => matchKeysPass (fire s (.keyMounted k)) m rest

/-- Leftover pass of the `WholeSubtree` branch
(dynamic_widget.rs:272–276): every unconsumed old key holder fires the
key-level `disposed`. -/
def disposeLeftovers (s : DState) : List (Nat × Nat) → Option DState
  | [] => some s
  | e :: rest => do
    let k? ← inspectKey? s.arena e.2
    let s :=
      match k? with
      | some kk => fire s (.keyDisposed kk)
      | none => s
    disposeLeftovers s rest

/-- Removal loop of the `WholeSubtree` branch
(dynamic_widget.rs:278–283): remove exactly `width` old sibling
subtrees, capturing each next sibling before the removal. -/
def removeRun (s : DState) : Nat → Option Nat → Option DState
  | 0, _ => some s
  | cnt + 1, cur => do
    let o ← cur
    let nxt := s.arena.nextSibling o
    removeRun (removeSubtree s o) cnt nxt

/-- The `WholeSubtree` branch of `regen_if_need`
(dynamic_widget.rs:238–289): splice the new run in before the old one,
match keys across the two runs, dispose the leftovers, remove the old
run, mount every new subtree, and record the new width (the
`directly_spread` flag is carried over unchanged). -/
def regenWholeSubtree (oldSign width : Nat) (dsF : Bool) (ids : List Nat)
    (s : DState) : Option (DynWidgetGenInfo × DState) := do
  let s := { s with arena := insertRunBefore s.arena oldSign ids.reverse }
  let m ← collectOldKeys s.arena width (some oldSign) []
  let (s, m) ← matchKeysPass s m ids
  let s ← disposeLeftovers s m
  let s ← removeRun s width (some oldSign)
  let s := ids.foldl onMountedSubtree s
  some (.wholeSubtree ids.length dsF, s)

/-- `DynRender::regen_if_need` (dynamic_widget.rs:143–296): take the
pending generation (return silently when there is none), initialize the
generation info on first use (`DynDepth(1)` when the sign already has a
child, else `WholeSubtree{width: 1, directly_spread: false}`), realize
the fragment (normalizing an empty one to a single placeholder), park
the old render object in the sign node, swap the sign id with the first
new widget id, run the branch for the generation kind, and swap the
generator object back into the sign node. -/
def regenIfNeed (fuel : Nat) (dr : DynRender) (sign : Nat) (s : DState) :
    Option (DynRender × DState) :=
  match dr.dyns with
  | none => some (dr, s)
  | some descrs => do
    let gi := dr.genInfo.getD
      (if s.arena.childrenOf sign = [] then .wholeSubtree 1 false else .dynDepth 1)
    let r := realizeAll s.arena descrs
    let (a, newIds) :=
      if r.2 = [] then
        let e := emptyNode r.1
        (e.1, [e.2])
      else r
    let (dr1, a) ← swapSelfRender { dr with dyns := none } a sign
    let first ← newIds.head?
    let a := swapId a sign first
    let ids := sign :: newIds.tail
    let s := { s with arena := a }
    let (gi2, s) ←
      match gi with
      | .dynDepth depth => regenDynDepth fuel sign first depth ids s
      | .wholeSubtree width dsF => regenWholeSubtree first width dsF ids s
    let (dr2, a) ← swapSelfRender dr1 s.arena sign
    some ({ dr2 with genInfo := some gi2 }, { s with arena := a })

/-- `DynRender::take_spread_cnt` (dynamic_widget.rs:298–308): consume a
pending `directly_spread` flag, reporting the construction width. -/
def takeSpreadCnt (dr : DynRender) : DynRender × Option Nat :=
  match dr.genInfo with
  | some (.wholeSubtree w true) =>
    ({ dr with genInfo := some (.wholeSubtree w false) }, some w)
  | _ => (dr, none)

/-- The spread mount pass of `DynRender::perform_layout`
(dynamic_widget.rs:70–78): starting at the anchor, fire the key-level
and widget-level `mounted` on `width` consecutive siblings;
`sibling.unwrap()` on a too-short run is a panic. -/
def mountSiblingsLoop (a : DArena) : Nat → Option Nat → List Event →
    Option (List Event)
  | 0, _, evs => some evs
  | cnt + 1, sib, evs => do
    let w ← sib
    let k? ← inspectKey? a w
    let evs :=
      evs ++ (match k? with
              | some k => [Event.keyMounted k]
              | none => []) ++ [Event.widgetMounted w]
    mountSiblingsLoop a cnt (a.nextSibling w) evs

/-- `DynRender::perform_layout` (dynamic_widget.rs:65–85), tree effects
only: the size computation delegates to the parked render object and
does not touch the tree. -/
def performLayout (fuel : Nat) (dr : DynRender) (sign : Nat) (s : DState) :
    Option (DynRender × DState) :=
  match takeSpreadCnt dr with
  | (dr1, some width) => do
    let evs ← mountSiblingsLoop s.arena width (some sign) s.events
    some (dr1, { s with events := evs })
  | (dr1, none) => regenIfNeed fuel dr1 sign s

/-- `DynRender::spread` (dynamic_widget.rs:115–141): take the produced
widgets (substituting one `Void` when the fragment is empty) and build
the anchor `DynRender`, whose generation info is
`WholeSubtree { width, directly_spread: true }` and whose pending
generation was consumed by the construction; the wrapped anchor render
object is abstracted as `plain 0`.  The caller receives the widget list
to mount beside the anchor. -/
def spread (descrs : List WDescr) : DynRender × List WDescr :=
  let ws := if descrs.isEmpty then [WDescr.mk none 0 0 []] else descrs
  ({ dyns := none, selfRender := .plain 0,
     genInfo := some (.wholeSubtree ws.length true) },
   ws)

/-!
### Concrete generator states used as inputs of witnesses and
counterexamples
-/

/-- Parent node data of the generator scenarios: a keyless multi-child
render container. -/
def dynParent : DWidget := { key := none, value := 0, render := .plain 9 }

/-- A width-2 `WholeSubtree` run: parent 0 with the generator anchor at
node 1 (previous first widget keyed 7) and the second old sibling at
node 2 (keyed 8). -/
def wsTree2 : DArena :=
  { nodes := fun j =>
      if j = 0 then some ⟨none, [1, 2], dynParent⟩
      else if j = 1 then some ⟨some 0, [], { key := some 7, value := 1, render := .dynR }⟩
      else if j = 2 then some ⟨some 0, [], { key := some 8, value := 1, render := .plain 0 }⟩
      else none,
    fresh := 3 }

/-- A width-1 `WholeSubtree` run: parent 0 with the childless generator
at node 1 (previous widget keyless, value `v`). -/
def wsTree1 (v : Nat) : DArena :=
  { nodes := fun j =>
      if j = 0 then some ⟨none, [1], dynParent⟩
      else if j = 1 then some ⟨some 0, [], { key := none, value := v, render := .dynR }⟩
      else none,
    fresh := 2 }

/-- A depth-1 `DynDepth` shape: parent 0, generator at node 1 (previous
widget keyless, value `v`), declared static child at node 2. -/
def ddTree (v : Nat) : DArena :=
  { nodes := fun j =>
      if j = 0 then some ⟨none, [1], dynParent⟩
      else if j = 1 then some ⟨some 0, [2], { key := none, value := v, render := .dynR }⟩
      else if j = 2 then some ⟨some 1, [], { key := none, value := 0, render := .plain 1 }⟩
      else none,
    fresh := 3 }

/-- The pending width-2 keyed regeneration driven against `wsTree2`:
both keys 7 and 8 are present in the old and in the new generation. -/
def c1Dyn : DynRender :=
  { dyns := some [WDescr.mk (some 7) 9 3 [], WDescr.mk (some 8) 5 4 []],
    selfRender := .plain 0, genInfo := some (.wholeSubtree 2 false) }

/-- Decidable check that a list names consecutive siblings, each
allocated in the arena. -/
def sibRunOk (a : DArena) : List Nat → Bool
  | [] => true
  | x :: rest =>
    (a.dataOf? x).isSome &&
    (match rest with
     | [] => true
     | y :: _ => a.nextSibling x == some y) &&
    sibRunOk a rest

/-- The mount events the spread pass fires for one node: the key-level
`mounted` when the node holds a key, then the widget-level `mounted`. -/
def mountEvents (a : DArena) (id : Nat) : List Event :=
  (match (a.dataOf? id).bind DWidget.key with
   | some k => [Event.keyMounted k]
   | none => []) ++ [Event.widgetMounted id]

/-- The fragment behind the spread-construction scenario: the keyed
anchor and a keyless sibling. -/
def c7Descrs : List WDescr := [WDescr.mk (some 5) 1 2 [], WDescr.mk none 2 3 []]

/-- The tree after a spread construction of `c7Descrs` was mounted:
parent 0, anchor at node 1 (keyed 5, carrying the generator), sibling
at node 2. -/
def c7Tree : DArena :=
  { nodes := fun j =>
      if j = 0 then some ⟨none, [1, 2], dynParent⟩
      else if j = 1 then some ⟨some 0, [], { key := some 5, value := 1, render := .dynR }⟩
      else if j = 2 then some ⟨some 0, [], { key := none, value := 2, render := .plain 3 }⟩
      else none,
    fresh := 3 }

/-- A pending generation under an established width-1 `WholeSubtree`
info: the regeneration driven against `wsTree1`. -/
def c4dr (ds : List WDescr) : DynRender :=
  { dyns := some ds, selfRender := .plain 0, genInfo := some (.wholeSubtree 1 false) }

/-- A three-widget flat fragment (one keyed) for the sibling-count
witness. -/
def c4Descrs : List WDescr :=
  [WDescr.mk none 8 1 [], WDescr.mk (some 3) 9 2 [], WDescr.mk none 10 4 []]

/-- A pending single-widget first generation (no generation info
yet). -/
def c6Init : DynRender :=
  { dyns := some [WDescr.mk none 4 3 []], selfRender := .plain 0,
    genInfo := none }

/-- A pending single-widget generation under an established `DynDepth`
info. -/
def c6Single : DynRender :=
  { dyns := some [WDescr.mk none 4 3 []], selfRender := .plain 0,
    genInfo := some (.dynDepth 1) }

/-- A pending two-widget generation under an established `DynDepth`
info: a kind-switch attempt. -/
def c6Multi : DynRender :=
  { dyns := some [WDescr.mk none 4 3 [], WDescr.mk none 5 4 []],
    selfRender := .plain 0, genInfo := some (.dynDepth 1) }

end DynW

/-!
## Theorems

From here on the file only proves properties of the definitions above.
-/

namespace Arena

variable {α : Type}

@[simp] theorem get?_setNode_self (t : Arena α) (i : Nat) (n : Node α) :
    (t.setNode i n).get? i = some n := by
  simp [get?, setNode]

theorem get?_setNode_ne (t : Arena α) (i j : Nat) (n : Node α) (h : j ≠ i) :
    (t.setNode i n).get? j = t.get? j := by
  simp [get?, setNode, h]

@[simp] theorem fresh_setNode (t : Arena α) (i : Nat) (n : Node α) :
    (t.setNode i n).fresh = t.fresh := rfl

@[simp] theorem fresh_modifyNode (t : Arena α) (i : Nat) (f : Node α → Node α) :
    (t.modifyNode i f).fresh = t.fresh := by
  unfold modifyNode
  cases t.nodes i <;> rfl

@[simp] theorem fresh_detach (t : Arena α) (i : Nat) : (t.detach i).fresh = t.fresh := by
  unfold detach
  cases parentOf t i <;> simp

@[simp] theorem fresh_append (t : Arena α) (p c : Nat) : (t.append p c).fresh = t.fresh := by
  unfold append
  simp

@[simp] theorem fresh_insertBefore (t : Arena α) (a n : Nat) :
    (t.insertBefore a n).fresh = t.fresh := by
  unfold insertBefore
  cases parentOf t a <;> simp

@[simp] theorem fresh_insertAfter (t : Arena α) (a n : Nat) :
    (t.insertAfter a n).fresh = t.fresh := by
  unfold insertAfter
  cases parentOf t a <;> simp

theorem get?_modifyNode_ne (t : Arena α) (i j : Nat) (f : Node α → Node α) (h : j ≠ i) :
    (t.modifyNode i f).get? j = t.get? j := by
  unfold modifyNode
  cases t.nodes i with
  | none => rfl
  | some n => exact get?_setNode_ne _ _ _ _ h

theorem dataOf?_modifyNode_ne (t : Arena α) (i j : Nat) (f : Node α → Node α) (h : j ≠ i) :
    (t.modifyNode i f).dataOf? j = t.dataOf? j := by
  simp [dataOf?, get?_modifyNode_ne t i j f h]

/-- A `modifyNode` whose function keeps the payload leaves every
`dataOf?` unchanged. -/
theorem dataOf?_modifyNode_presData (t : Arena α) (i j : Nat) (f : Node α → Node α)
    (hf : ∀ n, (f n).data = n.data) : (t.modifyNode i f).dataOf? j = t.dataOf? j := by
  by_cases hj : j = i
  · subst hj
    unfold modifyNode
    cases hn : t.nodes j with
    | none => rfl
    | some n => simp [dataOf?, get?, setNode, hf n, hn]
  · exact dataOf?_modifyNode_ne _ _ _ _ hj

/-- `detach` only touches parent/children links, never payloads. -/
theorem dataOf?_detach (t : Arena α) (i j : Nat) : (t.detach i).dataOf? j = t.dataOf? j := by
  unfold detach
  cases h : parentOf t i with
  | none => rfl
  | some p =>
    dsimp only
    simp [dataOf?_modifyNode_presData]

/-- `append` only touches parent/children links, never payloads. -/
theorem dataOf?_append (t : Arena α) (p c j : Nat) : (t.append p c).dataOf? j = t.dataOf? j := by
  unfold append
  dsimp only
  simp [dataOf?_modifyNode_presData, dataOf?_detach]

/-- `insertBefore` only touches parent/children links, never payloads. -/
theorem dataOf?_insertBefore (t : Arena α) (a n j : Nat) :
    (t.insertBefore a n).dataOf? j = t.dataOf? j := by
  unfold insertBefore
  cases h : parentOf t a with
  | none => rfl
  | some p =>
    dsimp only
    simp [dataOf?_modifyNode_presData, dataOf?_detach]

/-- `insertAfter` only touches parent/children links, never payloads. -/
theorem dataOf?_insertAfter (t : Arena α) (a n j : Nat) :
    (t.insertAfter a n).dataOf? j = t.dataOf? j := by
  unfold insertAfter
  cases h : parentOf t a with
  | none => rfl
  | some p =>
    dsimp only
    simp [dataOf?_modifyNode_presData, dataOf?_detach]

theorem get?_modifyNode_isSome (t : Arena α) (i j : Nat) (f : Node α → Node α) :
    ((t.modifyNode i f).get? j).isSome = (t.get? j).isSome := by
  by_cases hj : j = i
  · subst hj
    unfold modifyNode
    cases hn : t.nodes j with
    | none => rfl
    | some n => simp [get?, setNode, hn]
  · rw [get?_modifyNode_ne _ _ _ _ hj]

theorem parentOf_modifyNode_presParent (t : Arena α) (i j : Nat) (f : Node α → Node α)
    (hf : ∀ n, (f n).parent = n.parent) : (t.modifyNode i f).parentOf j = t.parentOf j := by
  by_cases hj : j = i
  · subst hj
    unfold modifyNode
    cases hn : t.nodes j with
    | none => rfl
    | some n => simp [parentOf, get?, setNode, hn, hf n]
  · unfold parentOf
    rw [get?_modifyNode_ne _ _ _ _ hj]

theorem childrenOf_modifyNode_presChildren (t : Arena α) (i j : Nat) (f : Node α → Node α)
    (hf : ∀ n, (f n).children = n.children) :
    (t.modifyNode i f).childrenOf j = t.childrenOf j := by
  by_cases hj : j = i
  · subst hj
    unfold modifyNode
    cases hn : t.nodes j with
    | none => rfl
    | some n => simp [childrenOf, get?, setNode, hn, hf n]
  · unfold childrenOf
    rw [get?_modifyNode_ne _ _ _ _ hj]

theorem get?_modifyNode (t : Arena α) (i : Nat) (f : Node α → Node α) :
    (t.modifyNode i f).get? i = (t.get? i).map f := by
  unfold modifyNode
  cases hn : t.nodes i with
  | none => simp [get?, hn]
  | some n => simp [get?, setNode, hn]

theorem detach_noop (t : Arena α) (i : Nat) (h : t.parentOf i = none) : t.detach i = t := by
  unfold detach
  rw [h]

/-- Detaching a node whose parent is known: the node loses its parent,
the parent's child list loses the node, everything else is untouched
(also when the parent id is unallocated). -/
theorem detach_spec (t : Arena α) (i p : Nat) (n : Node α) (hip : i ≠ p)
    (hn : t.get? i = some n) (hp : n.parent = some p) :
    (t.detach i).get? i = some { n with parent := none } ∧
    (∀ j, j ≠ i → j ≠ p → (t.detach i).get? j = t.get? j) ∧
    (t.detach i).childrenOf p = (t.childrenOf p).erase i ∧
    (t.detach i).dataOf? p = t.dataOf? p ∧
    (t.detach i).parentOf p = t.parentOf p ∧
    (t.detach i).fresh = t.fresh := by
  have hpar : t.parentOf i = some p := by
    simp [parentOf, hn, hp]
  unfold detach
  rw [hpar]
  dsimp only
  refine ⟨?_, ?_, ?_, ?_, ?_⟩
  · rw [get?_modifyNode]
    rw [get?_modifyNode_ne _ _ _ _ hip, hn]
    rfl
  · intro j hji hjp
    rw [get?_modifyNode_ne _ _ _ _ hji, get?_modifyNode_ne _ _ _ _ hjp]
  · unfold childrenOf
    rw [get?_modifyNode_ne _ _ _ _ (Ne.symm hip), get?_modifyNode]
    cases hq : t.get? p with
    | none => rfl
    | some q => rfl
  · simp [dataOf?_modifyNode_presData]
  · constructor
    · unfold parentOf
      rw [get?_modifyNode_ne _ _ _ _ (Ne.symm hip), get?_modifyNode]
      cases hq : t.get? p with
      | none => rfl
      | some q => rfl
    · simp

/-- Appending a detached node `c` under an allocated `p`: `c` gets the
parent, `p` gets `c` at the end of its child list, nothing else moves. -/
theorem append_spec (t : Arena α) (p c : Nat) (np nc : Node α) (hcp : c ≠ p)
    (hp : t.get? p = some np) (hc : t.get? c = some nc) (hdet : nc.parent = none) :
    (t.append p c).get? c = some { nc with parent := some p } ∧
    (t.append p c).get? p = some { np with children := np.children ++ [c] } ∧
    (∀ j, j ≠ p → j ≠ c → (t.append p c).get? j = t.get? j) ∧
    (t.append p c).fresh = t.fresh := by
  have hnd : t.detach c = t := detach_noop t c (by simp [parentOf, hc, hdet])
  unfold append
  rw [hnd]
  refine ⟨?_, ?_, ?_, by simp⟩
  · rw [get?_modifyNode]
    rw [get?_modifyNode_ne _ _ _ _ hcp, hc]
    rfl
  · rw [get?_modifyNode_ne _ _ _ _ (Ne.symm hcp), get?_modifyNode, hp]
    rfl
  · intro j hjp hjc
    rw [get?_modifyNode_ne _ _ _ _ hjc, get?_modifyNode_ne _ _ _ _ hjp]

theorem alloc_spec (t : Arena α) (d : α) :
    (t.alloc d).2 = t.fresh ∧ (t.alloc d).1.fresh = t.fresh + 1 ∧
    (t.alloc d).1.get? t.fresh = some ⟨none, [], d⟩ ∧
    ∀ j, j ≠ t.fresh → (t.alloc d).1.get? j = t.get? j := by
  refine ⟨rfl, rfl, by simp [alloc, get?], ?_⟩
  intro j hj
  simp [alloc, get?, hj]

theorem get?_detach_isSome (t : Arena α) (i j : Nat) :
    ((t.detach i).get? j).isSome = (t.get? j).isSome := by
  unfold detach
  cases h : parentOf t i with
  | none => rfl
  | some p =>
    dsimp only
    rw [get?_modifyNode_isSome, get?_modifyNode_isSome]

theorem parentOf_detach_other (t : Arena α) (i j : Nat) (hj : j ≠ i) :
    (t.detach i).parentOf j = t.parentOf j := by
  unfold detach
  cases h : parentOf t i with
  | none => rfl
  | some p =>
    dsimp only
    unfold parentOf
    rw [get?_modifyNode_ne _ _ _ _ hj]
    by_cases hp : j = p
    · subst hp
      rw [get?_modifyNode]
      cases t.get? j <;> rfl
    · rw [get?_modifyNode_ne _ _ _ _ hp]

theorem subtree_of_leaf (t : Arena α) (i : Nat) (hch : t.childrenOf i = []) :
    t.subtree i = [i] := by
  simp [subtree, subtreeAux, hch]

end Arena

namespace WT

theorem setData_spec (t : WidgetTree) (id : Nat) (w : BW) (nd : Node BW)
    (hn : t.arena.get? id = some nd) :
    (setData t id w).arena.get? id = some { nd with data := w } ∧
    (∀ j, j ≠ id → (setData t id w).arena.get? j = t.arena.get? j) ∧
    (setData t id w).arena.fresh = t.arena.fresh ∧
    (setData t id w).root = t.root ∧
    (setData t id w).changedWidgets = t.changedWidgets ∧
    (setData t id w).needBuilds = t.needBuilds ∧
    (setData t id w).widgetToRender = t.widgetToRender ∧
    (setData t id w).events = t.events := by
  refine ⟨?_, ?_, by simp [setData], rfl, rfl, rfl, rfl, rfl⟩
  · unfold setData
    dsimp only
    rw [Arena.get?_modifyNode, hn]
    rfl
  · intro j hj
    unfold setData
    dsimp only
    rw [Arena.get?_modifyNode_ne _ _ _ _ hj]

/-- `WidgetId::drop` evaluated at a render leaf (no children): the leaf
loses its dirty-set entries and table entry and is detached — and stays
allocated. -/
theorem dropSubtree_leaf (t : WidgetTree) (rt : RenderTree) (id rid : Nat)
    (par : Option Nat) (w : BW)
    (hn : t.arena.get? id = some ⟨par, [], w⟩) (hrw : w.isRender = true)
    (hw2r : t.widgetToRender id = some rid) :
    ∃ t' rt', dropSubtree t rt id = some (t', rt') ∧
      t'.arena = t.arena.detach id ∧
      t'.root = (if t.root = some id then none else t.root) ∧
      t'.changedWidgets = t.changedWidgets.filter (fun c => c != id) ∧
      t'.needBuilds = t.needBuilds.filter (fun c => c != id) ∧
      (∀ j, t'.widgetToRender j = if j = id then none else t.widgetToRender j) ∧
      t'.events = t.events := by
  have hdata : t.arena.dataOf? id = some w := by
    simp [Arena.dataOf?, hn]
  have hcomb : w.isCombination = false := by
    unfold BW.isRender at hrw
    unfold BW.isCombination
    simpa using hrw
  have hdown : downNearestRenderWidget t (t.arena.fresh + 1) id = some id := by
    unfold downNearestRenderWidget
    rw [hdata]
    simp [hcomb]
  have hrel : relativeToRender t id = some rid := by
    unfold relativeToRender
    rw [hdown]
    simpa using hw2r
  have hch : t.arena.childrenOf id = [] := by
    simp [Arena.childrenOf, hn]
  have hsub : t.arena.subtree id = [id] := Arena.subtree_of_leaf _ _ hch
  have hren : isRenderAt t id = true := by
    unfold isRenderAt
    rw [hdata]
    exact hrw
  unfold dropSubtree
  rw [hrel]
  simp only [Option.bind_eq_bind, Option.some_bind, hsub, pure]
  refine ⟨_, _, rfl, rfl, rfl, ?_, ?_, ?_, rfl⟩
  · apply List.filter_congr
    intro c _
    simp [List.contains, bne, Bool.not_not, beq_eq_decide]
  · apply List.filter_congr
    intro c _
    simp [List.contains, bne, Bool.not_not, beq_eq_decide]
  · intro j
    by_cases hj : j = id
    · subst hj
      simp [hren, List.contains]
    · simp [hj, List.contains, Ne.symm hj]

theorem mapLookup_mem (m : List (Nat × Nat)) (k id : Nat) (h : mapLookup m k = some id) :
    (k, id) ∈ m := by
  unfold mapLookup at h
  cases hf : m.find? fun e => e.1 = k with
  | none => rw [hf] at h; exact absurd h (by simp)
  | some kv =>
    rw [hf] at h
    simp only [Option.map_some'] at h
    have hm := List.mem_of_find?_eq_some hf
    have hk := List.find?_some hf
    simp only [decide_eq_true_eq] at hk
    have : kv = (k, id) := by
      cases kv
      simp_all
    exact this ▸ hm

theorem mapRemove_sublist (m : List (Nat × Nat)) (k : Nat) : (mapRemove m k).Sublist m :=
  List.filter_sublist m

theorem mapRemove_values_sublist (m : List (Nat × Nat)) (k : Nat) :
    ((mapRemove m k).map (·.2)).Sublist (m.map (·.2)) :=
  (mapRemove_sublist m k).map _

theorem mapRemove_mem (m : List (Nat × Nat)) (k : Nat) (kv : Nat × Nat)
    (h : kv ∈ mapRemove m k) : kv ∈ m ∧ kv.1 ≠ k := by
  unfold mapRemove at h
  have := List.of_mem_filter h
  exact ⟨List.mem_of_mem_filter h, by simpa using this⟩

/-- Every leftover entry of the keyed diff comes from the initial match
map. -/
theorem keyedDiffSpec_leftover_sub :
    ∀ (ws : List BW) (m : List (Nat × Nat)) (fresh : Nat),
    ∀ kv ∈ (keyedDiffSpec m fresh ws).leftover, kv ∈ m := by
  intro ws
  induction ws with
  | nil => intro m fresh kv h; exact h
  | cons w rest ih =>
    intro m fresh kv h
    unfold keyedDiffSpec at h
    cases hk : w.key with
    | none =>
      rw [hk] at h
      dsimp only at h
      exact ih m (fresh + 1) kv h
    | some k =>
      rw [hk] at h
      dsimp only at h
      cases hl : mapLookup m k with
      | none =>
        rw [hl] at h
        dsimp only at h
        exact ih m (fresh + 1) kv h
      | some id =>
        rw [hl] at h
        dsimp only at h
        exact (mapRemove_mem m k kv (ih (mapRemove m k) fresh kv h)).1

/-- Every reused id of the keyed diff is a value of the initial match
map. -/
theorem keyedDiffSpec_updates_sub :
    ∀ (ws : List BW) (m : List (Nat × Nat)) (fresh : Nat),
    ∀ kv ∈ (keyedDiffSpec m fresh ws).updates, kv.1 ∈ m.map (·.2) := by
  intro ws
  induction ws with
  | nil => intro m fresh kv h; exact absurd h (List.not_mem_nil kv)
  | cons w rest ih =>
    intro m fresh kv h
    unfold keyedDiffSpec at h
    cases hk : w.key with
    | none =>
      rw [hk] at h
      dsimp only at h
      exact ih m (fresh + 1) kv h
    | some k =>
      rw [hk] at h
      dsimp only at h
      cases hl : mapLookup m k with
      | none =>
        rw [hl] at h
        dsimp only at h
        exact ih m (fresh + 1) kv h
      | some id =>
        rw [hl] at h
        dsimp only at h
        simp only [List.mem_cons] at h
        rcases h with h | h
        · subst h
          exact List.mem_map_of_mem _ (mapLookup_mem m k id hl)
        · exact (mapRemove_values_sublist m k).mem (ih (mapRemove m k) fresh kv h)

/-- With duplicate-free map values, a leftover id is never also a reused
id. -/
theorem keyedDiffSpec_leftover_updates_disj :
    ∀ (ws : List BW) (m : List (Nat × Nat)) (fresh : Nat), (m.map (·.2)).Nodup →
    ∀ kv ∈ (keyedDiffSpec m fresh ws).leftover,
      kv.2 ∉ (keyedDiffSpec m fresh ws).updates.map (·.1) := by
  intro ws
  induction ws with
  | nil => intro m fresh _ kv _ h; exact absurd h (List.not_mem_nil _)
  | cons w rest ih =>
    intro m fresh hnd kv hlv hup
    unfold keyedDiffSpec at hlv hup
    cases hk : w.key with
    | none =>
      rw [hk] at hlv hup
      dsimp only at hlv hup
      exact ih m (fresh + 1) hnd kv hlv hup
    | some k =>
      rw [hk] at hlv hup
      dsimp only at hlv hup
      cases hl : mapLookup m k with
      | none =>
        rw [hl] at hlv hup
        dsimp only at hlv hup
        exact ih m (fresh + 1) hnd kv hlv hup
      | some id =>
        rw [hl] at hlv hup
        dsimp only at hlv hup
        simp only [List.map_cons, List.mem_cons] at hup
        have hndr : ((mapRemove m k).map (·.2)).Nodup :=
          hnd.sublist (mapRemove_values_sublist m k)
        rcases hup with hup | hup
        · -- the matched id cannot be a leftover value: values are nodup
          have hkv : kv ∈ mapRemove m k :=
            keyedDiffSpec_leftover_sub rest (mapRemove m k) fresh kv hlv
          obtain ⟨hkvm, hkvk⟩ := mapRemove_mem m k kv hkv
          have hidm : (k, id) ∈ m := mapLookup_mem m k id hl
          have heq : kv = (k, id) :=
            List.inj_on_of_nodup_map hnd hkvm hidm (by simpa using hup)
          exact hkvk (by simpa using congrArg Prod.fst heq)
        · exact ih (mapRemove m k) fresh hndr kv hlv hup

/-- `try_replace_widget_or_rebuild` when old and new widget share the
same key: the node is reused in place — its widget overwritten, the node
added to `changed_widgets` (it is render-capable) and pushed on the
repair stack; nothing is dropped or inflated. -/
theorem tryReplace_same_key (fuel : Nat) (buildFn : Nat → BW) (node k : Nat)
    (w : BW) (nd : Node BW) (stack : List Nat) (t : WidgetTree) (rt : RenderTree)
    (hn : t.arena.get? node = some nd)
    (hwkey : w.key = some k) (holdkey : nd.data.key = some k)
    (hwrender : w.isRender = true)
    (hnotchg : node ∉ t.changedWidgets) :
    ∃ t', tryReplace fuel buildFn node w stack t rt = some (node :: stack, t', rt) ∧
      t'.arena.get? node = some { nd with data := w } ∧
      (∀ j, j ≠ node → t'.arena.get? j = t.arena.get? j) ∧
      t'.arena.fresh = t.arena.fresh ∧
      t'.root = t.root ∧
      t'.changedWidgets = t.changedWidgets ++ [node] ∧
      t'.needBuilds = t.needBuilds ∧
      t'.widgetToRender = t.widgetToRender ∧
      t'.events = t.events := by
  have hdata : t.arena.dataOf? node = some nd.data := by
    simp [Arena.dataOf?, hn]
  have hcont : t.changedWidgets.contains node = false := by
    simpa using hnotchg
  set t1 : WidgetTree := { t with changedWidgets := insertSet t.changedWidgets node } with ht1
  have hn1 : t1.arena.get? node = some nd := hn
  obtain ⟨hs1, hs2, hs3, hs4, hs5, hs6, hs7, hs8⟩ := setData_spec t1 node w nd hn1
  have hins : insertSet t.changedWidgets node = t.changedWidgets ++ [node] := by
    unfold insertSet
    rw [hcont]
    rfl
  refine ⟨setData t1 node w, ?_, hs1, ?_, hs3, hs4.trans rfl, hs5.trans (by rw [ht1]; exact hins),
    hs6.trans rfl, hs7.trans rfl, hs8.trans rfl⟩
  · unfold tryReplace
    rw [hwkey, hdata]
    dsimp only
    rw [holdkey]
    simp only [beq_self_eq_true, if_true, hwrender]
    rw [← ht1]
    rw [show t1.arena.dataOf? node = some nd.data from hdata]
    rfl
  · intro j hj
    exact hs2 j hj

/-- `inflate` of a render leaf: exactly one loop iteration — the render
object is created and the WidgetId→RenderId entry registered; the widget
arena itself is untouched. -/
theorem inflate_leaf (fuel : Nat) (buildFn : Nat → BW) (cid : Nat)
    (t : WidgetTree) (rt : RenderTree) (w : BW)
    (hfuel : 1 ≤ fuel)
    (hw : t.arena.dataOf? cid = some w) (hkind : w.kind = .render) :
    ∃ rid rt', inflate fuel buildFn cid t rt = some
      ({ t with widgetToRender := fun j => if j = cid then some rid else t.widgetToRender j },
       rt') := by
  obtain ⟨f, rfl⟩ : ∃ f, fuel = f + 1 := ⟨fuel - 1, (Nat.succ_pred_eq_of_pos hfuel).symm⟩
  have hrender : w.isRender = true := by
    unfold BW.isRender
    rw [hkind]
    rfl
  have htc : takeChildren buildFn t cid = (t, none) := by
    unfold takeChildren
    rw [hw]
    dsimp only
    rw [hkind]
  unfold inflate
  cases hpr : ((t.arena.ancestors cid).find? fun a => isRenderAt t a).bind t.widgetToRender with
  | none =>
    refine ⟨(rtSetRoot rt cid w.payload).2, (rtSetRoot rt cid w.payload).1, ?_⟩
    dsimp only
    unfold inflateLoop
    dsimp only
    rw [htc]
    dsimp only
    rw [hw]
    dsimp only
    rw [if_pos hrender]
    unfold inflateLoop
    dsimp only
  | some prid =>
    refine ⟨(prependObject rt prid cid w.payload).2, (prependObject rt prid cid w.payload).1, ?_⟩
    dsimp only
    unfold inflateLoop
    dsimp only
    rw [htc]
    dsimp only
    rw [hw]
    dsimp only
    rw [if_pos hrender]
    unfold inflateLoop
    dsimp only

/-- Appending a fresh render-leaf child under node 0 and inflating it:
the new node takes the next free arena id, lands at the end of node 0's
child list, and gets a WidgetId→RenderId entry; nothing else in the
widget tree changes. -/
theorem appendWidget_inflate_leaf (fuel : Nat) (buildFn : Nat → BW) (t : WidgetTree)
    (rt : RenderTree) (w : BW) (n0 : Node BW)
    (hfuel : 1 ≤ fuel) (hkind : w.kind = .render) (hsid : w.sid = none)
    (hn0 : t.arena.get? 0 = some n0) (h0f : 0 < t.arena.fresh) :
    ∃ t2 rt',
      (appendWidget t 0 w).2 = t.arena.fresh ∧
      inflate fuel buildFn (appendWidget t 0 w).2 (appendWidget t 0 w).1 rt
        = some (t2, rt') ∧
      t2.arena.get? t.arena.fresh = some ⟨some 0, [], w⟩ ∧
      t2.arena.get? 0 = some { n0 with children := n0.children ++ [t.arena.fresh] } ∧
      (∀ j, j ≠ 0 → j ≠ t.arena.fresh → t2.arena.get? j = t.arena.get? j) ∧
      t2.arena.fresh = t.arena.fresh + 1 ∧
      (∀ j, j ≠ t.arena.fresh → t2.widgetToRender j = t.widgetToRender j) ∧
      t2.root = t.root ∧ t2.changedWidgets = t.changedWidgets ∧
      t2.needBuilds = t.needBuilds ∧ t2.events = t.events := by
  have hane : (0 : Nat) ≠ t.arena.fresh := Nat.ne_of_lt h0f
  have happ : appendWidget t 0 w
      = ({ t with arena := ((t.arena.alloc w).1).append 0 t.arena.fresh }, t.arena.fresh) := by
    unfold appendWidget newNode
    rw [hsid]
    rfl
  obtain ⟨ha1, ha2, ha3, ha4⟩ := Arena.alloc_spec t.arena w
  have h01 : (t.arena.alloc w).1.get? 0 = some n0 := by
    rw [ha4 0 hane]
    exact hn0
  obtain ⟨hap1, hap2, hap3, hap4⟩ :=
    Arena.append_spec (t.arena.alloc w).1 0 t.arena.fresh n0 ⟨none, [], w⟩
      (Ne.symm hane) h01 ha3 rfl
  set a2 := (t.arena.alloc w).1.append 0 t.arena.fresh with hA2
  have hdata2 : ({ t with arena := a2 } : WidgetTree).arena.dataOf? t.arena.fresh = some w := by
    show a2.dataOf? t.arena.fresh = some w
    unfold Arena.dataOf?
    rw [hap1]
    rfl
  obtain ⟨rid, rt', hinf⟩ :=
    inflate_leaf fuel buildFn t.arena.fresh { t with arena := a2 } rt w hfuel hdata2 hkind
  refine ⟨{ arena := a2, root := t.root, changedWidgets := t.changedWidgets,
            needBuilds := t.needBuilds,
            widgetToRender := fun j =>
              if j = t.arena.fresh then some rid else t.widgetToRender j,
            events := t.events },
    rt', by rw [happ], ?_, ?_, ?_, ?_, ?_, ?_, rfl, rfl, rfl, rfl⟩
  · rw [happ]
    dsimp only
    exact hinf
  · show a2.get? t.arena.fresh = _
    rw [hap1]
  · show a2.get? 0 = _
    exact hap2
  · intro j hj0 hjf
    show a2.get? j = _
    rw [hap3 j hj0 hjf, ha4 j hjf]
  · show a2.fresh = _
    rw [hA2]
    rw [Arena.fresh_append]
    exact ha2
  · intro j hjf
    show (if j = t.arena.fresh then some rid else t.widgetToRender j) = t.widgetToRender j
    rw [if_neg hjf]

/-- Phase two of `repair_children_by_key` over render-leaf new children:
each new child whose key is in the match map re-parents and reuses the
mapped node (recursing via the repair stack), every other new child is
inflated fresh at the end of the child list, and the outcome — final
child order, reused nodes, consumed and leftover entries — is exactly
the spec-side `keyedDiffSpec`. -/
theorem matchNewChildren_spec (buildFn : Nat → BW) :
    ∀ (news : List (Option Nat × Nat)) (fuel : Nat) (m : List (Nat × Nat))
      (stack : List Nat) (t : WidgetTree) (rt : RenderTree) (o : DiffOutcome),
    keyedDiffSpec m t.arena.fresh (news.map fun e => bwLeaf e.1 e.2) = o →
    1 ≤ fuel →
    (∀ kv ∈ m, kv.2 ≠ 0 ∧ kv.2 < t.arena.fresh ∧
      (∃ q, t.arena.get? kv.2 = some ⟨none, [], bwLeaf (some kv.1) q⟩) ∧
      t.widgetToRender kv.2 = some kv.2 ∧
      kv.2 ∉ t.arena.childrenOf 0 ∧ kv.2 ∉ t.changedWidgets) →
    (m.map (·.2)).Nodup →
    0 < t.arena.fresh →
    (t.arena.get? 0).isSome = true →
    ∃ t' rt',
      matchNewChildren fuel buildFn 0 (news.map fun e => bwLeaf e.1 e.2) m stack t rt
        = some (o.leftover, (o.updates.map (·.1)).reverse ++ stack, t', rt') ∧
      t'.arena.childrenOf 0 = t.arena.childrenOf 0 ++ o.ids ∧
      t'.changedWidgets = t.changedWidgets ++ o.updates.map (·.1) ∧
      t'.needBuilds = t.needBuilds ∧
      t'.root = t.root ∧
      t'.events = t.events ∧
      t.arena.fresh ≤ t'.arena.fresh ∧
      (t'.arena.get? 0).isSome = true ∧
      (∀ kv ∈ o.leftover, kv.2 ≠ 0 ∧
        (∃ q, t'.arena.get? kv.2 = some ⟨none, [], bwLeaf (some kv.1) q⟩) ∧
        t'.widgetToRender kv.2 = some kv.2) ∧
      (∀ kv ∈ o.updates, t'.arena.dataOf? kv.1 = some kv.2 ∧
        t'.arena.parentOf kv.1 = some 0) ∧
      (∀ j, j ≠ 0 → j ∉ o.updates.map (·.1) → j < t.arena.fresh →
        t'.arena.get? j = t.arena.get? j) ∧
      (∀ j, j < t.arena.fresh → t'.widgetToRender j = t.widgetToRender j) := by
  intro news
  induction news with
  | nil =>
    intro fuel m stack t rt o ho hfuel hm hnd h0f h0
    obtain rfl : (⟨[], [], m⟩ : DiffOutcome) = o := ho
    refine ⟨t, rt, rfl, by simp, by simp, rfl, rfl, rfl, Nat.le_refl _, h0, ?_, ?_, ?_, ?_⟩
    · intro kv hkv
      obtain ⟨h1, _, h3, h4, _, _⟩ := hm kv hkv
      exact ⟨h1, h3, h4⟩
    · intro kv hkv
      exact absurd hkv (List.not_mem_nil kv)
    · intro j _ _ _
      rfl
    · intro j _
      rfl
  | cons e rest ih =>
    intro fuel m stack t rt o ho hfuel hm hnd h0f h0
    obtain ⟨key, q⟩ := e
    obtain ⟨n0, hn0⟩ := Option.isSome_iff_exists.mp h0
    -- the new widget at the head of the list
    have hkindleaf : (bwLeaf key q).kind = WKind.render := rfl
    cases hmatch : (bwLeaf key q).key.bind fun k => (mapLookup m k).map ((k, ·)) with
    | some kid =>
      obtain ⟨k, id⟩ := kid
      -- a key match: re-append and reuse the old node
      have hkey : key = some k := by
        cases key with
        | none => exact absurd hmatch (by simp [bwLeaf, BW.key])
        | some k' =>
          simp only [bwLeaf, BW.key, Option.some_bind] at hmatch
          cases hl : mapLookup m k' with
          | none => rw [hl] at hmatch; exact absurd hmatch (by simp)
          | some id' =>
            rw [hl] at hmatch
            simp only [Option.map_some', Option.some.injEq, Prod.mk.injEq] at hmatch
            rw [hmatch.1]
      subst hkey
      have hl : mapLookup m k = some id := by
        simp only [bwLeaf, BW.key, Option.some_bind] at hmatch
        cases hl' : mapLookup m k with
        | none => rw [hl'] at hmatch; exact absurd hmatch (by simp)
        | some id' =>
          rw [hl'] at hmatch
          simp only [Option.map_some', Option.some.injEq, Prod.mk.injEq] at hmatch
          rw [← hmatch.2]
      have hkidm : (k, id) ∈ m := mapLookup_mem m k id hl
      obtain ⟨hid0, hidf, ⟨q0, hidget⟩, hidw2r, hidch, hidchg⟩ := hm (k, id) hkidm
      -- step 1: node.0.append(id.0)
      obtain ⟨hap1, hap2, hap3, hap4⟩ :=
        Arena.append_spec t.arena 0 id n0 ⟨none, [], bwLeaf (some k) q0⟩
          hid0 hn0 hidget rfl
      set t1 : WidgetTree := { t with arena := t.arena.append 0 id } with ht1
      -- step 2: try_replace_widget_or_rebuild reuses the node in place
      obtain ⟨t2, htr, htr1, htr2, htr3, htr4, htr5, htr6, htr7, htr8⟩ :=
        tryReplace_same_key fuel buildFn id k (bwLeaf (some k) q)
          ⟨some 0, [], bwLeaf (some k) q0⟩ stack t1 rt
          (by show (t.arena.append 0 id).get? id = _; rw [hap1])
          rfl rfl rfl hidchg
      have hfr2 : t2.arena.fresh = t.arena.fresh := by
        rw [htr3]
        show (t.arena.append 0 id).fresh = t.arena.fresh
        exact Arena.fresh_append t.arena 0 id
      have h0id : (0 : Nat) ≠ id := Ne.symm hid0
      have hchT : t.arena.childrenOf 0 = n0.children := by
        unfold Arena.childrenOf
        rw [hn0]
        rfl
      have hget20 : t2.arena.get? 0
          = some { n0 with children := n0.children ++ [id] } := by
        rw [htr2 0 h0id]
        show (t.arena.append 0 id).get? 0 = _
        exact hap2
      have hch2 : t2.arena.childrenOf 0 = n0.children ++ [id] := by
        unfold Arena.childrenOf
        rw [hget20]
        rfl
      -- the recursion invariant for the shrunken map
      have hmRem : ∀ kv ∈ mapRemove m k, kv.2 ≠ 0 ∧ kv.2 < t2.arena.fresh ∧
          (∃ q', t2.arena.get? kv.2 = some ⟨none, [], bwLeaf (some kv.1) q'⟩) ∧
          t2.widgetToRender kv.2 = some kv.2 ∧
          kv.2 ∉ t2.arena.childrenOf 0 ∧ kv.2 ∉ t2.changedWidgets := by
        intro kv hkv
        obtain ⟨hkvm, hkvk⟩ := mapRemove_mem m k kv hkv
        obtain ⟨g1, g2, ⟨q', g3⟩, g4, g5, g6⟩ := hm kv hkvm
        have hkvid : kv.2 ≠ id := by
          intro hcon
          exact hkvk (by
            have hkv' : kv = (k, id) :=
              List.inj_on_of_nodup_map hnd hkvm hkidm (by simpa using hcon)
            simpa using congrArg Prod.fst hkv')
        have hget2 : t2.arena.get? kv.2 = t.arena.get? kv.2 := by
          rw [htr2 kv.2 hkvid]
          show (t.arena.append 0 id).get? kv.2 = _
          exact hap3 kv.2 g1 hkvid
        refine ⟨g1, ?_, ⟨q', by rw [hget2]; exact g3⟩, ?_, ?_, ?_⟩
        · rw [hfr2]
          exact g2
        · rw [htr7]
          exact g4
        · rw [hch2]
          rw [hchT] at g5
          simp [g5, hkvid]
        · rw [htr5]
          show kv.2 ∉ t.changedWidgets ++ [id]
          simp [g6, hkvid]
      have hndRem : ((mapRemove m k).map (·.2)).Nodup :=
        hnd.sublist (mapRemove_values_sublist m k)
      have h02 : (t2.arena.get? 0).isSome = true := by
        rw [hget20]
        rfl
      -- apply the induction hypothesis to the tail
      obtain ⟨t', rt', hrun, hch', hchg', hnb', hroot', hev', hle', h0', hlv', hup',
        hgfr', hwfr'⟩ :=
        ih fuel (mapRemove m k) (id :: stack) t2 rt
          (keyedDiffSpec (mapRemove m k) t.arena.fresh (rest.map fun e => bwLeaf e.1 e.2))
          (by rw [hfr2]) hfuel hmRem hndRem (by rw [hfr2]; exact h0f) h02
      set o1 : DiffOutcome :=
        keyedDiffSpec (mapRemove m k) t.arena.fresh (rest.map fun e => bwLeaf e.1 e.2)
        with ho1
      have hostep : keyedDiffSpec m t.arena.fresh
          ((bwLeaf (some k) q) :: rest.map (fun e => bwLeaf e.1 e.2))
          = ⟨id :: o1.ids, (id, bwLeaf (some k) q) :: o1.updates, o1.leftover⟩ := by
        rw [ho1]
        simp only [keyedDiffSpec, bwLeaf, BW.key]
        rw [hl]
      obtain rfl : o = ⟨id :: o1.ids, (id, bwLeaf (some k) q) :: o1.updates, o1.leftover⟩ := by
        rw [← ho, List.map_cons, hostep]
      have hidnotup : id ∉ o1.updates.map (·.1) := by
        intro hmem
        obtain ⟨kv, hkv, hkvid⟩ := List.mem_map.mp hmem
        have := keyedDiffSpec_updates_sub (rest.map fun e => bwLeaf e.1 e.2)
          (mapRemove m k) t.arena.fresh kv hkv
        rw [hkvid] at this
        obtain ⟨kv', hkv', hkv'id⟩ := List.mem_map.mp this
        obtain ⟨hkv'm, hkv'k⟩ := mapRemove_mem m k kv' hkv'
        have : kv' = (k, id) :=
          List.inj_on_of_nodup_map hnd hkv'm hkidm (by simpa using hkv'id)
        exact hkv'k (by simpa using congrArg Prod.fst this)
      refine ⟨t', rt', ?_, ?_, ?_, ?_, ?_, ?_, ?_, h0', hlv', ?_, ?_, ?_⟩
      · -- run the code along the matched branch
        show matchNewChildren fuel buildFn 0
          ((bwLeaf (some k) q) :: rest.map (fun e => bwLeaf e.1 e.2)) m stack t rt = _
        unfold matchNewChildren
        rw [hmatch]
        dsimp only
        rw [← ht1, htr]
        simp only [Option.bind_eq_bind, Option.some_bind]
        rw [hrun]
        simp [List.append_assoc]
      · rw [hch', hch2, hchT]
        simp
      · rw [hchg', htr5]
        simp
      · rw [hnb', htr6]
      · rw [hroot', htr4]
      · rw [hev', htr8]
      · rw [← hfr2]
        exact hle'
      · -- the reused nodes carry the new widgets, re-parented under node 0
        intro kv hkv
        rcases List.mem_cons.mp hkv with heq | hkv'
        · subst heq
          have hidlt2 : id < t2.arena.fresh := by
            rw [hfr2]
            exact hidf
          have hg := hgfr' id hid0 hidnotup hidlt2
          constructor
          · unfold Arena.dataOf?
            rw [hg, htr1]
            rfl
          · unfold Arena.parentOf
            rw [hg, htr1]
            rfl
        · exact hup' kv hkv'
      · intro j hj0 hjup hjlt
        have hjid : j ≠ id := by
          intro hcon
          exact hjup (by simp [hcon])
        have hjup' : j ∉ o1.updates.map (·.1) := by
          intro hcon
          exact hjup (by simp [hcon])
        have hjlt2 : j < t2.arena.fresh := by
          rw [hfr2]
          exact hjlt
        rw [hgfr' j hj0 hjup' hjlt2, htr2 j hjid]
        show (t.arena.append 0 id).get? j = _
        exact hap3 j hj0 hjid
      · intro j hjlt
        have hjlt2 : j < t2.arena.fresh := by
          rw [hfr2]
          exact hjlt
        rw [hwfr' j hjlt2, htr7]
    | none =>
      -- no key match: append a fresh node at the end and inflate it
      obtain ⟨t2, rt2, hcid, hinf, hg1, hg2, hfrm2, hfresh2, hw2r2, hroot2, hchg2, hnb2, hev2⟩ :=
        appendWidget_inflate_leaf fuel buildFn t rt (bwLeaf key q) n0 hfuel rfl rfl hn0 h0f
      have hchT : t.arena.childrenOf 0 = n0.children := by
        unfold Arena.childrenOf
        rw [hn0]
        rfl
      have hch2 : t2.arena.childrenOf 0 = n0.children ++ [t.arena.fresh] := by
        unfold Arena.childrenOf
        rw [hg2]
        rfl
      have hm2 : ∀ kv ∈ m, kv.2 ≠ 0 ∧ kv.2 < t2.arena.fresh ∧
          (∃ q', t2.arena.get? kv.2 = some ⟨none, [], bwLeaf (some kv.1) q'⟩) ∧
          t2.widgetToRender kv.2 = some kv.2 ∧
          kv.2 ∉ t2.arena.childrenOf 0 ∧ kv.2 ∉ t2.changedWidgets := by
        intro kv hkv
        obtain ⟨g1, g2, ⟨q', g3⟩, g4, g5, g6⟩ := hm kv hkv
        have hkvf : kv.2 ≠ t.arena.fresh := Nat.ne_of_lt g2
        refine ⟨g1, ?_, ⟨q', ?_⟩, ?_, ?_, ?_⟩
        · rw [hfresh2]
          exact Nat.lt_succ_of_lt g2
        · rw [hfrm2 kv.2 g1 hkvf]
          exact g3
        · rw [hw2r2 kv.2 hkvf]
          exact g4
        · rw [hch2]
          rw [hchT] at g5
          simp [g5, hkvf]
        · rw [hchg2]
          exact g6
      have h02 : (t2.arena.get? 0).isSome = true := by
        rw [hg2]
        rfl
      obtain ⟨t', rt', hrun, hch', hchg', hnb', hroot', hev', hle', h0', hlv', hup',
        hgfr', hwfr'⟩ :=
        ih fuel m stack t2 rt2
          (keyedDiffSpec m (t.arena.fresh + 1) (rest.map fun e => bwLeaf e.1 e.2))
          (by rw [hfresh2]) hfuel hm2 hnd (by rw [hfresh2]; exact Nat.succ_pos _) h02
      set o1 : DiffOutcome :=
        keyedDiffSpec m (t.arena.fresh + 1) (rest.map fun e => bwLeaf e.1 e.2) with ho1
      have hostep : keyedDiffSpec m t.arena.fresh
          ((bwLeaf key q) :: rest.map (fun e => bwLeaf e.1 e.2))
          = ⟨t.arena.fresh :: o1.ids, o1.updates, o1.leftover⟩ := by
        rw [ho1]
        cases key with
        | none =>
          simp only [keyedDiffSpec, bwLeaf, BW.key]
        | some k =>
          have hl : mapLookup m k = none := by
            simpa [bwLeaf, BW.key] using hmatch
          simp only [keyedDiffSpec, bwLeaf, BW.key]
          rw [hl]
      obtain rfl : o = ⟨t.arena.fresh :: o1.ids, o1.updates, o1.leftover⟩ := by
        rw [← ho, List.map_cons, hostep]
      refine ⟨t', rt', ?_, ?_, ?_, ?_, ?_, ?_, ?_, h0', hlv', hup', ?_, ?_⟩
      · show matchNewChildren fuel buildFn 0
          ((bwLeaf key q) :: rest.map (fun e => bwLeaf e.1 e.2)) m stack t rt = _
        unfold matchNewChildren
        rw [hmatch]
        dsimp only
        rcases happ : appendWidget t 0 (bwLeaf key q) with ⟨tA, cidA⟩
        rw [happ] at hinf
        dsimp only at hinf
        rw [hinf]
        simp only [Option.bind_eq_bind, Option.some_bind]
        exact hrun
      · rw [hch', hch2, hchT]
        simp
      · rw [hchg', hchg2]
      · rw [hnb', hnb2]
      · rw [hroot', hroot2]
      · rw [hev', hev2]
      · refine Nat.le_trans (Nat.le_succ _) ?_
        show t.arena.fresh + 1 ≤ t'.arena.fresh
        rw [← hfresh2]
        exact hle'
      · intro j hj0 hjup hjlt
        have hjlt2 : j < t2.arena.fresh := by
          rw [hfresh2]
          exact Nat.lt_succ_of_lt hjlt
        rw [hgfr' j hj0 hjup hjlt2]
        exact hfrm2 j hj0 (Nat.ne_of_lt hjlt)
      · intro j hjlt
        have hjlt2 : j < t2.arena.fresh := by
          rw [hfresh2]
          exact Nat.lt_succ_of_lt hjlt
        rw [hwfr' j hjlt2]
        exact hw2r2 j (Nat.ne_of_lt hjlt)

theorem keyedDiffSpec_leftover_sublist :
    ∀ (ws : List BW) (m : List (Nat × Nat)) (fresh : Nat),
    (keyedDiffSpec m fresh ws).leftover.Sublist m := by
  intro ws
  induction ws with
  | nil => intro m fresh; exact List.Sublist.refl m
  | cons w rest ih =>
    intro m fresh
    unfold keyedDiffSpec
    cases hk : w.key with
    | none =>
      dsimp only
      exact ih m (fresh + 1)
    | some k =>
      dsimp only
      cases hl : mapLookup m k with
      | none =>
        dsimp only
        exact ih m (fresh + 1)
      | some id =>
        dsimp only
        exact ((ih (mapRemove m k) fresh).trans (mapRemove_sublist m k))

theorem mapFold_mem_src :
    ∀ (rem : List (Nat × Option Nat × Nat)) (m : List (Nat × Nat)) (kv : Nat × Nat),
    kv ∈ mapFold m rem → kv ∈ m ∨ ∃ p, (kv.2, some kv.1, p) ∈ rem := by
  intro rem
  induction rem with
  | nil => intro m kv h; exact Or.inl h
  | cons e rest ih =>
    intro m kv h
    obtain ⟨id, key, p⟩ := e
    cases key with
    | none =>
      rcases ih m kv h with h' | ⟨p', h'⟩
      · exact Or.inl h'
      · exact Or.inr ⟨p', List.mem_cons_of_mem _ h'⟩
    | some k =>
      rcases ih (mapInsert m k id) kv h with h' | ⟨p', h'⟩
      · unfold mapInsert at h'
        rcases List.mem_cons.mp h' with h'' | h''
        · subst h''
          exact Or.inr ⟨p, List.mem_cons_self _ _⟩
        · exact Or.inl (List.mem_of_mem_filter h'')
      · exact Or.inr ⟨p', List.mem_cons_of_mem _ h'⟩

theorem mapFold_values_nodup :
    ∀ (rem : List (Nat × Option Nat × Nat)) (m : List (Nat × Nat)),
    (rem.map (·.1)).Nodup →
    (∀ v ∈ m.map (·.2), v ∉ rem.map (·.1)) →
    (m.map (·.2)).Nodup →
    ((mapFold m rem).map (·.2)).Nodup := by
  intro rem
  induction rem with
  | nil => intro m _ _ h; exact h
  | cons e rest ih =>
    intro m hnd hdisj hm
    obtain ⟨id, key, p⟩ := e
    have hnd' : (id :: rest.map (·.1)).Nodup := by
      simpa only [List.map_cons] using hnd
    have hidrest : id ∉ rest.map (·.1) := (List.nodup_cons.mp hnd').1
    have hndrest : (rest.map (·.1)).Nodup := (List.nodup_cons.mp hnd').2
    cases key with
    | none =>
      refine ih m hndrest ?_ hm
      intro v hv
      have := hdisj v hv
      intro hcon
      exact this (by simp [hcon])
    | some k =>
      refine ih (mapInsert m k id) hndrest ?_ ?_
      · intro v hv hvrest
        unfold mapInsert at hv
        simp only [List.map_cons, List.mem_cons] at hv
        rcases hv with hv | hv
        · exact hidrest (hv ▸ hvrest)
        · obtain ⟨kv, hkv, hkvv⟩ := List.mem_map.mp hv
          have : v ∈ m.map (·.2) :=
            hkvv ▸ List.mem_map_of_mem _ (List.mem_of_mem_filter hkv)
          exact hdisj v this (by simp [hvrest])
      · unfold mapInsert
        simp only [List.map_cons]
        refine List.nodup_cons.mpr ⟨?_, ?_⟩
        · intro hcon
          obtain ⟨kv, hkv, hkvv⟩ := List.mem_map.mp hcon
          have : id ∈ m.map (·.2) :=
            hkvv ▸ List.mem_map_of_mem _ (List.mem_of_mem_filter hkv)
          exact hdisj id this (by simp)
        · exact hm.sublist ((List.filter_sublist m).map _)

/-- Phase three of `repair_children_by_key`: every leftover keyed entry
is dropped; the nodes are already detached, so only their table and
dirty-set entries can change — and the dirty sets do not contain them. -/
theorem dropLeftovers_spec :
    ∀ (lv : List (Nat × Nat)) (t : WidgetTree) (rt : RenderTree),
    (∀ kv ∈ lv, kv.2 ≠ 0 ∧
      (∃ q, t.arena.get? kv.2 = some ⟨none, [], bwLeaf (some kv.1) q⟩) ∧
      t.widgetToRender kv.2 = some kv.2 ∧
      kv.2 ∉ t.changedWidgets ∧ kv.2 ∉ t.needBuilds) →
    (lv.map (·.2)).Nodup →
    t.root = some 0 →
    ∃ t' rt', dropLeftovers t rt lv = some (t', rt') ∧
      t'.arena = t.arena ∧
      t'.root = some 0 ∧
      t'.changedWidgets = t.changedWidgets ∧
      t'.needBuilds = t.needBuilds ∧
      t'.events = t.events ∧
      (∀ kv ∈ lv, t'.widgetToRender kv.2 = none) ∧
      (∀ j, j ∉ lv.map (·.2) → t'.widgetToRender j = t.widgetToRender j) := by
  intro lv
  induction lv with
  | nil =>
    intro t rt _ _ hroot
    exact ⟨t, rt, rfl, rfl, hroot, rfl, rfl, rfl,
      fun kv hkv => absurd hkv (List.not_mem_nil kv), fun j _ => rfl⟩
  | cons kv rest ih =>
    intro t rt hent hnd hroot
    obtain ⟨k, id⟩ := kv
    obtain ⟨h1, ⟨q, h2⟩, h3, h4, h5⟩ := hent (k, id) (List.mem_cons_self _ _)
    have hnd' : (id :: rest.map (·.2)).Nodup := by
      simpa only [List.map_cons] using hnd
    have hidrest : id ∉ rest.map (·.2) := (List.nodup_cons.mp hnd').1
    have hndrest : (rest.map (·.2)).Nodup := (List.nodup_cons.mp hnd').2
    obtain ⟨t1, rt1, hdrop, ha1, hr1, hc1, hn1, hw1, he1⟩ :=
      dropSubtree_leaf t rt id id none (bwLeaf (some k) q) h2 rfl h3
    have harena1 : t1.arena = t.arena := by
      rw [ha1]
      exact Arena.detach_noop t.arena id (by simp [Arena.parentOf, h2])
    have hc1' : t1.changedWidgets = t.changedWidgets := by
      rw [hc1]
      refine List.filter_eq_self.mpr ?_
      intro a ha
      simp only [bne_iff_ne, ne_eq, decide_eq_true_eq]
      intro hcon
      exact h4 (hcon ▸ ha)
    have hn1' : t1.needBuilds = t.needBuilds := by
      rw [hn1]
      refine List.filter_eq_self.mpr ?_
      intro a ha
      simp only [bne_iff_ne, ne_eq, decide_eq_true_eq]
      intro hcon
      exact h5 (hcon ▸ ha)
    have hr1' : t1.root = some 0 := by
      rw [hr1, hroot]
      simp [Ne.symm h1]
    have hent1 : ∀ kv ∈ rest, kv.2 ≠ 0 ∧
        (∃ q', t1.arena.get? kv.2 = some ⟨none, [], bwLeaf (some kv.1) q'⟩) ∧
        t1.widgetToRender kv.2 = some kv.2 ∧
        kv.2 ∉ t1.changedWidgets ∧ kv.2 ∉ t1.needBuilds := by
      intro kv hkv
      obtain ⟨g1, ⟨q', g2⟩, g3, g4, g5⟩ := hent kv (List.mem_cons_of_mem _ hkv)
      have hkvid : kv.2 ≠ id := by
        intro hcon
        exact hidrest (hcon ▸ List.mem_map_of_mem (·.2) hkv)
      refine ⟨g1, ⟨q', by rw [harena1]; exact g2⟩, ?_, ?_, ?_⟩
      · rw [hw1 kv.2, if_neg hkvid]
        exact g3
      · rw [hc1']
        exact g4
      · rw [hn1']
        exact g5
    obtain ⟨t', rt', hrun, harena', hroot', hchg', hnb', hev', hlv', hfr'⟩ :=
      ih t1 rt1 hent1 hndrest hr1'
    refine ⟨t', rt', ?_, harena'.trans harena1, hroot', hchg'.trans hc1',
      hnb'.trans hn1', hev'.trans he1, ?_, ?_⟩
    · show dropLeftovers t rt ((k, id) :: rest) = _
      unfold dropLeftovers
      rw [hdrop]
      simpa using hrun
    · intro kv hkv
      rcases List.mem_cons.mp hkv with heq | hkv'
      · subst heq
        rw [hfr' id hidrest, hw1 id]
        simp
      · exact hlv' kv hkv'
    · intro j hj
      have hjid : j ≠ id := by
        intro hcon
        exact hj (by simp [hcon])
      have hjrest : j ∉ rest.map (·.2) := by
        intro hcon
        exact hj (by simp [hcon])
      rw [hfr' j hjrest, hw1 j, if_neg hjid]

/-- Phase one of `repair_children_by_key` over a run of render-leaf
children of node 0: keyed children are detached into the key→id match
map in order (collisions overwritten, last wins), keyless children are
dropped immediately and unconditionally. -/
theorem collectKeyChildren_spec :
    ∀ (rem : List (Nat × Option Nat × Nat)) (m : List (Nat × Nat))
      (t : WidgetTree) (rt : RenderTree),
    (∀ e ∈ rem, e.1 ≠ 0 ∧
      t.arena.get? e.1 = some ⟨some 0, [], bwLeaf e.2.1 e.2.2⟩ ∧
      t.widgetToRender e.1 = some e.1) →
    (rem.map (·.1)).Nodup →
    t.root = some 0 →
    t.changedWidgets = [] →
    t.needBuilds = [] →
    t.arena.childrenOf 0 = rem.map (·.1) →
    (t.arena.get? 0).isSome = true →
    ∃ t' rt', collectKeyChildren t rt (rem.map (·.1)) m = some (mapFold m rem, t', rt') ∧
      t'.arena.fresh = t.arena.fresh ∧
      t'.root = some 0 ∧
      t'.changedWidgets = [] ∧
      t'.needBuilds = [] ∧
      t'.events = t.events ∧
      t'.arena.childrenOf 0 = [] ∧
      t'.arena.dataOf? 0 = t.arena.dataOf? 0 ∧
      t'.arena.parentOf 0 = t.arena.parentOf 0 ∧
      (t'.arena.get? 0).isSome = true ∧
      (∀ e ∈ rem, ∀ k, e.2.1 = some k →
        t'.arena.get? e.1 = some ⟨none, [], bwLeaf e.2.1 e.2.2⟩ ∧
        t'.widgetToRender e.1 = some e.1) ∧
      (∀ e ∈ rem, e.2.1 = none →
        t'.widgetToRender e.1 = none ∧ t'.arena.parentOf e.1 = none ∧
        (t'.arena.get? e.1).isSome = true) ∧
      (∀ j, j ∉ rem.map (·.1) → j ≠ 0 → t'.arena.get? j = t.arena.get? j) ∧
      (∀ j, j ∉ rem.map (·.1) → t'.widgetToRender j = t.widgetToRender j) := by
  intro rem
  induction rem with
  | nil =>
    intro m t rt _ _ hroot hchg hnb hch h0
    refine ⟨t, rt, rfl, rfl, hroot, hchg, hnb, rfl, hch, rfl, rfl, h0, ?_, ?_, ?_, ?_⟩
    · intro e he
      exact absurd he (List.not_mem_nil e)
    · intro e he
      exact absurd he (List.not_mem_nil e)
    · intro j _ _
      rfl
    · intro j _
      rfl
  | cons e rest ih =>
    intro m t rt hent hnd hroot hchg hnb hch h0
    obtain ⟨id, key, p⟩ := e
    obtain ⟨hid0, hn, hw2r⟩ := hent (id, key, p) (List.mem_cons_self _ _)
    have hdata : t.arena.dataOf? id = some (bwLeaf key p) := by
      simp [Arena.dataOf?, hn]
    have hnd' : (id :: rest.map (·.1)).Nodup := by
      simpa only [List.map_cons] using hnd
    have hrestids : id ∉ rest.map (·.1) := (List.nodup_cons.mp hnd').1
    have hndrest : (rest.map (·.1)).Nodup := (List.nodup_cons.mp hnd').2
    cases key with
    | some k =>
      -- keyed child: detach into the map
      obtain ⟨hdet1, hdetfr, hdetch, hdetdata, hdetpar, hdetfresh⟩ :=
        Arena.detach_spec t.arena id 0 ⟨some 0, [], bwLeaf (some k) p⟩ hid0 hn rfl
      set t1 : WidgetTree := { t with arena := t.arena.detach id } with ht1
      have hent1 : ∀ e ∈ rest, e.1 ≠ 0 ∧
          t1.arena.get? e.1 = some ⟨some 0, [], bwLeaf e.2.1 e.2.2⟩ ∧
          t1.widgetToRender e.1 = some e.1 := by
        intro e he
        obtain ⟨h1, h2, h3⟩ := hent e (List.mem_cons_of_mem _ he)
        refine ⟨h1, ?_, h3⟩
        rw [ht1]
        show (t.arena.detach id).get? e.1 = _
        rw [hdetfr e.1 ?_ h1]
        · exact h2
        · intro hcon
          exact hrestids (hcon ▸ List.mem_map_of_mem (·.1) he)
      have hch1 : t1.arena.childrenOf 0 = rest.map (·.1) := by
        show (t.arena.detach id).childrenOf 0 = _
        rw [hdetch, hch]
        simp
      have h01 : (t1.arena.get? 0).isSome = true := by
        show ((t.arena.detach id).get? 0).isSome = true
        rw [Arena.get?_detach_isSome]
        exact h0
      obtain ⟨t', rt', hrun, hfr, hroot', hchg', hnb', hev', hch', hdat0, hpar0, h0',
        hkeyed, hkeyless, hframe, hw2rframe⟩ :=
        ih (mapInsert m k id) t1 rt hent1 hndrest hroot hchg hnb hch1 h01
      refine ⟨t', rt', ?_, ?_, hroot', hchg', hnb', hev', hch', ?_, ?_, h0', ?_, ?_, ?_, ?_⟩
      · show collectKeyChildren t rt (id :: rest.map (·.1)) m = _
        unfold collectKeyChildren
        rw [hdata]
        exact hrun
      · rw [hfr]
        show (t.arena.detach id).fresh = t.arena.fresh
        exact hdetfresh
      · rw [hdat0]
        show (t.arena.detach id).dataOf? 0 = t.arena.dataOf? 0
        exact hdetdata
      · rw [hpar0]
        show (t.arena.detach id).parentOf 0 = t.arena.parentOf 0
        exact hdetpar
      · intro e he k' hk'
        rcases List.mem_cons.mp he with heq | he'
        · subst heq
          constructor
          · rw [hframe id hrestids hid0]
            exact hdet1
          · rw [hw2rframe id hrestids]
            exact hw2r
        · exact hkeyed e he' k' hk'
      · intro e he hk'
        rcases List.mem_cons.mp he with heq | he'
        · subst heq
          exact absurd hk' (by simp)
        · exact hkeyless e he' hk'
      · intro j hj hj0
        have hjid : j ≠ id := fun hcon => hj (by simp [hcon])
        have hjrest : j ∉ rest.map (·.1) := fun hcon => hj (by simp [hcon])
        rw [hframe j hjrest hj0]
        show (t.arena.detach id).get? j = t.arena.get? j
        exact hdetfr j hjid hj0
      · intro j hj
        have hjrest : j ∉ rest.map (·.1) := fun hcon => hj (by simp [hcon])
        rw [hw2rframe j hjrest]
    | none =>
      -- keyless child: dropped immediately and unconditionally
      have hrw : (bwLeaf none p).isRender = true := rfl
      obtain ⟨t1, rt1, hdrop, harena1, hroot1, hchg1, hnb1, hw2r1, hev1⟩ :=
        dropSubtree_leaf t rt id id (some 0) (bwLeaf none p) hn hrw hw2r
      obtain ⟨hdet1, hdetfr, hdetch, hdetdata, hdetpar, hdetfresh⟩ :=
        Arena.detach_spec t.arena id 0 ⟨some 0, [], bwLeaf none p⟩ hid0 hn rfl
      have hent1 : ∀ e ∈ rest, e.1 ≠ 0 ∧
          t1.arena.get? e.1 = some ⟨some 0, [], bwLeaf e.2.1 e.2.2⟩ ∧
          t1.widgetToRender e.1 = some e.1 := by
        intro e he
        obtain ⟨h1, h2, h3⟩ := hent e (List.mem_cons_of_mem _ he)
        have heid : e.1 ≠ id := by
          intro hcon
          exact hrestids (hcon ▸ List.mem_map_of_mem (·.1) he)
        refine ⟨h1, ?_, ?_⟩
        · rw [harena1, hdetfr e.1 heid h1]
          exact h2
        · rw [hw2r1, if_neg heid]
          exact h3
      have hch1 : t1.arena.childrenOf 0 = rest.map (·.1) := by
        rw [harena1, hdetch, hch]
        simp
      have h01 : (t1.arena.get? 0).isSome = true := by
        rw [harena1, Arena.get?_detach_isSome]
        exact h0
      have hroot1' : t1.root = some 0 := by
        rw [hroot1, hroot]
        simp [Ne.symm hid0]
      have hchg1' : t1.changedWidgets = [] := by
        rw [hchg1, hchg]
        rfl
      have hnb1' : t1.needBuilds = [] := by
        rw [hnb1, hnb]
        rfl
      obtain ⟨t', rt', hrun, hfr, hroot', hchg', hnb', hev', hch', hdat0, hpar0, h0',
        hkeyed, hkeyless, hframe, hw2rframe⟩ :=
        ih m t1 rt1 hent1 hndrest hroot1' hchg1' hnb1' hch1 h01
      refine ⟨t', rt', ?_, ?_, hroot', hchg', hnb', ?_, hch', ?_, ?_, h0', ?_, ?_, ?_, ?_⟩
      · show collectKeyChildren t rt (id :: rest.map (·.1)) m = _
        unfold collectKeyChildren
        rw [hdata]
        dsimp only [Option.some_bind, bwLeaf, BW.key]
        rw [hdrop]
        simpa using hrun
      · rw [hfr, harena1]
        exact hdetfresh
      · rw [hev', hev1]
      · rw [hdat0, harena1]
        exact hdetdata
      · rw [hpar0, harena1]
        exact hdetpar
      · intro e he k' hk'
        rcases List.mem_cons.mp he with heq | he'
        · subst heq
          exact absurd hk' (by simp)
        · exact hkeyed e he' k' hk'
      · intro e he hk'
        rcases List.mem_cons.mp he with heq | he'
        · subst heq
          refine ⟨?_, ?_, ?_⟩
          · rw [hw2rframe id hrestids, hw2r1]
            simp
          · have := hframe id hrestids hid0
            unfold Arena.parentOf
            rw [this, harena1, hdet1]
            rfl
          · rw [hframe id hrestids hid0, harena1, hdet1]
            rfl
        · exact hkeyless e he' hk'
      · intro j hj hj0
        have hjid : j ≠ id := fun hcon => hj (by simp [hcon])
        have hjrest : j ∉ rest.map (·.1) := fun hcon => hj (by simp [hcon])
        rw [hframe j hjrest hj0, harena1]
        exact hdetfr j hjid hj0
      · intro j hj
        have hjid : j ≠ id := fun hcon => hj (by simp [hcon])
        have hjrest : j ∉ rest.map (·.1) := fun hcon => hj (by simp [hcon])
        rw [hw2rframe j hjrest, hw2r1, if_neg hjid]

/-- C5: when `repair` reconciles multiple new children of a node
(`repair_children_by_key`, widget_tree.rs:172–210), over a run of
render-leaf children: every keyless existing child is dropped
unconditionally; each new child whose key matches an entry of the
existing-children key map re-parents and reuses that existing node and
pushes it on the repair stack for recursive reconciliation; each new
child with no match is inflated fresh; every existing keyed child not
consumed by a new child is dropped; and the final child order follows
the new-children order exactly — the outcome coincides with the
spec-side `keyedDiffSpec` procedure over the match map `mapFold`. -/
theorem repair_children_by_key_keyed_diff (fuel : Nat) (buildFn : Nat → BW)
    (rem : List (Nat × Option Nat × Nat)) (news : List (Option Nat × Nat))
    (t : WidgetTree) (rt : RenderTree)
    (hfuel : 1 ≤ fuel)
    (hent : ∀ e ∈ rem, e.1 ≠ 0 ∧ e.1 < t.arena.fresh ∧
      t.arena.get? e.1 = some ⟨some 0, [], bwLeaf e.2.1 e.2.2⟩ ∧
      t.widgetToRender e.1 = some e.1)
    (hnd : (rem.map (·.1)).Nodup)
    (hroot : t.root = some 0)
    (hchg : t.changedWidgets = []) (hnb : t.needBuilds = [])
    (hch : t.arena.childrenOf 0 = rem.map (·.1))
    (h0 : (t.arena.get? 0).isSome = true)
    (h0f : 0 < t.arena.fresh) :
    ∃ stk t' rt',
      repairChildrenByKey fuel buildFn 0 (news.map fun e => bwLeaf e.1 e.2) [] t rt
        = some (stk, t', rt') ∧
      t'.arena.childrenOf 0
        = (keyedDiffSpec (mapFold [] rem) t.arena.fresh
            (news.map fun e => bwLeaf e.1 e.2)).ids ∧
      stk = ((keyedDiffSpec (mapFold [] rem) t.arena.fresh
            (news.map fun e => bwLeaf e.1 e.2)).updates.map (·.1)).reverse ∧
      t'.changedWidgets = (keyedDiffSpec (mapFold [] rem) t.arena.fresh
            (news.map fun e => bwLeaf e.1 e.2)).updates.map (·.1) ∧
      t'.needBuilds = [] ∧
      (∀ kv ∈ (keyedDiffSpec (mapFold [] rem) t.arena.fresh
            (news.map fun e => bwLeaf e.1 e.2)).updates,
        t'.arena.dataOf? kv.1 = some kv.2 ∧ t'.arena.parentOf kv.1 = some 0) ∧
      (∀ e ∈ rem, e.2.1 = none →
        t'.widgetToRender e.1 = none ∧ t'.arena.parentOf e.1 = none) ∧
      (∀ kv ∈ (keyedDiffSpec (mapFold [] rem) t.arena.fresh
            (news.map fun e => bwLeaf e.1 e.2)).leftover,
        t'.widgetToRender kv.2 = none ∧ t'.arena.parentOf kv.2 = none) := by
  obtain ⟨t1, rt1, hrun1, hfr1, hroot1, hchg1, hnb1, hev1, hch1, hdat01, hpar01, h01,
    hkeyed1, hkeyless1, hfr1g, hfr1w⟩ :=
    collectKeyChildren_spec rem [] t rt
      (fun e he => ⟨(hent e he).1, (hent e he).2.2.1, (hent e he).2.2.2⟩)
      hnd hroot hchg hnb hch h0
  set m : List (Nat × Nat) := mapFold [] rem with hmdef
  have hm1 : ∀ kv ∈ m, kv.2 ≠ 0 ∧ kv.2 < t1.arena.fresh ∧
      (∃ q, t1.arena.get? kv.2 = some ⟨none, [], bwLeaf (some kv.1) q⟩) ∧
      t1.widgetToRender kv.2 = some kv.2 ∧
      kv.2 ∉ t1.arena.childrenOf 0 ∧ kv.2 ∉ t1.changedWidgets := by
    intro kv hkv
    rcases mapFold_mem_src rem [] kv hkv with h | ⟨p, hp⟩
    · exact absurd h (List.not_mem_nil kv)
    · obtain ⟨g1, g2, _, _⟩ := hent (kv.2, some kv.1, p) hp
      obtain ⟨gk1, gk2⟩ := hkeyed1 (kv.2, some kv.1, p) hp kv.1 rfl
      exact ⟨g1, by rw [hfr1]; exact g2, ⟨p, gk1⟩, gk2,
        by rw [hch1]; exact List.not_mem_nil _,
        by rw [hchg1]; exact List.not_mem_nil _⟩
  have hmnd : (m.map (·.2)).Nodup := by
    refine mapFold_values_nodup rem [] hnd ?_ List.nodup_nil
    intro v hv
    exact absurd hv (List.not_mem_nil v)
  obtain ⟨t2, rt2, hrun2, hch2, hchg2, hnb2, hroot2, hev2, hle2, h02, hlv2, hup2,
    hgfr2, hwfr2⟩ :=
    matchNewChildren_spec buildFn news fuel m [] t1 rt1
      (keyedDiffSpec m t.arena.fresh (news.map fun e => bwLeaf e.1 e.2))
      (by rw [hfr1]) hfuel hm1 hmnd (by rw [hfr1]; exact h0f) h01
  set o : DiffOutcome := keyedDiffSpec m t.arena.fresh (news.map fun e => bwLeaf e.1 e.2)
    with hodef
  have hupsub : ∀ j, j ∈ o.updates.map (·.1) → j ∈ m.map (·.2) := by
    intro j hj
    obtain ⟨kv, hkv, hkvj⟩ := List.mem_map.mp hj
    exact hkvj ▸ keyedDiffSpec_updates_sub _ m t.arena.fresh kv hkv
  have hlvsub : o.leftover.Sublist m := keyedDiffSpec_leftover_sublist _ m t.arena.fresh
  have hlvnd : (o.leftover.map (·.2)).Nodup := hmnd.sublist (hlvsub.map _)
  have hlvdisj : ∀ kv ∈ o.leftover, kv.2 ∉ o.updates.map (·.1) :=
    keyedDiffSpec_leftover_updates_disj _ m t.arena.fresh hmnd
  have hkeylessnm : ∀ e ∈ rem, e.2.1 = none → e.1 ∉ m.map (·.2) := by
    intro e he hkey hcon
    obtain ⟨kv, hkv, hkvv⟩ := List.mem_map.mp hcon
    rcases mapFold_mem_src rem [] kv hkv with h | ⟨p, hp⟩
    · exact absurd h (List.not_mem_nil kv)
    · have heq : e = (kv.2, some kv.1, p) :=
        List.inj_on_of_nodup_map hnd he hp (by simpa using hkvv.symm)
      rw [heq] at hkey
      exact absurd hkey (by simp)
  have hent3 : ∀ kv ∈ o.leftover, kv.2 ≠ 0 ∧
      (∃ q, t2.arena.get? kv.2 = some ⟨none, [], bwLeaf (some kv.1) q⟩) ∧
      t2.widgetToRender kv.2 = some kv.2 ∧
      kv.2 ∉ t2.changedWidgets ∧ kv.2 ∉ t2.needBuilds := by
    intro kv hkv
    obtain ⟨g1, g2, g3⟩ := hlv2 kv hkv
    refine ⟨g1, g2, g3, ?_, ?_⟩
    · rw [hchg2, hchg1]
      simpa using hlvdisj kv hkv
    · rw [hnb2, hnb1]
      exact List.not_mem_nil _
  obtain ⟨t3, rt3, hrun3, ha3, hroot3, hchg3, hnb3, hev3, hlv3, hfr3⟩ :=
    dropLeftovers_spec o.leftover t2 rt2 hent3 hlvnd (hroot2.trans hroot1)
  refine ⟨(o.updates.map (·.1)).reverse ++ [], t3, rt3, ?_, ?_, by simp, ?_, ?_, ?_, ?_, ?_⟩
  · unfold repairChildrenByKey
    dsimp only
    rw [hch, hrun1]
    simp only [Option.bind_eq_bind, Option.some_bind]
    rw [hrun2]
    simp only [Option.some_bind]
    rw [hrun3]
    simp only [Option.some_bind]
    rfl
  · have hcc : t3.arena.childrenOf 0 = t2.arena.childrenOf 0 := by
      rw [ha3]
    rw [hcc, hch2, hch1]
    simp
  · rw [hchg3, hchg2, hchg1]
    simp
  · rw [hnb3, hnb2, hnb1]
  · intro kv hkv
    obtain ⟨g1, g2⟩ := hup2 kv hkv
    constructor
    · show t3.arena.dataOf? kv.1 = _
      rw [ha3]
      exact g1
    · show t3.arena.parentOf kv.1 = _
      rw [ha3]
      exact g2
  · intro e he hkey
    obtain ⟨g1, g2, _⟩ := hkeyless1 e he hkey
    obtain ⟨he1, he2, _, _⟩ := hent e he
    have henotup : e.1 ∉ o.updates.map (·.1) := fun hcon => hkeylessnm e he hkey (hupsub e.1 hcon)
    have henotlv : e.1 ∉ o.leftover.map (·.2) := fun hcon =>
      hkeylessnm e he hkey ((hlvsub.map (·.2)).subset hcon)
    have helt : e.1 < t1.arena.fresh := by
      rw [hfr1]
      exact he2
    constructor
    · rw [hfr3 e.1 henotlv, hwfr2 e.1 helt]
      exact g1
    · have hgg : t3.arena.get? e.1 = t1.arena.get? e.1 := by
        rw [ha3]
        exact hgfr2 e.1 he1 henotup helt
      unfold Arena.parentOf
      unfold Arena.parentOf at g2
      rw [hgg]
      exact g2
  · intro kv hkv
    obtain ⟨g1, ⟨q, g2⟩, _⟩ := hlv2 kv hkv
    constructor
    · exact hlv3 kv hkv
    · have hgg : t3.arena.get? kv.2 = t2.arena.get? kv.2 := by
        rw [ha3]
      unfold Arena.parentOf
      rw [hgg, g2]
      rfl

/-- Witness for the keyed-diff reconciliation theorem: its hypotheses
hold for `quietTree` (root 0 with a single keyed render-leaf child) and
the new-children list `c5News` (one key match, one fresh child). -/
theorem repair_children_by_key_keyed_diff_witness :
    ∃ stk t' rt',
      repairChildrenByKey 1 (fun _ => bwComb 0) 0 (c5News.map fun e => bwLeaf e.1 e.2) []
          quietTree leafPairRender
        = some (stk, t', rt') ∧
      t'.arena.childrenOf 0
        = (keyedDiffSpec (mapFold [] c5Rem) quietTree.arena.fresh
            (c5News.map fun e => bwLeaf e.1 e.2)).ids ∧
      stk = ((keyedDiffSpec (mapFold [] c5Rem) quietTree.arena.fresh
            (c5News.map fun e => bwLeaf e.1 e.2)).updates.map (·.1)).reverse ∧
      t'.changedWidgets = (keyedDiffSpec (mapFold [] c5Rem) quietTree.arena.fresh
            (c5News.map fun e => bwLeaf e.1 e.2)).updates.map (·.1) ∧
      t'.needBuilds = [] ∧
      (∀ kv ∈ (keyedDiffSpec (mapFold [] c5Rem) quietTree.arena.fresh
            (c5News.map fun e => bwLeaf e.1 e.2)).updates,
        t'.arena.dataOf? kv.1 = some kv.2 ∧ t'.arena.parentOf kv.1 = some 0) ∧
      (∀ e ∈ c5Rem, e.2.1 = none →
        t'.widgetToRender e.1 = none ∧ t'.arena.parentOf e.1 = none) ∧
      (∀ kv ∈ (keyedDiffSpec (mapFold [] c5Rem) quietTree.arena.fresh
            (c5News.map fun e => bwLeaf e.1 e.2)).leftover,
        t'.widgetToRender kv.2 = none ∧ t'.arena.parentOf kv.2 = none) := by
  exact repair_children_by_key_keyed_diff 1 (fun _ => bwComb 0) c5Rem c5News
    quietTree leafPairRender
    (by decide)
    (by intro e he
        simp only [c5Rem, List.mem_singleton] at he
        subst he
        exact ⟨by decide, by decide, rfl, rfl⟩)
    (by decide) rfl rfl rfl rfl rfl (by decide)

end WT

namespace WT

/-- `update(RenderId, _)` touches only the stored render-object data: it
keeps the render tree's root, shape and ownership intact. -/
theorem renderUpdate_props (rt rt' : RenderTree) (rid obj : Nat)
    (h : renderUpdate rt rid obj = some rt') :
    rt'.root = rt.root ∧ rt'.arena.fresh = rt.arena.fresh ∧
    (∀ j, rt'.arena.parentOf j = rt.arena.parentOf j) ∧
    (∀ j, rt'.arena.childrenOf j = rt.arena.childrenOf j) ∧
    (∀ j, ((rt'.arena.get? j).isSome = (rt.arena.get? j).isSome)) ∧
    (∀ j, (rt'.arena.dataOf? j).map RObj.widget = (rt.arena.dataOf? j).map RObj.widget) := by
  unfold renderUpdate at h
  cases hd : rt.arena.dataOf? rid with
  | none =>
    rw [hd] at h
    exact absurd h (by simp)
  | some r =>
    rw [hd] at h
    injection h with h
    subst h
    refine ⟨rfl, by simp, ?_, ?_, ?_, ?_⟩
    · intro j
      exact Arena.parentOf_modifyNode_presParent _ _ _ _ fun n => rfl
    · intro j
      exact Arena.childrenOf_modifyNode_presChildren _ _ _ _ fun n => rfl
    · intro j
      exact Arena.get?_modifyNode_isSome _ _ _ _
    · intro j
      by_cases hj : j = rid
      · subst hj
        unfold Arena.modifyNode
        cases hn : rt.arena.nodes j with
        | none => rfl
        | some n =>
          have hr : n.data = r := by
            have : rt.arena.dataOf? j = some n.data := by
              simp [Arena.dataOf?, Arena.get?, hn]
            rw [hd] at this
            exact (Option.some_injective _ this).symm
          simp [Arena.dataOf?, Arena.get?, Arena.setNode, hn, hr]
      · rw [Arena.dataOf?_modifyNode_ne _ _ _ _ hj]

/-- Each pass of `flush_to_render`'s loop preserves the render tree's
root, shape and ownership (only render-object data is updated). -/
theorem flushLoop_structure (t : WidgetTree) :
    ∀ (l : List Nat) (rt rt' : RenderTree), flushLoop t l rt = some rt' →
    rt'.root = rt.root ∧ rt'.arena.fresh = rt.arena.fresh ∧
    (∀ j, rt'.arena.parentOf j = rt.arena.parentOf j) ∧
    (∀ j, rt'.arena.childrenOf j = rt.arena.childrenOf j) ∧
    (∀ j, ((rt'.arena.get? j).isSome = (rt.arena.get? j).isSome)) ∧
    (∀ j, (rt'.arena.dataOf? j).map RObj.widget = (rt.arena.dataOf? j).map RObj.widget) := by
  intro l
  induction l with
  | nil =>
    intro rt rt' h
    unfold flushLoop at h
    injection h with h
    subst h
    exact ⟨rfl, rfl, fun _ => rfl, fun _ => rfl, fun _ => rfl, fun _ => rfl⟩
  | cons wid rest ih =>
    intro rt rt' h
    unfold flushLoop at h
    cases hw : t.arena.dataOf? wid with
    | none => rw [hw] at h; exact absurd h (by simp)
    | some w =>
      rw [hw] at h
      cases hrid : t.widgetToRender wid with
      | none => rw [hrid] at h; exact absurd h (by simp)
      | some rid =>
        rw [hrid] at h
        simp only [Option.bind_eq_bind, Option.some_bind] at h
        by_cases hr : w.isRender
        · rw [if_pos hr] at h
          cases hu : renderUpdate rt rid w.payload with
          | none => rw [hu] at h; exact absurd h (by simp)
          | some rt2 =>
            rw [hu] at h
            simp only [Option.bind_eq_bind, Option.some_bind] at h
            obtain ⟨u1, u2, u3, u4, u5, u6⟩ := renderUpdate_props rt rt2 rid w.payload hu
            obtain ⟨i1, i2, i3, i4, i5, i6⟩ := ih rt2 rt' h
            exact ⟨i1.trans u1, i2.trans u2, fun j => (i3 j).trans (u3 j),
              fun j => (i4 j).trans (u4 j), fun j => (i5 j).trans (u5 j),
              fun j => (i6 j).trans (u6 j)⟩
        · rw [if_neg hr] at h
          exact absurd h (by simp)

/-!
### C8 — a repair pass over an empty `need_builds` set mutates nothing

With `need_builds` empty, `pop_need_build_widget` returns `None` at
once, so `repair` only runs `flush_to_render`: the widget arena, the
root, the WidgetId→RenderId table and the render tree's structure are
untouched, and no lifecycle callback fires (this source file contains no
lifecycle invocation site at all, so the event log cannot grow). -/

/-- C8: calling `repair()` with `need_builds` empty performs no
widget-tree or render-tree structural mutation — the widget arena is
unchanged, render nodes keep their ids, parents, children, owners and
root, only render-object data is re-pushed — and fires no lifecycle
callbacks (`events` is unchanged). -/
theorem repair_noop_on_empty_need_builds (buildFn : Nat → BW) (fuel : Nat)
    (t t' : WidgetTree) (rt rt' : RenderTree)
    (hempty : t.needBuilds = [])
    (h : repair buildFn fuel t rt = some (t', rt')) :
    t'.arena = t.arena ∧ t'.root = t.root ∧ t'.events = t.events ∧
    t'.widgetToRender = t.widgetToRender ∧ t'.needBuilds = [] ∧
    rt'.root = rt.root ∧ rt'.arena.fresh = rt.arena.fresh ∧
    (∀ j, rt'.arena.parentOf j = rt.arena.parentOf j) ∧
    (∀ j, rt'.arena.childrenOf j = rt.arena.childrenOf j) ∧
    (∀ j, ((rt'.arena.get? j).isSome = (rt.arena.get? j).isSome)) ∧
    (∀ j, (rt'.arena.dataOf? j).map RObj.widget = (rt.arena.dataOf? j).map RObj.widget) := by
  cases fuel with
  | zero => exact absurd h (by simp [repair])
  | succ fuel =>
    unfold repair at h
    have hpop : popNeedBuildWidget t = (t, none) := by
      unfold popNeedBuildWidget
      simp [hempty]
    rw [hpop] at h
    dsimp only at h
    unfold flushToRender at h
    cases hf : flushLoop t t.changedWidgets rt with
    | none => rw [hf] at h; exact absurd h (by simp)
    | some rt2 =>
      rw [hf] at h
      simp only [Option.bind_eq_bind, Option.some_bind, pure, Option.some.injEq, Prod.mk.injEq] at h
      obtain ⟨ht, hrt⟩ := h
      subst ht
      subst hrt
      obtain ⟨f1, f2, f3, f4, f5, f6⟩ := flushLoop_structure t t.changedWidgets rt rt2 hf
      exact ⟨rfl, rfl, rfl, rfl, hempty, f1, f2, f3, f4, f5, f6⟩

/-- Witness for C8: the theorem applied to the concrete dirty-set-free
state `quietTree`, where `repair` indeed returns and returns the state
unchanged. -/
theorem repair_noop_on_empty_need_builds_witness :
    quietTree.arena = quietTree.arena ∧ quietTree.root = quietTree.root ∧
    quietTree.events = quietTree.events ∧
    quietTree.widgetToRender = quietTree.widgetToRender ∧ quietTree.needBuilds = [] ∧
    leafPairRender.root = leafPairRender.root ∧
    leafPairRender.arena.fresh = leafPairRender.arena.fresh ∧
    (∀ j, leafPairRender.arena.parentOf j = leafPairRender.arena.parentOf j) ∧
    (∀ j, leafPairRender.arena.childrenOf j = leafPairRender.arena.childrenOf j) ∧
    (∀ j, ((leafPairRender.arena.get? j).isSome = (leafPairRender.arena.get? j).isSome)) ∧
    (∀ j, (leafPairRender.arena.dataOf? j).map RObj.widget
        = (leafPairRender.arena.dataOf? j).map RObj.widget) :=
  repair_noop_on_empty_need_builds bwComb 1 quietTree quietTree leafPairRender leafPairRender
    rfl rfl

end WT

/-!
### C2 — which widget does `pop_need_build_widget` pop?

`WidgetId::ancestors` proxies `indextree`'s `ancestors`, whose chain
*starts with the node itself*; since the searched node was taken from
`need_builds`, `Iterator::find` over that chain stops at the node
itself.  So `pop_need_build_widget` returns whatever element
`iter().next()` produced, even when a proper ancestor of it is also in
`need_builds` — contradicting its own doc comment "Return the topmost
need rebuild". -/

/-- C2: evaluating the code at a two-node tree (root 0 → child 1, both
in `need_builds`, iteration order yielding the child first):
`pop_need_build_widget` pops the child, node 1, even though node 0 — a
proper ancestor of node 1 — is also in `need_builds`, and it removes
node 1 from the set.  The claimed "topmost" selection does not happen. -/
theorem pop_need_build_pops_non_topmost :
    (WT.popNeedBuildWidget WT.twoCombTree).2 = some 1 ∧
    (WT.popNeedBuildWidget WT.twoCombTree).1.needBuilds = [0] ∧
    0 ∈ (WT.twoCombTree.arena.ancestors 1).tail ∧
    0 ∈ WT.twoCombTree.needBuilds := by
  decide

/-!
### C9 — `WidgetTree::new_node` and stateful widgets
-/

/-- C9: `new_node` returns a stateful widget's preallocated id without
touching the arena, and allocates a fresh node exactly when the widget
is not stateful (widget_tree.rs:36–42). -/
theorem new_node_stateful_no_alloc (t : WT.WidgetTree) (w : WT.BW) :
    (∀ i, w.sid = some i → WT.newNode t w = (t, i)) ∧
    (w.sid = none →
      (WT.newNode t w).2 = t.arena.fresh ∧
      (WT.newNode t w).1.arena.fresh = t.arena.fresh + 1 ∧
      (WT.newNode t w).1.arena.dataOf? t.arena.fresh = some w ∧
      ∀ j, j ≠ t.arena.fresh → (WT.newNode t w).1.arena.get? j = t.arena.get? j) := by
  constructor
  · intro i hi
    simp [WT.newNode, hi]
  · intro hn
    simp only [WT.newNode, hn]
    refine ⟨rfl, rfl, ?_, ?_⟩
    · simp [Arena.alloc, Arena.dataOf?, Arena.get?]
    · intro j hj
      simp [Arena.alloc, Arena.get?, hj]

/-- Witness for C9: node 1 of `twoCombTree` carries no stateful id, so a
non-stateful widget allocates id 2; a stateful widget carrying
preallocated id 1 is returned as-is. -/
theorem new_node_stateful_no_alloc_witness :
    WT.newNode WT.twoCombTree (WT.BW.mk .render none 5 (some 1) []) = (WT.twoCombTree, 1) ∧
    (WT.newNode WT.twoCombTree (WT.bwLeaf none 5)).2 = 2 :=
  ⟨(new_node_stateful_no_alloc WT.twoCombTree _).1 1 rfl,
   ((new_node_stateful_no_alloc WT.twoCombTree (WT.bwLeaf none 5)).2 rfl).1⟩

/-!
### C3 — `WidgetId::drop` does not deallocate the widget subtree

The source removes the subtree's entries from both dirty sets and the
WidgetId→RenderId table and drops the render subtree, but then only
*detaches* the widget subtree; its own comment says "Fixme: memory leak
here, node just detach and not remove."
-/

/-- C3: evaluating `WidgetId::drop` on `leafPairTree` at node 1: the
dirty-set entries, the WidgetId→RenderId entry and the render-object
subtree of node 1 are all removed and the subtree is detached — but the
widget node is still allocated in the arena afterwards
(`(get? 1).isSome = true`), so the subtree is *not* deallocated. -/
theorem drop_purges_tables_but_keeps_arena_nodes :
    ((WT.dropSubtree WT.leafPairTree WT.leafPairRender 1).map fun r =>
      (r.1.widgetToRender 1, r.1.changedWidgets, r.1.needBuilds,
       (r.2.arena.get? 1).isSome, r.2.arena.childrenOf 0,
       r.1.arena.childrenOf 0, r.1.arena.parentOf 1,
       (r.1.arena.get? 1).isSome))
    = some (none, [], [], false, [], [], none, true) := by
  rfl

namespace DynW

/-- Realizing a fragment yields exactly one subtree root per
description. -/
theorem realizeAll_length (ds : List WDescr) : ∀ a : DArena,
    ((realizeAll a ds).2).length = ds.length := by
  induction ds with
  | nil => intro a; rfl
  | cons d rest ih =>
    intro a
    have h : realizeAll a (d :: rest)
        = ((realizeAll (intoSubtree a d).1 rest).1,
           (intoSubtree a d).2 :: (realizeAll (intoSubtree a d).1 rest).2) := rfl
    rw [h]
    show ((intoSubtree a d).2 :: (realizeAll (intoSubtree a d).1 rest).2).length
        = rest.length + 1
    rw [List.length_cons, ih]

set_option maxRecDepth 8000 in
/-- A successful `DynDepth` branch always reports a `DynDepth` info. -/
theorem regenDynDepth_shape (fuel sign oldSign depth : Nat) (ids : List Nat)
    (s : DState) (gi : DynWidgetGenInfo) (s2 : DState)
    (h : regenDynDepth fuel sign oldSign depth ids s = some (gi, s2)) :
    ∃ d, gi = .dynDepth d := by
  unfold regenDynDepth at h
  by_cases hl : ids.length = 1
  case neg =>
    rw [if_neg hl] at h
    exact absurd h (by simp)
  case pos =>
    rw [if_pos hl] at h
    simp only [← Option.bind_eq_bind] at h
    rcases Option.bind_eq_some.mp h with ⟨dcp, hdcp, h⟩
    rcases Option.bind_eq_some.mp h with ⟨lf, hlf, h⟩
    rcases Option.bind_eq_some.mp h with ⟨ok, hok, h⟩
    rcases Option.bind_eq_some.mp h with ⟨s3, hs3, h⟩
    rcases Option.bind_eq_some.mp h with ⟨evs, hevs, h⟩
    exact ⟨lf.2 + 1, by injection h with h1; injection h1 with h2 h3; exact h2.symm⟩

set_option maxRecDepth 8000 in
/-- A successful `WholeSubtree` branch always reports a `WholeSubtree`
info, recording the new run length and keeping `directly_spread`. -/
theorem regenWholeSubtree_shape (oldSign width : Nat) (dsF : Bool) (ids : List Nat)
    (s : DState) (gi : DynWidgetGenInfo) (s2 : DState)
    (h : regenWholeSubtree oldSign width dsF ids s = some (gi, s2)) :
    gi = .wholeSubtree ids.length dsF := by
  unfold regenWholeSubtree at h
  simp only [← Option.bind_eq_bind] at h
  rcases Option.bind_eq_some.mp h with ⟨m, hm, h⟩
  rcases Option.bind_eq_some.mp h with ⟨p, hp, h⟩
  rcases Option.bind_eq_some.mp h with ⟨s3, hs3, h⟩
  rcases Option.bind_eq_some.mp h with ⟨s4, hs4, h⟩
  injection h with h1
  injection h1 with h2 h3
  exact h2.symm

set_option maxRecDepth 8000 in
/-- Every successful regeneration keeps the kind of an established
generation info. -/
theorem regenIfNeed_kind_fixed (fuel : Nat) (dr : DynRender) (sign : Nat)
    (s : DState) (dr2 : DynRender) (s2 : DState) (g : DynWidgetGenInfo)
    (h : regenIfNeed fuel dr sign s = some (dr2, s2)) (hg : dr.genInfo = some g) :
    ∃ g2, dr2.genInfo = some g2 ∧ g.sameKind g2 = true := by
  unfold regenIfNeed at h
  cases hd : dr.dyns with
  | none =>
    rw [hd] at h
    injection h with h1
    injection h1 with h2 h3
    exact ⟨g, by rw [← h2]; exact hg, by cases g <;> rfl⟩
  | some descrs =>
    rw [hd, hg] at h
    simp only [Option.getD_some, ← Option.bind_eq_bind] at h
    rcases Option.bind_eq_some.mp h with ⟨q1, hq1, h⟩
    rcases Option.bind_eq_some.mp h with ⟨first, hfirst, h⟩
    cases g with
    | dynDepth d =>
      dsimp only at h
      rcases Option.bind_eq_some.mp h with ⟨y, hy, h⟩
      obtain ⟨gi2, s3⟩ := y
      rcases Option.bind_eq_some.mp h with ⟨q3, hq3, h⟩
      injection h with h1
      injection h1 with h2 h3
      obtain ⟨d2, hd2⟩ := regenDynDepth_shape _ _ _ _ _ _ _ _ hy
      refine ⟨gi2, by rw [← h2], ?_⟩
      rw [hd2]
      rfl
    | wholeSubtree w b =>
      dsimp only at h
      rcases Option.bind_eq_some.mp h with ⟨y, hy, h⟩
      obtain ⟨gi2, s3⟩ := y
      rcases Option.bind_eq_some.mp h with ⟨q3, hq3, h⟩
      injection h with h1
      injection h1 with h2 h3
      have hd2 := regenWholeSubtree_shape _ _ _ _ _ _ _ hy
      refine ⟨gi2, by rw [← h2], ?_⟩
      rw [hd2]
      rfl

set_option maxRecDepth 8000 in
/-- A multi-widget generation under an established `DynDepth` info hits
the `assert_eq!(new_widgets.len(), 1)` panic. -/
theorem regenIfNeed_assert_multi (fuel : Nat) (dr : DynRender) (sign : Nat)
    (s : DState) (d : Nat) (ds : List WDescr)
    (hg : dr.genInfo = some (.dynDepth d)) (hd : dr.dyns = some ds)
    (hlen : 2 ≤ ds.length) :
    regenIfNeed fuel dr sign s = none := by
  have hr2 : (realizeAll s.arena ds).2.length = ds.length := realizeAll_length ds s.arena
  have hne : ¬((realizeAll s.arena ds).2 = []) := by
    intro hc
    rw [hc] at hr2
    simp only [List.length_nil] at hr2
    omega
  cases hval : regenIfNeed fuel dr sign s with
  | none => rfl
  | some p =>
    exfalso
    unfold regenIfNeed at hval
    rw [hd, hg] at hval
    simp only [Option.getD_some] at hval
    rw [if_neg hne] at hval
    rcases Option.bind_eq_some.mp hval with ⟨q1, hq1, hval⟩
    rcases Option.bind_eq_some.mp hval with ⟨first, hfirst, hval⟩
    rcases Option.bind_eq_some.mp hval with ⟨y, hy, hval⟩
    unfold regenDynDepth at hy
    rw [if_neg] at hy
    · exact Option.noConfusion hy
    · simp only [List.length_cons, List.length_tail]
      omega

/-- Realizing a childless description is a single allocation. -/
theorem intoSubtree_flat (a : DArena) (d : WDescr) (hd : d.children = []) :
    intoSubtree a d = a.alloc d.toData := by
  cases d with
  | mk k v tg cs =>
    simp only [WDescr.children] at hd
    subst hd
    rfl

/-- Realizing a flat fragment allocates one fresh detached node per
description, in order, and touches nothing else. -/
theorem realizeAll_flat (ds : List WDescr) (hflat : ∀ d ∈ ds, d.children = []) :
    ∀ a : DArena,
      (realizeAll a ds).2 = List.range' a.fresh ds.length ∧
      (realizeAll a ds).1.fresh = a.fresh + ds.length ∧
      (∀ j, j < a.fresh → (realizeAll a ds).1.get? j = a.get? j) ∧
      (∀ i (h : i < ds.length),
        (realizeAll a ds).1.get? (a.fresh + i)
          = some ⟨none, [], (ds.get ⟨i, h⟩).toData⟩) := by
  induction ds with
  | nil =>
    intro a
    exact ⟨rfl, rfl, fun j hj => rfl, fun i h => absurd h (by simp)⟩
  | cons d rest ih =>
    intro a
    have hstep : realizeAll a (d :: rest)
        = ((realizeAll (intoSubtree a d).1 rest).1,
           (intoSubtree a d).2 :: (realizeAll (intoSubtree a d).1 rest).2) := rfl
    have hd0 : d.children = [] := hflat d (List.mem_cons_self d rest)
    have hflat2 : ∀ e ∈ rest, e.children = [] := fun e he =>
      hflat e (List.mem_cons_of_mem d he)
    rw [intoSubtree_flat a d hd0] at hstep
    obtain ⟨ha1, ha2, ha3, ha4⟩ := Arena.alloc_spec a d.toData
    obtain ⟨hi1, hi2, hi3, hi4⟩ := ih hflat2 (a.alloc d.toData).1
    refine ⟨?_, ?_, ?_, ?_⟩
    · rw [hstep]
      show (a.alloc d.toData).2 :: (realizeAll (a.alloc d.toData).1 rest).2
          = List.range' a.fresh (rest.length + 1)
      rw [ha1, hi1, ha2]
      rw [List.range'_succ]
    · rw [hstep]
      show (realizeAll (a.alloc d.toData).1 rest).1.fresh = a.fresh + (rest.length + 1)
      rw [hi2, ha2]
      omega
    · intro j hj
      rw [hstep]
      show (realizeAll (a.alloc d.toData).1 rest).1.get? j = a.get? j
      rw [hi3 j (by rw [ha2]; omega), ha4 j (by omega)]
    · intro i h
      rw [hstep]
      show (realizeAll (a.alloc d.toData).1 rest).1.get? (a.fresh + i)
          = some ⟨none, [], ((d :: rest).get ⟨i, h⟩).toData⟩
      cases i with
      | zero =>
        rw [hi3 (a.fresh + 0) (by rw [ha2]; omega)]
        simpa using ha3
      | succ m =>
        have hm : m < rest.length := by
          simpa [Nat.succ_lt_succ_iff] using h
        have := hi4 m hm
        rw [ha2] at this
        rw [show a.fresh + (m + 1) = a.fresh + 1 + m by omega]
        exact this

/-- Pointwise description of the id transposition. -/
theorem swapId_get? (a : DArena) (x y j : Nat) :
    (swapId a x y).get? j = (a.get? (swapNat x y j)).map fun n =>
      ⟨n.parent.map (swapNat x y), n.children.map (swapNat x y), n.data⟩ := rfl

/-- Inserting before an anchor that sits after a prefix not containing
it. -/
theorem listInsertBefore_append (n : Nat) :
    ∀ (xs ys : List Nat) (anchor : Nat), anchor ∉ xs →
      Arena.listInsertBefore (xs ++ anchor :: ys) anchor n = xs ++ n :: anchor :: ys := by
  intro xs
  induction xs with
  | nil =>
    intro ys anchor h
    simp [Arena.listInsertBefore]
  | cons x xt ih =>
    intro ys anchor h
    have hxa : ¬(x = anchor) := by
      intro hc
      exact h (by rw [hc]; exact List.mem_cons_self _ _)
    simp only [List.cons_append, Arena.listInsertBefore, if_neg hxa]
    show x :: Arena.listInsertBefore (xt ++ anchor :: ys) anchor n
        = x :: (xt ++ n :: anchor :: ys)
    rw [ih ys anchor (fun hc => h (List.mem_cons_of_mem _ hc))]

/-- One `insert_before` of a detached node: the node is re-parented,
the parent's child list gains it before the anchor, and nothing else
changes. -/
theorem insertBefore_spec (a : DArena) (p anchor n : Nat) (nd pd : Node DWidget)
    (hpar : a.parentOf anchor = some p)
    (hn : a.get? n = some nd) (hnp : nd.parent = none)
    (hpd : a.get? p = some pd)
    (hnep : n ≠ p) :
    (a.insertBefore anchor n).get? n = some { nd with parent := some p } ∧
    (∀ j, j ≠ p → j ≠ n → (a.insertBefore anchor n).get? j = a.get? j) ∧
    (a.insertBefore anchor n).get? p
      = some { pd with children := Arena.listInsertBefore pd.children anchor n } ∧
    (a.insertBefore anchor n).fresh = a.fresh := by
  have hdet : a.detach n = a := Arena.detach_noop a n (by simp [Arena.parentOf, hn, hnp])
  unfold Arena.insertBefore
  rw [hpar]
  dsimp only
  rw [hdet]
  refine ⟨?_, ?_, ?_, ?_⟩
  · rw [Arena.get?_modifyNode]
    rw [Arena.get?_modifyNode_ne _ _ _ _ hnep, hn]
    rfl
  · intro j hjp hjn
    rw [Arena.get?_modifyNode_ne _ _ _ _ hjn, Arena.get?_modifyNode_ne _ _ _ _ hjp]
  · rw [Arena.get?_modifyNode_ne _ _ _ _ (Ne.symm hnep)]
    unfold Arena.modifyNode
    rw [show Arena.get? a p = a.nodes p from rfl] at hpd
    rw [hpd]
    simp [Arena.get?, Arena.setNode]
  · simp

/-- The insertion loop of the `WholeSubtree` branch: the whole run ends
up, in order, before the anchor in the parent's child list; each
inserted node is re-parented and otherwise unchanged; every other node
is untouched. -/
theorem insertRunBefore_spec :
    ∀ (l : List Nat) (a : DArena) (p anchor : Nat) (pd : Node DWidget)
      (xs ys : List Nat),
      a.get? p = some pd →
      pd.children = xs ++ anchor :: ys →
      a.parentOf anchor = some p →
      anchor ∉ xs →
      (∀ n ∈ l, (∃ nd, a.get? n = some nd ∧ nd.parent = none) ∧
        n ∉ pd.children ∧ n ≠ p ∧ n ≠ anchor) →
      l.Nodup →
      (∃ pd2, (insertRunBefore a anchor l).get? p = some pd2 ∧
        pd2.children = xs ++ l.reverse ++ anchor :: ys ∧
        pd2.data = pd.data ∧ pd2.parent = pd.parent) ∧
      (∀ n ∈ l, ∀ nd, a.get? n = some nd →
        (insertRunBefore a anchor l).get? n = some { nd with parent := some p }) ∧
      (∀ j, j ≠ p → j ∉ l → (insertRunBefore a anchor l).get? j = a.get? j) ∧
      (insertRunBefore a anchor l).fresh = a.fresh := by
  intro l
  induction l with
  | nil =>
    intro a p anchor pd xs ys hpd hch hpar hax hents hnd
    refine ⟨⟨pd, hpd, by simpa using hch, rfl, rfl⟩, ?_, ?_, rfl⟩
    · intro n hn
      exact absurd hn (List.not_mem_nil n)
    · intro j hjp hjl
      rfl
  | cons n rest ih =>
    intro a p anchor pd xs ys hpd hch hpar hax hents hnd
    obtain ⟨⟨nd0, hnd0, hnd0p⟩, hnmem, hnp, hna⟩ := hents n (List.mem_cons_self n rest)
    obtain ⟨hb1, hb2, hb3, hb4⟩ :=
      insertBefore_spec a p anchor n nd0 pd hpar hnd0 hnd0p hpd hnp
    have hch2 : Arena.listInsertBefore pd.children anchor n = xs ++ n :: anchor :: ys := by
      rw [hch]
      exact listInsertBefore_append n xs ys anchor hax
    rw [hch2] at hb3
    have hnxs : n ∉ xs := fun hc => hnmem (by rw [hch]; exact List.mem_append_left _ hc)
    have hpar2 : (a.insertBefore anchor n).parentOf n = some p := by
      simp [Arena.parentOf, hb1]
    have hnodup := List.nodup_cons.mp hnd
    have hents2 : ∀ m ∈ rest,
        ((∃ nd, (a.insertBefore anchor n).get? m = some nd ∧ nd.parent = none) ∧
         m ∉ (Node.children { pd with children := xs ++ n :: anchor :: ys }) ∧
         m ≠ p ∧ m ≠ n) := by
      intro m hm
      obtain ⟨⟨md, hmd, hmdp⟩, hmmem, hmp, hma⟩ := hents m (List.mem_cons_of_mem n hm)
      have hmn : m ≠ n := fun hc => hnodup.1 (hc ▸ hm)
      refine ⟨⟨md, ?_, hmdp⟩, ?_, hmp, hmn⟩
      · rw [hb2 m hmp hmn]
        exact hmd
      · intro hc
        simp only [List.mem_append, List.mem_cons] at hc
        rcases hc with hc | hc | hc | hc
        · exact hmmem (by rw [hch]; exact List.mem_append_left _ hc)
        · exact hmn hc
        · exact hmmem (by rw [hch]; exact List.mem_append_right _ (by simp [hc]))
        · exact hmmem (by rw [hch]; exact List.mem_append_right _ (by simp [hc]))
    obtain ⟨⟨pd2, hp1, hp2, hp3, hp4⟩, hrun2, hfr2, hfresh2⟩ :=
      ih (a.insertBefore anchor n) p n { pd with children := xs ++ n :: anchor :: ys }
        xs (anchor :: ys) hb3 rfl hpar2 hnxs hents2 hnodup.2
    have hstep : insertRunBefore a anchor (n :: rest)
        = insertRunBefore (a.insertBefore anchor n) n rest := rfl
    refine ⟨⟨pd2, ?_, ?_, ?_, ?_⟩, ?_, ?_, ?_⟩
    · rw [hstep]
      exact hp1
    · rw [hp2]
      simp
    · rw [hp3]
    · rw [hp4]
    · intro m hm nd hmd
      rcases List.mem_cons.mp hm with rfl | hm2
      · have : a.get? m = some nd0 := hnd0
        have hnd0eq : nd = nd0 := by
          rw [this] at hmd
          exact (Option.some.inj hmd).symm
        rw [hstep, hfr2 m hnp hnodup.1]
        rw [hnd0eq]
        exact hb1
      · have hmn : m ≠ n := fun hc => hnodup.1 (hc ▸ hm2)
        obtain ⟨⟨_, _, _⟩, _, hmp, _⟩ := hents m (List.mem_cons_of_mem n hm2)
        rw [hstep]
        refine hrun2 m hm2 nd ?_
        rw [hb2 m hmp hmn]
        exact hmd
    · intro j hjp hjl
      have hjn : j ≠ n := fun hc => hjl (by rw [hc]; exact List.mem_cons_self n rest)
      have hjr : j ∉ rest := fun hc => hjl (List.mem_cons_of_mem n hc)
      rw [hstep, hfr2 j hjp hjr, hb2 j hjp hjn]
    · rw [hstep, hfresh2, hb4]

/-- The new-widget key pass against an empty key map only fires
key-level `mounted` events: the arena is untouched and the map stays
empty. -/
theorem matchKeysPass_empty (ids : List Nat) :
    ∀ s : DState, (∀ n ∈ ids, (s.arena.dataOf? n).isSome = true) →
      ∃ s2, matchKeysPass s [] ids = some (s2, []) ∧ s2.arena = s.arena := by
  induction ids with
  | nil =>
    intro s h
    exact ⟨s, rfl, rfl⟩
  | cons n rest ih =>
    intro s h
    obtain ⟨d, hd⟩ := Option.isSome_iff_exists.mp (h n (List.mem_cons_self n rest))
    have hik : inspectKey? s.arena n = some d.key := by
      simp [inspectKey?, hd]
    have hrest : ∀ m ∈ rest, (s.arena.dataOf? m).isSome = true := fun m hm =>
      h m (List.mem_cons_of_mem n hm)
    simp only [matchKeysPass, Option.bind_eq_bind]
    rw [hik]
    simp only [Option.some_bind]
    cases hk : d.key with
    | none =>
      exact ih s hrest
    | some k =>
      obtain ⟨s2, h1, h2⟩ := ih (fire s (.keyMounted k)) hrest
      exact ⟨s2, h1, h2⟩

/-- Mounting subtrees only appends events. -/
theorem foldl_onMountedSubtree_arena (ids : List Nat) :
    ∀ s : DState, (ids.foldl onMountedSubtree s).arena = s.arena := by
  induction ids with
  | nil => intro s; rfl
  | cons n rest ih =>
    intro s
    rw [List.foldl_cons]
    exact (ih _).trans rfl

/-- Erasing the appended last element of a list it does not otherwise
contain. -/
theorem erase_append_singleton (l : List Nat) (a : Nat) (h : a ∉ l) :
    (l ++ [a]).erase a = l := by
  rw [List.erase_append_right _ h]
  simp

/-- A width-1 removal run removes exactly the anchor subtree. -/
theorem removeRun_one (s : DState) (o : Nat) :
    removeRun s 1 (some o) = some (removeSubtree s o) := rfl

/-- Removing a leaf subtree: the node is deallocated, erased from its
parent's child list, one widget-level `disposed` fires, and nothing
else changes. -/
theorem removeSubtree_leaf (s : DState) (id p : Nat) (nd : Node DWidget)
    (hn : s.arena.get? id = some nd) (hch : nd.children = [])
    (hp : nd.parent = some p) (hip : id ≠ p) :
    (removeSubtree s id).arena.get? id = none ∧
    (∀ j, j ≠ id → j ≠ p → (removeSubtree s id).arena.get? j = s.arena.get? j) ∧
    (removeSubtree s id).arena.childrenOf p = (s.arena.childrenOf p).erase id ∧
    (removeSubtree s id).arena.dataOf? p = s.arena.dataOf? p ∧
    (removeSubtree s id).arena.fresh = s.arena.fresh ∧
    (removeSubtree s id).events = s.events ++ [Event.widgetDisposed id] := by
  have hchild : s.arena.childrenOf id = [] := by
    simp [Arena.childrenOf, hn, hch]
  have hsub : s.arena.subtree id = [id] := Arena.subtree_of_leaf s.arena id hchild
  obtain ⟨hd1, hd2, hd3, hd4, hd5, hd6⟩ := Arena.detach_spec s.arena id p nd hip hn hp
  unfold removeSubtree
  rw [hsub]
  refine ⟨?_, ?_, ?_, ?_, ?_, rfl⟩
  · show ((s.arena.detach id).eraseAll [id]).get? id = none
    simp [Arena.eraseAll, Arena.eraseNode, Arena.get?]
  · intro j hjid hjp
    show ((s.arena.detach id).eraseAll [id]).get? j = s.arena.get? j
    have : ((s.arena.detach id).eraseAll [id]).get? j = (s.arena.detach id).get? j := by
      simp [Arena.eraseAll, Arena.eraseNode, Arena.get?, hjid]
    rw [this, hd2 j hjid hjp]
  · show ((s.arena.detach id).eraseAll [id]).childrenOf p = _
    have : ((s.arena.detach id).eraseAll [id]).get? p = (s.arena.detach id).get? p := by
      simp [Arena.eraseAll, Arena.eraseNode, Arena.get?, Ne.symm hip]
    rw [Arena.childrenOf, this]
    rw [← Arena.childrenOf]
    exact hd3
  · show ((s.arena.detach id).eraseAll [id]).dataOf? p = _
    have : ((s.arena.detach id).eraseAll [id]).get? p = (s.arena.detach id).get? p := by
      simp [Arena.eraseAll, Arena.eraseNode, Arena.get?, Ne.symm hip]
    rw [Arena.dataOf?, this, ← Arena.dataOf?]
    exact hd4
  · show ((s.arena.detach id).eraseAll [id]).fresh = _
    simp [Arena.eraseAll, Arena.eraseNode]

/-- The spread mount pass walks exactly the sibling run and fires the
key-level and widget-level `mounted` for each of its nodes, in order. -/
theorem mountSiblingsLoop_spec (a : DArena) :
    ∀ (run : List Nat) (evs : List Event), sibRunOk a run = true →
      mountSiblingsLoop a run.length run.head? evs
        = some (evs ++ (run.map (mountEvents a)).flatten) := by
  intro run
  induction run with
  | nil =>
    intro evs h
    simp [mountSiblingsLoop]
  | cons x rest ih =>
    intro evs h
    simp only [sibRunOk, Bool.and_eq_true] at h
    obtain ⟨⟨h1, h2⟩, h3⟩ := h
    obtain ⟨d, hd⟩ := Option.isSome_iff_exists.mp h1
    simp only [List.length_cons, List.head?_cons]
    simp only [mountSiblingsLoop, Option.bind_eq_bind, Option.some_bind]
    rw [show inspectKey? a x = some d.key by simp [inspectKey?, hd]]
    simp only [Option.bind_eq_bind, Option.some_bind]
    have hme : mountEvents a x
        = (match d.key with
           | some k => [Event.keyMounted k]
           | none => []) ++ [Event.widgetMounted x] := by
      simp [mountEvents, hd]
    cases rest with
    | nil =>
      simp [mountSiblingsLoop, hme]
    | cons y ys =>
      have hns : a.nextSibling x = some y := by
        simpa using h2
      rw [hns]
      have hih := ih (evs ++ mountEvents a x) h3
      simp only [List.head?_cons] at hih
      rw [show ((evs ++
          match d.key with
          | some k => [Event.keyMounted k]
          | none => []) ++
        [Event.widgetMounted x]) = evs ++ mountEvents a x by
        rw [hme, List.append_assoc]]
      rw [hih]
      simp [List.append_assoc]

/-!
### C10 — the generator keeps its own WidgetId across regeneration
-/

mutual

/-- Frame property of `into_subtree`: realizing one `WDescr` only
allocates fresh nodes — the root id it returns is the old fresh counter,
the counter strictly grows, every pre-existing node is untouched, and
the realized root comes out detached (no parent). -/
theorem intoSubtree_spec (d : WDescr) : ∀ (a : DArena),
    (intoSubtree a d).2 = a.fresh ∧
    a.fresh < (intoSubtree a d).1.fresh ∧
    (∀ j, j < a.fresh → (intoSubtree a d).1.get? j = a.get? j) ∧
    (intoSubtree a d).1.parentOf a.fresh = none :=
  match d with
  | .mk k v tg cs => fun a => by
    have hstep : intoSubtree a (.mk k v tg cs)
        = (intoKids (a.alloc ⟨k, v, .plain tg⟩).1 (a.alloc ⟨k, v, .plain tg⟩).2 cs,
           (a.alloc ⟨k, v, .plain tg⟩).2) := rfl
    obtain ⟨ha1, ha2, ha3, ha4⟩ := Arena.alloc_spec a (⟨k, v, .plain tg⟩ : DWidget)
    have hpf : (a.alloc ⟨k, v, .plain tg⟩).2 < (a.alloc ⟨k, v, .plain tg⟩).1.fresh := by
      rw [ha1, ha2]
      omega
    obtain ⟨hk1, hk2, hk3⟩ := intoKids_spec cs (a.alloc ⟨k, v, .plain tg⟩).1
      (a.alloc ⟨k, v, .plain tg⟩).2 hpf
    rw [hstep]
    refine ⟨ha1, ?_, ?_, ?_⟩
    · show a.fresh < (intoKids _ _ cs).fresh
      rw [ha2] at hk1
      omega
    · intro j hj
      show (intoKids _ _ cs).get? j = a.get? j
      rw [hk2 j (by rw [ha2]; omega) (by rw [ha1]; omega), ha4 j (by omega)]
    · show (intoKids _ _ cs).parentOf a.fresh = none
      rw [← ha1, hk3, ha1]
      unfold Arena.parentOf
      rw [ha3]
      rfl

/-- Frame property of the child-realization loop: it never shrinks the
fresh counter, never touches a pre-existing node other than the parent
it appends to, and never changes that parent's own parent link. -/
theorem intoKids_spec (cs : List WDescr) : ∀ (a : DArena) (p : Nat), p < a.fresh →
    a.fresh ≤ (intoKids a p cs).fresh ∧
    (∀ j, j < a.fresh → j ≠ p → (intoKids a p cs).get? j = a.get? j) ∧
    (intoKids a p cs).parentOf p = a.parentOf p :=
  match cs with
  | [] => fun a p hp => ⟨Nat.le_refl _, fun j hj hjp => rfl, rfl⟩
  | c :: cs2 => fun a p hp => by
    have hstep : intoKids a p (c :: cs2)
        = intoKids ((intoSubtree a c).1.append p (intoSubtree a c).2) p cs2 := rfl
    obtain ⟨hs1, hs2, hs3, hs4⟩ := intoSubtree_spec c a
    -- the freshly realized child root is detached, so append is two modifies
    have happ : (intoSubtree a c).1.append p (intoSubtree a c).2
        = (((intoSubtree a c).1.modifyNode p fun n =>
              { n with children := n.children ++ [(intoSubtree a c).2] }).modifyNode
            (intoSubtree a c).2 fun n => { n with parent := some p }) := by
      unfold Arena.append
      rw [Arena.detach_noop _ _ (by rw [hs1]; exact hs4)]
    have hpc : p ≠ (intoSubtree a c).2 := by
      rw [hs1]
      omega
    have hafresh : ((intoSubtree a c).1.append p (intoSubtree a c).2).fresh
        = (intoSubtree a c).1.fresh := by
      rw [happ]
      simp
    have haget : ∀ j, j < a.fresh → j ≠ p →
        ((intoSubtree a c).1.append p (intoSubtree a c).2).get? j
          = (intoSubtree a c).1.get? j := by
      intro j hj hjp
      rw [happ, Arena.get?_modifyNode_ne _ _ _ _ (by rw [hs1]; omega),
        Arena.get?_modifyNode_ne _ _ _ _ hjp]
    have hpar : ((intoSubtree a c).1.append p (intoSubtree a c).2).parentOf p
        = (intoSubtree a c).1.parentOf p := by
      rw [happ]
      unfold Arena.parentOf
      rw [Arena.get?_modifyNode_ne _ _ _ _ hpc]
      unfold Arena.modifyNode
      cases hn : ((intoSubtree a c).1.nodes p) with
      | none =>
        rw [show Arena.get? (intoSubtree a c).1 p = none from hn]
      | some nd =>
        rw [Arena.get?_setNode_self]
        rw [show Arena.get? (intoSubtree a c).1 p = some nd from hn]
        rfl
    have hplt : p < ((intoSubtree a c).1.append p (intoSubtree a c).2).fresh := by
      rw [hafresh]
      omega
    obtain ⟨hk1, hk2, hk3⟩ :=
      intoKids_spec cs2 ((intoSubtree a c).1.append p (intoSubtree a c).2) p hplt
    rw [hstep]
    refine ⟨?_, ?_, ?_⟩
    · rw [hafresh] at hk1
      omega
    · intro j hj hjp
      rw [hk2 j (by rw [hafresh]; omega) hjp, haget j hj hjp, hs3 j hj]
    · rw [hk3, hpar]
      unfold Arena.parentOf
      rw [hs3 p hp]
end

/-- Frame property of the whole realization pass: `realizeAll` only
allocates fresh nodes, so every node that existed before the pass is
unchanged after it. -/
theorem realizeAll_frame (ds : List WDescr) : ∀ a : DArena,
    a.fresh ≤ (realizeAll a ds).1.fresh ∧
    (∀ j, j < a.fresh → (realizeAll a ds).1.get? j = a.get? j) := by
  induction ds with
  | nil =>
    intro a
    exact ⟨Nat.le_refl _, fun j hj => rfl⟩
  | cons d rest ih =>
    intro a
    have hstep : realizeAll a (d :: rest)
        = ((realizeAll (intoSubtree a d).1 rest).1,
           (intoSubtree a d).2 :: (realizeAll (intoSubtree a d).1 rest).2) := rfl
    obtain ⟨hs1, hs2, hs3, hs4⟩ := intoSubtree_spec d a
    obtain ⟨hi1, hi2⟩ := ih (intoSubtree a d).1
    rw [hstep]
    refine ⟨?_, ?_⟩
    · show a.fresh ≤ (realizeAll (intoSubtree a d).1 rest).1.fresh
      omega
    · intro j hj
      show (realizeAll (intoSubtree a d).1 rest).1.get? j = a.get? j
      rw [hi2 j (by omega), hs3 j hj]

set_option maxRecDepth 8000 in
/-- C10: every successful `regen_if_need` pass preserves the
generator's own `WidgetId` (the sign) — for every fuel, `DynRender`,
sign id, tree state and pending fragment, if the sign node exists and
carries the `DynRender` object (render slot `.dynR`) before the pass
and the pass returns `some`, then after the pass the sign node still
exists and carries the `DynRender` object again: the sign id is swapped
with the first new widget's id before the branch runs and the
`DynRender` is swapped back into that node at the end, uniformly in the
generation branch taken (`DynDepth` or `WholeSubtree` — the proof never
inspects the branch's result). -/
theorem regen_preserves_sign_id (fuel : Nat) (dr : DynRender) (sign : Nat)
    (s : DState) (ds : List WDescr) (dr2 : DynRender) (s2 : DState)
    (hd : dr.dyns = some ds)
    (hsign : sign < s.arena.fresh)
    (hdyn : (s.arena.dataOf? sign).map DWidget.render = some .dynR)
    (h : regenIfNeed fuel dr sign s = some (dr2, s2)) :
    (s2.arena.get? sign).isSome = true ∧
    (s2.arena.dataOf? sign).map DWidget.render = some .dynR := by
  obtain ⟨hrf, hrg⟩ := realizeAll_frame ds s.arena
  obtain ⟨dd, hdd1, hdd2⟩ : ∃ dd, s.arena.dataOf? sign = some dd ∧ dd.render = .dynR := by
    cases hds : s.arena.dataOf? sign with
    | none =>
      rw [hds] at hdyn
      exact absurd hdyn (by simp)
    | some dd =>
      rw [hds] at hdyn
      exact ⟨dd, rfl, by simpa using hdyn⟩
  unfold regenIfNeed at h
  rw [hd] at h
  simp only [← Option.bind_eq_bind] at h
  rcases Option.bind_eq_some.mp h with ⟨q1, hq1, h⟩
  obtain ⟨dr1, A2⟩ := q1
  rcases Option.bind_eq_some.mp h with ⟨first, hfirst, h⟩
  have hAdat : (if (realizeAll s.arena ds).2 = []
      then ((emptyNode (realizeAll s.arena ds).1).1,
            [(emptyNode (realizeAll s.arena ds).1).2])
      else realizeAll s.arena ds).1.dataOf? sign = s.arena.dataOf? sign := by
    by_cases hc : (realizeAll s.arena ds).2 = []
    · rw [if_pos hc]
      show (emptyNode (realizeAll s.arena ds).1).1.dataOf? sign = _
      unfold emptyNode
      obtain ⟨he1, he2, he3, he4⟩ :=
        Arena.alloc_spec (realizeAll s.arena ds).1
          ({ key := none, value := 0, render := .plain 0 } : DWidget)
      unfold Arena.dataOf?
      rw [he4 sign (by omega), hrg sign hsign]
    · rw [if_neg hc]
      unfold Arena.dataOf?
      rw [hrg sign hsign]
  unfold swapSelfRender at hq1
  rw [hAdat, hdd1] at hq1
  injection hq1 with hq1p
  rw [Prod.mk.injEq] at hq1p
  obtain ⟨hq1a, hq1b⟩ := hq1p
  have hdr1 : dr1.selfRender = RSlot.dynR := by
    rw [← hq1a]
    exact hdd2
  cases hgi : dr.genInfo.getD
      (if s.arena.childrenOf sign = [] then .wholeSubtree 1 false else .dynDepth 1) <;>
  · rw [hgi] at h
    dsimp only at h
    rcases Option.bind_eq_some.mp h with ⟨y, hy, h⟩
    rcases Option.bind_eq_some.mp h with ⟨q3, hq3, h⟩
    obtain ⟨dr2v, afin⟩ := q3
    injection h with h1
    injection h1 with hdr2 hst
    unfold swapSelfRender at hq3
    cases hdat : y.2.arena.dataOf? sign with
    | none =>
      rw [hdat] at hq3
      exact absurd hq3 (by simp)
    | some d2 =>
      rw [hdat] at hq3
      injection hq3 with hq3p
      rw [Prod.mk.injEq] at hq3p
      obtain ⟨hq3a, hq3b⟩ := hq3p
      have hafin : afin = y.2.arena.modifyNode sign
          (fun n => { n with data := { n.data with render := dr1.selfRender } }) :=
        hq3b.symm
      obtain ⟨nd, hnd⟩ : ∃ nd, y.2.arena.get? sign = some nd := by
        unfold Arena.dataOf? at hdat
        cases hg : y.2.arena.get? sign with
        | none =>
          rw [hg] at hdat
          exact absurd hdat (by simp)
        | some nd => exact ⟨nd, rfl⟩
      have hs2a : s2.arena = afin := by
        rw [← hst]
      constructor
      · rw [hs2a, hafin, Arena.get?_modifyNode, hnd]
        rfl
      · rw [hs2a, hafin]
        unfold Arena.dataOf?
        rw [Arena.get?_modifyNode, hnd]
        simp [hdr1]

/-- Witness: the sign-preservation theorem applied in both branches —
the `DynDepth` scenario over `ddTree` and the `WholeSubtree` scenario
over `wsTree1`, each with a one-widget pending fragment at sign 1. -/
theorem regen_preserves_sign_id_witness :
    (∃ p : DynRender × DState,
      regenIfNeed 5 c6Single 1 ⟨ddTree 6, []⟩ = some p ∧
      (Arena.get? p.2.arena 1).isSome = true ∧
      (Arena.dataOf? p.2.arena 1).map DWidget.render = some RSlot.dynR) ∧
    (∃ p : DynRender × DState,
      regenIfNeed 5 (c4dr [WDescr.mk none 4 3 []]) 1 ⟨wsTree1 6, []⟩ = some p ∧
      (Arena.get? p.2.arena 1).isSome = true ∧
      (Arena.dataOf? p.2.arena 1).map DWidget.render = some RSlot.dynR) := by
  constructor
  · obtain ⟨p, hp⟩ := Option.isSome_iff_exists.mp
      (show (regenIfNeed 5 c6Single 1 ⟨ddTree 6, []⟩).isSome = true by decide)
    exact ⟨p, hp, regen_preserves_sign_id 5 c6Single 1 ⟨ddTree 6, []⟩
      [WDescr.mk none 4 3 []] p.1 p.2 rfl (by decide) (by decide) (by rw [hp])⟩
  · obtain ⟨p, hp⟩ := Option.isSome_iff_exists.mp
      (show (regenIfNeed 5 (c4dr [WDescr.mk none 4 3 []]) 1
        ⟨wsTree1 6, []⟩).isSome = true by decide)
    exact ⟨p, hp, regen_preserves_sign_id 5 (c4dr [WDescr.mk none 4 3 []]) 1
      ⟨wsTree1 6, []⟩ [WDescr.mk none 4 3 []] p.1 p.2 rfl (by decide) (by decide)
      (by rw [hp])⟩

end DynW

/-!
### C1 — identity preservation of keyed children
-/

/-- C1 (counterexample to the original claim): the claim fails in both
mechanisms.  In the widget-tree keyed repair the keyed child (node 1,
key 7, present in the old tree and reproduced by the rebuilt
generation) is reused with the same `WidgetId`, but the pass fires no
callback at all — `record_before_value` fires zero times, not exactly
once.  In a `WholeSubtree` regeneration (`wsTree2` with both keys 7 and
8 on both sides) the key-8 child does not retain its `WidgetId`: its
old node 2 is removed from the arena (the widget-level `disposed` for
id 2 is in the log) and the new key-8 widget occupies the fresh id 4
(the widget-level `mounted` for id 4 is in the log). -/
theorem keyed_child_identity_counterexample :
    ((WT.repair WT.c1Build 3 WT.c1Tree WT.c1Render).map fun pr =>
        (pr.1.events, (pr.1.arena.dataOf? 1).map fun w => (w.key, w.payload),
         pr.1.arena.parentOf 1))
      = some ([], some (some 7, 9), some 0) ∧
    ((DynW.regenIfNeed 5 DynW.c1Dyn 1 ⟨DynW.wsTree2, []⟩).map fun r =>
        (r.2.events, r.2.arena.childrenOf 0, (r.2.arena.get? 2).isSome,
         (r.2.arena.dataOf? 4).map DynW.DWidget.key))
      = some ([.recordBeforeValue 7, .recordBeforeValue 8, .widgetDisposed 3,
               .widgetDisposed 2, .widgetMounted 1, .widgetMounted 4],
              [1, 4], false, some (some 8)) :=
  ⟨by decide, by decide⟩

/-- C1 (amended): identity preservation holds mechanism by mechanism in
a weaker form than claimed.  Widget-tree keyed repair
(`try_replace_widget_or_rebuild`): a keyed child whose key matches the
new generation is reused in place with the same `WidgetId`, and no
lifecycle callback fires at all — in particular `record_before_value`
fires zero times rather than once.  `WholeSubtree` regeneration: a
keyed child present in both generations fires `record_before_value`
exactly once and no key-level `mounted` or `disposed`, but it does not
retain its `WidgetId` (unless it is the first widget of the run, whose
id is the generator's sign): the old node is removed, firing the
widget-level `disposed`, and the new widget occupies a fresh id, firing
the widget-level `mounted`. -/
theorem keyed_identity_amended :
    (∀ (fuel : Nat) (buildFn : Nat → WT.BW) (node k : Nat) (w : WT.BW)
        (nd : Node WT.BW) (stack : List Nat) (t : WT.WidgetTree) (rt : WT.RenderTree),
      t.arena.get? node = some nd → w.key = some k → nd.data.key = some k →
      w.isRender = true → node ∉ t.changedWidgets →
      ∃ t', WT.tryReplace fuel buildFn node w stack t rt = some (node :: stack, t', rt) ∧
        t'.arena.get? node = some { nd with data := w } ∧
        (∀ j, j ≠ node → t'.arena.get? j = t.arena.get? j) ∧
        t'.events = t.events) ∧
    ((DynW.regenIfNeed 5 DynW.c1Dyn 1 ⟨DynW.wsTree2, []⟩).map fun r =>
        ((r.2.events.filter fun e => e == Event.recordBeforeValue 8).length,
         (r.2.events.filter fun e =>
           e == Event.keyMounted 8 || e == Event.keyDisposed 8).length,
         (r.2.arena.get? 2).isSome,
         (r.2.arena.dataOf? 4).map DynW.DWidget.key,
         (r.2.events.filter fun e =>
           e == Event.widgetDisposed 2 || e == Event.widgetMounted 4).length))
      = some (1, 0, false, some (some 8), 2) := by
  constructor
  · intro fuel buildFn node k w nd stack t rt hn hwk hok hr hnc
    obtain ⟨t', h1, h2, h3, _, _, _, _, _, h9⟩ :=
      WT.tryReplace_same_key fuel buildFn node k w nd stack t rt hn hwk hok hr hnc
    exact ⟨t', h1, h2, h3, h9⟩
  · decide

/-- Witness for the amended identity theorem: the widget-tree half
instantiated at `quietTree`, reusing node 1 under key 7 with the event
log unchanged. -/
theorem keyed_identity_amended_witness :
    ∃ t', WT.tryReplace 1 (fun _ => WT.bwComb 0) 1 (WT.bwLeaf (some 7) 9) []
        WT.quietTree WT.leafPairRender = some ([1], t', WT.leafPairRender) ∧
      t'.events = WT.quietTree.events := by
  obtain ⟨t', h1, _, _, h9⟩ :=
    keyed_identity_amended.1 1 (fun _ => WT.bwComb 0) 1 7 (WT.bwLeaf (some 7) 9)
      ⟨some 0, [], WT.bwLeaf (some 7) 1⟩ [] WT.quietTree WT.leafPairRender rfl rfl rfl rfl
      (by decide)
  exact ⟨t', h1, h9⟩

/-!
### C6 — GenerationInfo initialization and kind immutability
-/

/-- C6: a Generator's `GenerationInfo` is initialized on its first
regeneration to `DynDepth(1)` when the generator's position already has
a child (`ddTree`) and to `WholeSubtree{width: 1, directly_spread:
false}` when it does not (`wsTree1`); once established, any successful
regeneration reports an info of the same kind; and a later generation
that would need the other kind — a multi-widget fragment under
`DynDepth` — makes `regen_if_need` hit the
`assert_eq!(new_widgets.len(), 1)` panic instead of migrating. -/
theorem gen_info_init_and_kind_fixed :
    ((DynW.regenIfNeed 5 DynW.c6Init 1 ⟨DynW.ddTree 6, []⟩).map
        fun r => r.1.genInfo) = some (some (.dynDepth 1)) ∧
    ((DynW.regenIfNeed 5 DynW.c6Init 1 ⟨DynW.wsTree1 6, []⟩).map
        fun r => r.1.genInfo) = some (some (.wholeSubtree 1 false)) ∧
    (∀ (fuel : Nat) (dr : DynW.DynRender) (sign : Nat) (s : DynW.DState)
        (dr2 : DynW.DynRender) (s2 : DynW.DState) (g : DynW.DynWidgetGenInfo),
      DynW.regenIfNeed fuel dr sign s = some (dr2, s2) → dr.genInfo = some g →
      ∃ g2, dr2.genInfo = some g2 ∧ g.sameKind g2 = true) ∧
    (∀ (fuel : Nat) (dr : DynW.DynRender) (sign : Nat) (s : DynW.DState)
        (d : Nat) (ds : List DynW.WDescr),
      dr.genInfo = some (.dynDepth d) → dr.dyns = some ds → 2 ≤ ds.length →
      DynW.regenIfNeed fuel dr sign s = none) := by
  refine ⟨by decide, by decide, ?_, ?_⟩
  · intro fuel dr sign s dr2 s2 g h hg
    exact DynW.regenIfNeed_kind_fixed fuel dr sign s dr2 s2 g h hg
  · intro fuel dr sign s d ds hg hd hlen
    exact DynW.regenIfNeed_assert_multi fuel dr sign s d ds hg hd hlen

/-- Witness for the generation-info theorem: kind preservation observed
on a successful `DynDepth` regeneration of `c6Single` over `ddTree`,
and the kind-switch panic observed on `c6Multi`. -/
theorem gen_info_init_and_kind_fixed_witness :
    (∃ dr2 s2 g2,
      DynW.regenIfNeed 5 DynW.c6Single 1 ⟨DynW.ddTree 6, []⟩ = some (dr2, s2) ∧
      dr2.genInfo = some g2 ∧
      DynW.DynWidgetGenInfo.sameKind (.dynDepth 1) g2 = true) ∧
    DynW.regenIfNeed 5 DynW.c6Multi 1 ⟨DynW.ddTree 6, []⟩ = none := by
  constructor
  · have hsome : (DynW.regenIfNeed 5 DynW.c6Single 1 ⟨DynW.ddTree 6, []⟩).isSome
        = true := by decide
    obtain ⟨p, hp⟩ := Option.isSome_iff_exists.mp hsome
    obtain ⟨g2, h1, h2⟩ :=
      gen_info_init_and_kind_fixed.2.2.1 5 DynW.c6Single 1 ⟨DynW.ddTree 6, []⟩
        p.1 p.2 (.dynDepth 1) (by rw [hp]) rfl
    exact ⟨p.1, p.2, g2, by rw [hp], h1, h2⟩
  · exact gen_info_init_and_kind_fixed.2.2.2 5 DynW.c6Multi 1 ⟨DynW.ddTree 6, []⟩ 1
      [DynW.WDescr.mk none 4 3 [], DynW.WDescr.mk none 5 4 []] rfl rfl (by decide)

/-!
### C7 — the spread one-shot mount pass
-/

/-- C7: for a Generator constructed via `spread()` — whose generation
info is `WholeSubtree { width, directly_spread: true }` and whose
pending generation was consumed by the construction — the anchor's
first layout pass fires `mounted` on the `width` consecutive siblings
placed at construction time (the anchor itself and the other `width-1`
siblings) and clears `directly_spread`, and the very next layout of the
same generator is a complete no-op: same generator state, same tree
state, no further `mounted`. -/
theorem spread_one_shot_mount_pass (fuel : Nat) (ds : List DynW.WDescr)
    (run : List Nat) (sign : Nat) (s : DynW.DState)
    (hrun : DynW.sibRunOk s.arena run = true)
    (hlen : run.length = (DynW.spread ds).2.length)
    (hhead : run.head? = some sign) :
    ∃ dr2,
      DynW.performLayout fuel (DynW.spread ds).1 sign s
        = some (dr2, { s with
            events := s.events ++ (run.map (DynW.mountEvents s.arena)).flatten }) ∧
      dr2.genInfo = some (.wholeSubtree (DynW.spread ds).2.length false) ∧
      dr2.dyns = none ∧
      DynW.performLayout fuel dr2 sign
          { s with events := s.events ++ (run.map (DynW.mountEvents s.arena)).flatten }
        = some (dr2, { s with
            events := s.events ++ (run.map (DynW.mountEvents s.arena)).flatten }) := by
  refine ⟨{ dyns := none, selfRender := .plain 0,
            genInfo := some (.wholeSubtree (DynW.spread ds).2.length false) },
          ?_, rfl, rfl, ?_⟩
  · unfold DynW.performLayout
    have htake : DynW.takeSpreadCnt (DynW.spread ds).1
        = ({ dyns := none, selfRender := .plain 0,
             genInfo := some (.wholeSubtree (DynW.spread ds).2.length false) },
           some (DynW.spread ds).2.length) := rfl
    rw [htake]
    dsimp only
    have hm := DynW.mountSiblingsLoop_spec s.arena run s.events hrun
    rw [hhead, hlen] at hm
    rw [hm]
    simp only [Option.bind_eq_bind, Option.some_bind]
  · rfl

/-- Witness for the spread one-shot theorem: the two-widget spread
`c7Descrs` already mounted as `c7Tree`, anchored at node 1. -/
theorem spread_one_shot_mount_pass_witness :
    ∃ dr2,
      DynW.performLayout 3 (DynW.spread DynW.c7Descrs).1 1 ⟨DynW.c7Tree, []⟩
        = some (dr2, ⟨DynW.c7Tree,
            [] ++ ([1, 2].map (DynW.mountEvents DynW.c7Tree)).flatten⟩) ∧
      dr2.genInfo = some (.wholeSubtree (DynW.spread DynW.c7Descrs).2.length false) ∧
      dr2.dyns = none ∧
      DynW.performLayout 3 dr2 1
          ⟨DynW.c7Tree, [] ++ ([1, 2].map (DynW.mountEvents DynW.c7Tree)).flatten⟩
        = some (dr2, ⟨DynW.c7Tree,
            [] ++ ([1, 2].map (DynW.mountEvents DynW.c7Tree)).flatten⟩) :=
  spread_one_shot_mount_pass 3 DynW.c7Descrs [1, 2] 1 ⟨DynW.c7Tree, []⟩
    (by decide) (by decide) rfl

/-!
### C4 — the WholeSubtree sibling-count invariant
-/

namespace DynW

set_option maxRecDepth 8000 in
/-- C4: after a `WholeSubtree` regeneration of the generator at node 1
under parent 0 (`wsTree1`), driven by any flat fragment `ds`, the
number of sibling widgets occupying the generator's run equals the new
fragment's length; a fragment of zero widgets is normalized to exactly
one placeholder widget (key `none`, value 0) so the run is never empty;
the recorded `WholeSubtree` width is updated to the new run's length;
and the old second id (node 2, holding the previous generation) is
deallocated. -/
theorem whole_subtree_regen_sibling_count (ds : List WDescr)
    (hflat : ∀ d ∈ ds, d.children = []) :
    ∃ dr2 s2,
      regenIfNeed 5 (c4dr ds) 1 ⟨wsTree1 0, []⟩ = some (dr2, s2) ∧
      dr2.genInfo = some (.wholeSubtree (if ds.length = 0 then 1 else ds.length) false) ∧
      s2.arena.childrenOf 0
        = (if ds.length = 0 then [1] else 1 :: List.range' 3 (ds.length - 1)) ∧
      (s2.arena.childrenOf 0).length = (if ds.length = 0 then 1 else ds.length) ∧
      (s2.arena.get? 2).isSome = false ∧
      (ds.length = 0 → s2.arena.dataOf? 1
        = some { key := none, value := 0, render := .dynR }) := by
  cases ds with
  | nil =>
    have hsome : (regenIfNeed 5 (c4dr []) 1 ⟨wsTree1 0, []⟩).isSome = true := by decide
    obtain ⟨p, hp⟩ := Option.isSome_iff_exists.mp hsome
    have hproj : ((regenIfNeed 5 (c4dr []) 1 ⟨wsTree1 0, []⟩).map fun r =>
        (r.1.genInfo, r.2.arena.childrenOf 0, (r.2.arena.get? 2).isSome,
         r.2.arena.dataOf? 1))
        = some (some (.wholeSubtree 1 false), [1], false,
                some { key := none, value := 0, render := .dynR }) := by decide
    rw [hp] at hproj
    simp only [Option.map_some'] at hproj
    have h := Option.some.inj hproj
    have h1 := congrArg (fun t => t.1) h
    have h2 := congrArg (fun t => t.2.1) h
    have h3 := congrArg (fun t => t.2.2.1) h
    have h4 := congrArg (fun t => t.2.2.2) h
    simp only at h1 h2 h3 h4
    refine ⟨p.1, p.2, by rw [hp], by simpa using h1, by simpa using h2, ?_, h3,
      fun _ => h4⟩
    rw [h2]
    simp
  | cons d rest =>
    have hne0 : ¬((d :: rest).length = 0) := by simp
    obtain ⟨hr1, hr2, hr3, hr4⟩ := realizeAll_flat (d :: rest) hflat (wsTree1 0)
    set n := rest.length with hn
    set A : DArena := (realizeAll (wsTree1 0) (d :: rest)).1 with hA
    have hWf : (wsTree1 0).fresh = 2 := rfl
    rw [hWf] at hr1 hr2 hr3 hr4
    have hA0 : A.get? 0 = some ⟨none, [1], dynParent⟩ := by
      rw [hr3 0 (by omega)]
      rfl
    have hA1 : A.get? 1 = some ⟨some 0, [], { key := none, value := 0, render := .dynR }⟩ := by
      rw [hr3 1 (by omega)]
      rfl
    have hA2 : A.get? 2 = some ⟨none, [], d.toData⟩ := by
      have := hr4 0 (by simp)
      simpa using this
    have hAj : ∀ j, 3 ≤ j → j < 3 + n →
        ∃ dd, A.get? j = some ⟨none, [], dd⟩ := by
      intro j h3 hlt
      refine ⟨((d :: rest).get ⟨j - 2, by simp; omega⟩).toData, ?_⟩
      have := hr4 (j - 2) (by simp; omega)
      rw [show 2 + (j - 2) = j by omega] at this
      exact this
    set A2 : DArena := A.modifyNode 1
      (fun nd => { nd with data := { nd.data with render := .plain 0 } }) with hA2def
    have hA2_0 : A2.get? 0 = some ⟨none, [1], dynParent⟩ := by
      rw [hA2def, Arena.get?_modifyNode_ne _ _ _ _ (by omega)]
      exact hA0
    have hA2_1 : A2.get? 1
        = some ⟨some 0, [], { key := none, value := 0, render := .plain 0 }⟩ := by
      rw [hA2def, Arena.get?_modifyNode, hA1]
      rfl
    have hA2_2 : A2.get? 2 = some ⟨none, [], d.toData⟩ := by
      rw [hA2def, Arena.get?_modifyNode_ne _ _ _ _ (by omega)]
      exact hA2
    have hA2j : ∀ j, 3 ≤ j → j < 3 + n → ∃ dd, A2.get? j = some ⟨none, [], dd⟩ := by
      intro j h3 hlt
      obtain ⟨dd, hdd⟩ := hAj j h3 hlt
      exact ⟨dd, by rw [hA2def, Arena.get?_modifyNode_ne _ _ _ _ (by omega)]; exact hdd⟩
    set B : DArena := swapId A2 1 2 with hBdef
    have hB0 : B.get? 0 = some ⟨none, [2], dynParent⟩ := by
      rw [hBdef, swapId_get?]
      show (A2.get? 0).map _ = _
      rw [hA2_0]
      rfl
    have hB1 : B.get? 1 = some ⟨none, [], d.toData⟩ := by
      rw [hBdef, swapId_get?]
      show (A2.get? 2).map _ = _
      rw [hA2_2]
      rfl
    have hB2 : B.get? 2 = some ⟨some 0, [], { key := none, value := 0, render := .plain 0 }⟩ := by
      rw [hBdef, swapId_get?]
      show (A2.get? 1).map _ = _
      rw [hA2_1]
      rfl
    have hBj : ∀ j, 3 ≤ j → j < 3 + n → ∃ dd, B.get? j = some ⟨none, [], dd⟩ := by
      intro j h3 hlt
      obtain ⟨dd, hdd⟩ := hA2j j h3 hlt
      refine ⟨dd, ?_⟩
      rw [hBdef, swapId_get?]
      rw [show swapNat 1 2 j = j by unfold swapNat; rw [if_neg (by omega), if_neg (by omega)]]
      rw [hdd]
      rfl
    set ids : List Nat := 1 :: List.range' 3 n with hids
    have hidsnd : ids.Nodup := by
      rw [hids]
      refine List.nodup_cons.mpr ⟨?_, List.nodup_range' _ _ _ (by norm_num)⟩
      intro hc
      have := List.mem_range'_1.mp hc
      omega
    have hconds : ∀ m ∈ ids.reverse,
        ((∃ nd, B.get? m = some nd ∧ nd.parent = none) ∧
         m ∉ (Node.children (⟨none, [2], dynParent⟩ : Node DWidget)) ∧
         m ≠ 0 ∧ m ≠ 2) := by
      intro m hm
      rw [List.mem_reverse, hids] at hm
      rcases List.mem_cons.mp hm with rfl | hm2
      · exact ⟨⟨_, hB1, rfl⟩, by simp, by omega, by omega⟩
      · have hb := List.mem_range'_1.mp hm2
        obtain ⟨dd, hdd⟩ := hBj m hb.1 (by omega)
        exact ⟨⟨_, hdd, rfl⟩, by simp; omega, by omega, by omega⟩
    obtain ⟨⟨pd2, hp1, hp2, hp3, hp4⟩, hrun2, hfr2, hfresh2⟩ :=
      insertRunBefore_spec ids.reverse B 0 2 ⟨none, [2], dynParent⟩ [] []
        hB0 rfl (by simp [Arena.parentOf, hB2]) (by simp) hconds
        (List.nodup_reverse.mpr hidsnd)
    simp only [List.reverse_reverse, List.nil_append] at hp2
    set C : DArena := insertRunBefore B 2 ids.reverse with hCdef
    have hC2 : C.get? 2
        = some ⟨some 0, [], { key := none, value := 0, render := .plain 0 }⟩ := by
      rw [hCdef, hfr2 2 (by omega) (by
        rw [List.mem_reverse, hids]
        intro hc
        rcases List.mem_cons.mp hc with hc2 | hc2
        · omega
        · have := List.mem_range'_1.mp hc2
          omega)]
      exact hB2
    have hC1 : C.get? 1 = some ⟨some 0, [], d.toData⟩ := by
      have := hrun2 1 (by rw [List.mem_reverse, hids]; exact List.mem_cons_self _ _)
        ⟨none, [], d.toData⟩ hB1
      rw [hCdef]
      exact this
    have hCj : ∀ j, 3 ≤ j → j < 3 + n → ∃ dd, C.get? j = some ⟨some 0, [], dd⟩ := by
      intro j h3 hlt
      obtain ⟨dd, hdd⟩ := hBj j h3 hlt
      refine ⟨dd, ?_⟩
      have := hrun2 j (by
        rw [List.mem_reverse, hids]
        refine List.mem_cons_of_mem _ ?_
        exact List.mem_range'_1.mpr ⟨h3, by omega⟩) _ hdd
      rw [hCdef]
      exact this
    have hC0ch : C.childrenOf 0 = ids ++ [2] := by
      unfold Arena.childrenOf
      rw [hCdef, hp1]
      simp only [Option.map_some', Option.getD_some]
      rw [hp2]
    have h2nids : (2 : Nat) ∉ ids := by
      rw [hids]
      intro hc
      rcases List.mem_cons.mp hc with hc2 | hc2
      · omega
      · have := List.mem_range'_1.mp hc2
        omega
    have hik2 : inspectKey? C 2 = some none := by
      simp [inspectKey?, Arena.dataOf?, hC2]
    have hck : collectOldKeys C 1 (some 2) [] = some [] := by
      simp only [collectOldKeys, Option.bind_eq_bind, Option.some_bind]
      rw [hik2]
      simp only [Option.some_bind]
    have hpres : ∀ m ∈ ids, ((⟨C, []⟩ : DState).arena.dataOf? m).isSome = true := by
      intro m hm
      rw [hids] at hm
      rcases List.mem_cons.mp hm with rfl | hm2
      · simp [Arena.dataOf?, hC1]
      · have hb := List.mem_range'_1.mp hm2
        obtain ⟨dd, hdd⟩ := hCj m hb.1 (by omega)
        simp [Arena.dataOf?, hdd]
    obtain ⟨s2m, hm1, hm2⟩ := matchKeysPass_empty ids ⟨C, []⟩ hpres
    obtain ⟨hrm1, hrm2, hrm3, hrm4, hrm5, hrm6⟩ :=
      removeSubtree_leaf s2m 2 0
        ⟨some 0, [], { key := none, value := 0, render := .plain 0 }⟩
        (by rw [hm2]; exact hC2) rfl rfl (by omega)
    have hDch0 : (removeSubtree s2m 2).arena.childrenOf 0 = ids := by
      rw [hrm3, hm2, hC0ch]
      exact erase_append_singleton ids 2 h2nids
    have hD1 : (removeSubtree s2m 2).arena.get? 1 = some ⟨some 0, [], d.toData⟩ := by
      rw [hrm2 1 (by omega) (by omega), hm2]
      exact hC1
    have hbeq : regenWholeSubtree 2 1 false ids ⟨B, []⟩
        = some (.wholeSubtree ids.length false,
                ids.foldl onMountedSubtree (removeSubtree s2m 2)) := by
      unfold regenWholeSubtree
      rw [← hCdef]
      dsimp only
      rw [hck]
      simp only [Option.bind_eq_bind, Option.some_bind]
      rw [hm1]
      simp only [Option.some_bind]
      simp only [disposeLeftovers, Option.some_bind]
      rw [removeRun_one]
      rfl
    have hE1 : swapSelfRender ⟨none, .plain 0, some (.wholeSubtree 1 false)⟩ A 1
        = some (⟨none, .dynR, some (.wholeSubtree 1 false)⟩, A2) := by
      unfold swapSelfRender
      rw [show A.dataOf? 1 = some { key := none, value := 0, render := .dynR } by
        simp [Arena.dataOf?, hA1]]
    have hSf_arena : (ids.foldl onMountedSubtree (removeSubtree s2m 2)).arena
        = (removeSubtree s2m 2).arena := foldl_onMountedSubtree_arena ids _
    have hE4 : swapSelfRender ⟨none, .dynR, some (.wholeSubtree 1 false)⟩
        (ids.foldl onMountedSubtree (removeSubtree s2m 2)).arena 1
        = some (⟨none, .plain d.tag, some (.wholeSubtree 1 false)⟩,
            (removeSubtree s2m 2).arena.modifyNode 1
              (fun nd => { nd with data := { nd.data with render := .dynR } })) := by
      unfold swapSelfRender
      rw [hSf_arena]
      rw [show (removeSubtree s2m 2).arena.dataOf? 1 = some d.toData by
        simp [Arena.dataOf?, hD1]]
      rfl
    have hneq : ¬((realizeAll (wsTree1 0) (d :: rest)).2 = []) := by
      rw [hr1]
      intro hc
      have := congrArg List.length hc
      simp [List.length_range'] at this
    have hmain : regenIfNeed 5 (c4dr (d :: rest)) 1 ⟨wsTree1 0, []⟩
        = some (⟨none, .plain d.tag, some (.wholeSubtree ids.length false)⟩,
            { arena := (removeSubtree s2m 2).arena.modifyNode 1
                (fun nd => { nd with data := { nd.data with render := .dynR } }),
              events := (ids.foldl onMountedSubtree (removeSubtree s2m 2)).events }) := by
      unfold regenIfNeed
      simp only [c4dr, Option.getD_some]
      rw [if_neg hneq]
      rw [← hA]
      rw [hE1]
      simp only [Option.bind_eq_bind, Option.some_bind]
      rw [hr1]
      rw [show List.range' 2 ((d :: rest).length) = 2 :: List.range' 3 n by
        simp only [List.length_cons, ← hn]
        simpa using List.range'_succ 2 n 1]
      simp only [List.head?_cons, Option.some_bind, List.tail_cons]
      rw [← hids, ← hBdef]
      rw [hbeq]
      simp only [Option.some_bind]
      rw [hE4]
      simp only [Option.some_bind]
    refine ⟨_, _, hmain, ?_, ?_, ?_, ?_, ?_⟩
    · show some (DynWidgetGenInfo.wholeSubtree ids.length false)
          = some (DynWidgetGenInfo.wholeSubtree
              (if (d :: rest).length = 0 then 1 else (d :: rest).length) false)
      rw [if_neg hne0, hids]
      simp [List.length_range', hn]
    · show ((removeSubtree s2m 2).arena.modifyNode 1
          (fun nd => { nd with data := { nd.data with render := .dynR } })).childrenOf 0 = _
      rw [Arena.childrenOf_modifyNode_presChildren ((removeSubtree s2m 2).arena) 1 0
        (fun nd => { nd with data := { nd.data with render := .dynR } }) (fun nd => rfl)]
      rw [hDch0, if_neg hne0, hids]
      simp [hn]
    · show (((removeSubtree s2m 2).arena.modifyNode 1
          (fun nd => { nd with data := { nd.data with render := .dynR } })).childrenOf 0).length = _
      rw [Arena.childrenOf_modifyNode_presChildren ((removeSubtree s2m 2).arena) 1 0
        (fun nd => { nd with data := { nd.data with render := .dynR } }) (fun nd => rfl)]
      rw [hDch0, if_neg hne0, hids]
      simp [List.length_range', hn]
    · show (((removeSubtree s2m 2).arena.modifyNode 1
          (fun nd => { nd with data := { nd.data with render := .dynR } })).get? 2).isSome = false
      rw [Arena.get?_modifyNode_ne _ _ _ _ (by omega), hrm1]
      rfl
    · intro hc
      exact absurd hc hne0



/-- Witness for the sibling-count theorem: the three-widget flat
fragment `c4Descrs` regenerated over `wsTree1`. -/
theorem whole_subtree_regen_sibling_count_witness :
    ∃ dr2 s2,
      regenIfNeed 5 (c4dr c4Descrs) 1 ⟨wsTree1 0, []⟩ = some (dr2, s2) ∧
      dr2.genInfo = some (.wholeSubtree 3 false) ∧
      s2.arena.childrenOf 0 = [1, 3, 4] ∧
      (s2.arena.childrenOf 0).length = 3 ∧
      (s2.arena.get? 2).isSome = false ∧
      (c4Descrs.length = 0 → s2.arena.dataOf? 1
        = some { key := none, value := 0, render := .dynR }) :=
  whole_subtree_regen_sibling_count c4Descrs (by
    intro d hd
    rcases List.mem_cons.mp hd with rfl | hd
    · rfl
    rcases List.mem_cons.mp hd with rfl | hd
    · rfl
    rcases List.mem_cons.mp hd with rfl | hd
    · rfl
    exact absurd hd (List.not_mem_nil d))

end DynW

end Ribir
